import Mathlib

/-!
# Data-source mapper: attribute merge and entity mapping

A shallow embedding of `internal/mapper/datasource_mapper.go` and
`internal/mapper/oas/attribute.go`.

Go slices of attributes are embedded as `List Attribute` values. The merge of
the source mutates `mainSlice` in place; the embedding returns the final
contents of that slice, for arguments that are separate trees (or, when the
same tree is passed twice, for the value it denotes).
-/

namespace Mapper

/-! ## Data model -/

/-- Modelled from the spec: `schema.ComputedOptionalRequired` of the IR library,
the classification of an attribute occurrence. -/
inductive Computability
  | Required
  | Optional
  | Computed
  | ComputedOptional
  deriving DecidableEq, Repr

/-- The seven attribute variants, without their payload. -/
inductive Kind
  | String
  | Integer
  | Number
  | Boolean
  | List
  | ListNested
  | SingleNested
  deriving DecidableEq, Repr

mutual
/-- Modelled from the spec: `schema.ElementType` of the IR library, the shape of
the elements of a `List` attribute: primitive, a list again, or a nested object
with its own ordered child attribute list. -/
inductive ElementType
  | String
  | Integer
  | Number
  | Boolean
  | List (elementType : ElementType)
  | Object (attributes : List Attribute)
/-- Modelled from the spec: the variant of a `datasource.Attribute` with the
payload of the collection variants (`List.ElementType`,
`ListNested.NestedObject.Attributes`, `SingleNested.Attributes`). -/
inductive Variant
  | String
  | Integer
  | Number
  | Boolean
  | List (elementType : ElementType)
  | ListNested (attributes : List Attribute)
  | SingleNested (attributes : List Attribute)
/-- Modelled from the spec: `datasource.Attribute` of the IR library, a tagged
union keyed by `Name` with the common fields computability, description and
sensitive. -/
inductive Attribute
  | mk (Name : String) (computability : Computability) (description : Option String)
      (sensitive : Bool) (variant : Variant)
end

/-- Field `Name` of an attribute. -/
def Attribute.Name : Attribute → String
  | .mk n _ _ _ _ => n

/-- Computability of an attribute. -/
def Attribute.computability : Attribute → Computability
  | .mk _ k _ _ _ => k

/-- Description of an attribute. -/
def Attribute.description : Attribute → Option String
  | .mk _ _ d _ _ => d

/-- Sensitive flag of an attribute. -/
def Attribute.sensitive : Attribute → Bool
  | .mk _ _ _ s _ => s

/-- Variant (with payload) of an attribute. -/
def Attribute.variant : Attribute → Variant
  | .mk _ _ _ _ v => v

/-- The variant of an attribute without its payload. -/
def Variant.kind : Variant → Kind
  | .String => Kind.String
  | .Integer => Kind.Integer
  | .Number => Kind.Number
  | .Boolean => Kind.Boolean
  | .List _ => Kind.List
  | .ListNested _ => Kind.ListNested
  | .SingleNested _ => Kind.SingleNested

/-- The variant tag of an attribute. -/
def Attribute.kind (a : Attribute) : Kind := a.variant.kind

/-- String, Integer, Number and Boolean are the primitive variants. -/
def Kind.isPrimitive : Kind → Bool
  | .String => true
  | .Integer => true
  | .Number => true
  | .Boolean => true
  | _ => false

/-- The name sequence of an attribute list. -/
def names (l : List Attribute) : List String := l.map Attribute.Name

/-! ## The attribute merger (`datasource_mapper.go`, lines 129-164) -/

/-- The loop over `mainSlice` for one `compareAttribute` (lines 135-159): the
first entry of `mainSlice` with the name of `compareAttribute` is replaced by
`combine` of it and the scan stops (`break`); when no entry has that name,
`compareAttribute` is appended. -/
def mergeInto (combine : Attribute → Attribute) (compareAttribute : Attribute) :
    List Attribute → List Attribute
  | [] => [compareAttribute]
  | mainAttribute :: rest =>
    if mainAttribute.Name = compareAttribute.Name then combine mainAttribute :: rest
    else mainAttribute :: mergeInto combine compareAttribute rest

mutual
/-- The body of the outer loop for one `attributeSlice` (lines 134-160), which
is also what a recursive call `mergeDataSourceAttributes(a, b)` computes. -/
def mergeSlice (mainSlice : List Attribute) : List Attribute → List Attribute
  | [] => mainSlice
  | compareAttribute :: rest =>
    mergeSlice (mergeInto (mergeNested compareAttribute) compareAttribute mainSlice) rest
/-- The nested merge at a name match (lines 139-149): `mergeNested c m` is what
`mainSlice[mainIndex]` holds afterwards, for `compareAttribute = c` and
`mainAttribute = m`. -/
def mergeNested : Attribute → Attribute → Attribute
  | .mk _ _ _ _ (.SingleNested cs), .mk n k d s (.SingleNested ms) =>
    .mk n k d s (.SingleNested (mergeSlice ms cs))
  | .mk _ _ _ _ (.ListNested cs), .mk n k d s (.ListNested ms) =>
    .mk n k d s (.ListNested (mergeSlice ms cs))
  | .mk _ _ _ _ (.List ce), .mk n k d s (.List me) =>
    .mk n k d s (.List (mergeElementType me ce))
  | _, m => m
/-- Modelled from the spec: `mergeElementType`, called at line 147 and defined
outside the files at hand. Two nested-object element types merge their child
attribute lists by the nested-object rule; otherwise the main element type wins
unchanged. -/
def mergeElementType (mainElementType : ElementType) : ElementType → ElementType
  | .Object cs =>
    match mainElementType with
    | .Object ms => .Object (mergeSlice ms cs)
    | m => m
  | _ => mainElementType
end

/-- Function `mergeDataSourceAttributes(mainSlice, mergeAttributeSlices...)`:
every merge slice is applied to the main slice in sequence. -/
def mergeDataSourceAttributes (mainSlice : List Attribute)
    (mergeAttributeSlices : List (List Attribute)) : List Attribute :=
  mergeAttributeSlices.foldl mergeSlice mainSlice

/-- One step of the name sequence of a merge: a name not seen yet is appended. -/
def addName (acc : List String) (n : String) : List String :=
  if n ∈ acc then acc else acc ++ [n]

/-- Both attributes are `SingleNested`, both are `ListNested` or both are
`List`: the three situations in which lines 140-149 change the main entry. -/
def sameNested (a c : Attribute) : Bool :=
  decide (a.kind = c.kind) && !a.kind.isPrimitive

/-- Everything of an attribute but the payload of its variant: name, variant
tag, computability, description and sensitive flag. -/
def Attribute.shell (a : Attribute) : String × Kind × Computability × Option String × Bool :=
  (a.Name, a.kind, a.computability, a.description, a.sensitive)

/-- The attribute carries the name `n`. -/
def named (n : String) (a : Attribute) : Bool := decide (a.Name = n)

/-- The child attribute list of a `SingleNested` or `ListNested` attribute. -/
def Attribute.children : Attribute → List Attribute
  | .mk _ _ _ _ (.SingleNested cs) => cs
  | .mk _ _ _ _ (.ListNested cs) => cs
  | _ => []

/-! ### Sample attributes -/

/-- A String attribute without description. -/
def stringAttribute (n : String) (k : Computability) : Attribute :=
  .mk n k none false .String

/-- A SingleNested attribute without description. -/
def singleNestedAttribute (n : String) (k : Computability) (cs : List Attribute) : Attribute :=
  .mk n k none false (.SingleNested cs)

/-- A ListNested attribute without description. -/
def listNestedAttribute (n : String) (k : Computability) (cs : List Attribute) : Attribute :=
  .mk n k none false (.ListNested cs)

/-- A List attribute without description. -/
def listAttribute (n : String) (k : Computability) (e : ElementType) : Attribute :=
  .mk n k none false (.List e)

/-! ### The data-model invariant: sibling names are unique at every level -/

mutual
/-- The names of the list are pairwise distinct, and so at every nesting level
below it. -/
def uniqueNamesList : List Attribute → Bool
  | [] => true
  | a :: rest =>
    decide (a.Name ∉ names rest) && uniqueNamesAttribute a && uniqueNamesList rest
/-- Sibling names are unique at every nesting level of the attribute. -/
def uniqueNamesAttribute : Attribute → Bool
  | .mk _ _ _ _ v => uniqueNamesVariant v
/-- Sibling names are unique at every nesting level of the variant payload. -/
def uniqueNamesVariant : Variant → Bool
  | .List e => uniqueNamesElementType e
  | .ListNested cs => uniqueNamesList cs
  | .SingleNested cs => uniqueNamesList cs
  | _ => true
/-- Sibling names are unique at every nesting level of the element type. -/
def uniqueNamesElementType : ElementType → Bool
  | .List e => uniqueNamesElementType e
  | .Object cs => uniqueNamesList cs
  | _ => true
end

/-! ## Go maps, results and outcomes -/

/-- A Go `map[string]V`: its entries in some iteration order, with pairwise
distinct keys. -/
structure GoMap (V : Type) where
  entries : List (String × V)
  nodup : (entries.map Prod.fst).Nodup

/-- The keys of a map, in its iteration order. -/
def GoMap.keys {V : Type} (m : GoMap V) : List String := m.entries.map Prod.fst

/-- The index expression `m[k]` with the comma-ok form: the value and whether the
key is present. -/
def GoMap.get? {V : Type} (m : GoMap V) (k : String) : Option V := m.entries.lookup k

/-- The index expression `m[k]`: the value stored under `k`, the zero value of
`V` (here `default`) when the key is absent. -/
def GoMap.get {V : Type} [Inhabited V] (m : GoMap V) (k : String) : V :=
  (m.get? k).getD default

/-- Modelled from the spec: `util.SortedKeys`, the keys of a map in ascending
lexicographic order, strings being compared character by character (the order
`≤` of `String`). -/
def SortedKeys {V : Type} (m : GoMap V) : List String :=
  m.keys.insertionSort (fun a b => a.toList ≤ b.toList)

/-- What a call of a Go function with result `(*T, error)` does: it returns a
value and a nil error, returns a nil value and an error, or does not return
because it dereferences a nil pointer. -/
inductive Outcome (α : Type)
  | ok (value : α)
  | error (err : String)
  | panic

/-! ## Inputs of the mapper -/

/-- Modelled from the spec: `oas.SchemaOpts`, of which the mapper sets
`OverrideDescription`. -/
structure SchemaOpts where
  OverrideDescription : String := ""

/-- Modelled from the spec: `oas.GlobalSchemaOpts`, of which the mapper sets
`OverrideComputability`. -/
structure GlobalSchemaOpts where
  OverrideComputability : Option Computability := none

/-- Modelled from the spec: `oas.OASSchema`, a resolved schema: its core type
tag `Type`, the properties of `s.Schema` (property name to schema proxy) and
whatever else the sub-builders read of `s.Schema`. -/
structure OASSchema (Proxy Raw : Type) where
  Type_ : String
  Properties : GoMap Proxy
  Schema : Raw

/-- Modelled from the spec: a parameter of an operation (`high.Parameter`). -/
structure Parameter (Proxy : Type) where
  Name : String
  In : String
  Description : String
  Required : Bool
  Schema : Proxy

/-- Modelled from the spec: an operation (`high.Operation`): its parameter list,
and what the schema resolver reads, `Rest`. -/
structure Operation (Proxy Rest : Type) where
  Parameters : List (Parameter Proxy)
  Rest : Rest

namespace explorer

/-- Modelled from the spec: `explorer.DataSource`, the read operation (nil is
`none`) and the aliases of `SchemaOptions.AttributeOptions.Aliases`. -/
structure DataSource (Proxy Rest : Type) where
  ReadOp : Option (Operation Proxy Rest)
  Aliases : GoMap String

end explorer

instance (Proxy Rest : Type) : Inhabited (explorer.DataSource Proxy Rest) :=
  ⟨⟨none, ⟨[], List.nodup_nil⟩⟩⟩

namespace datasource

/-- Modelled from the spec: `datasource.Schema` of the IR library. -/
structure Schema where
  Attributes : List Attribute

/-- Modelled from the spec: `datasource.DataSource` of the IR library, an
emitted entity. -/
structure DataSource where
  Name : String
  Schema : Schema

end datasource

/-- The functions of package `oas` that the files at hand call and do not
define. Each returns a value or an error (with a nil pointer). -/
structure Builders (Proxy Rest Raw : Type) where
  BuildSchemaFromResponse : Option (Operation Proxy Rest) → SchemaOpts → GlobalSchemaOpts →
    Except String (OASSchema Proxy Raw)
  BuildSchema : Proxy → SchemaOpts → GlobalSchemaOpts → Except String (OASSchema Proxy Raw)
  GetBehavior : OASSchema Proxy Raw → String → Computability
  BuildStringDataSource : OASSchema Proxy Raw → String → Computability →
    Except String Attribute
  BuildIntegerDataSource : OASSchema Proxy Raw → String → Computability →
    Except String Attribute
  BuildNumberDataSource : OASSchema Proxy Raw → String → Computability →
    Except String Attribute
  BuildBoolDataSource : OASSchema Proxy Raw → String → Computability →
    Except String Attribute
  BuildListDataSource : OASSchema Proxy Raw → String → Computability →
    Except String Attribute
  BuildSingleNestedDataSource : OASSchema Proxy Raw → String → Computability →
    Except String Attribute

/-- Modelled from the spec: the type tags of package `util`. -/
def OAS_type_string : String := "string"
/-- Modelled from the spec: the type tags of package `util`. -/
def OAS_type_integer : String := "integer"
/-- Modelled from the spec: the type tags of package `util`. -/
def OAS_type_number : String := "number"
/-- Modelled from the spec: the type tags of package `util`. -/
def OAS_type_boolean : String := "boolean"
/-- Modelled from the spec: the type tags of package `util`. -/
def OAS_type_array : String := "array"
/-- Modelled from the spec: the type tags of package `util`. -/
def OAS_type_object : String := "object"
/-- Modelled from the spec: the parameter locations of package `util`. -/
def OAS_param_path : String := "path"
/-- Modelled from the spec: the parameter locations of package `util`. -/
def OAS_param_query : String := "query"

/-! ## The attribute builder (`oas/attribute.go`, lines 60-103) -/

section
variable {Proxy Rest Raw : Type}

/-- Method `BuildDataSourceAttribute` (lines 86-103): dispatch on the type tag. -/
def BuildDataSourceAttribute (b : Builders Proxy Rest Raw) (s : OASSchema Proxy Raw)
    (name : String) (behavior : Computability) : Except String Attribute :=
  if s.Type_ = OAS_type_string then b.BuildStringDataSource s name behavior
  else if s.Type_ = OAS_type_integer then b.BuildIntegerDataSource s name behavior
  else if s.Type_ = OAS_type_number then b.BuildNumberDataSource s name behavior
  else if s.Type_ = OAS_type_boolean then b.BuildBoolDataSource s name behavior
  else if s.Type_ = OAS_type_array then b.BuildListDataSource s name behavior
  else if s.Type_ = OAS_type_object then b.BuildSingleNestedDataSource s name behavior
  else .error ("invalid schema type '" ++ s.Type_ ++ "'")

/-- The loop of `BuildDataSourceAttributes` (lines 67-81) over the property
names still to visit, with the attributes built so far. `BuildSchema(pProxy)`
is the call with no options set. -/
def buildDataSourceAttributesLoop [Inhabited Proxy] (b : Builders Proxy Rest Raw)
    (s : OASSchema Proxy Raw) : List String → List Attribute → Except String (List Attribute)
  | [], objectAttributes => .ok objectAttributes
  | name :: rest, objectAttributes =>
    match b.BuildSchema (s.Properties.get name) {} {} with
    | .error err => .error err
    | .ok pSchema =>
      match BuildDataSourceAttribute b pSchema name (b.GetBehavior s name) with
      | .error err =>
        .error ("failed to create object property '" ++ name ++ "' schema - " ++ err)
      | .ok attr =>
        buildDataSourceAttributesLoop b s rest (objectAttributes ++ [attr])

/-- Method `BuildDataSourceAttributes` (lines 60-84): one attribute per property,
in sorted order of the property names. -/
def BuildDataSourceAttributes [Inhabited Proxy] (b : Builders Proxy Rest Raw)
    (s : OASSchema Proxy Raw) : Except String (List Attribute) :=
  buildDataSourceAttributesLoop b s (SortedKeys s.Properties) []

/-! ## The data-source mapper (`datasource_mapper.go`, lines 37-127) -/

/-- The loop over `dataSource.ReadOp.Parameters` (lines 86-117), with the
attributes appended so far. A parameter that is neither `path` nor `query` is
skipped; a failure of `BuildSchema` returns an error (line 97); a failure of
`BuildDataSourceAttribute` is logged (line 113) and the nil `parameterAttribute`
is then dereferenced (line 116). -/
def readParameterAttributesLoop (b : Builders Proxy Rest Raw) (aliases : GoMap String) :
    List (Parameter Proxy) → List Attribute → Outcome (List Attribute)
  | [], readParameterAttributes => .ok readParameterAttributes
  | param :: rest, readParameterAttributes =>
    if param.In ≠ OAS_param_path ∧ param.In ≠ OAS_param_query then
      readParameterAttributesLoop b aliases rest readParameterAttributes
    else
      match b.BuildSchema param.Schema { OverrideDescription := param.Description } {} with
      | .error _ => .error ("failed to build param schema for '" ++ param.Name ++ "'")
      | .ok s =>
        let computability :=
          if param.Required then Computability.Required else Computability.ComputedOptional
        let paramName :=
          match aliases.get? param.Name with
          | some matchedName => matchedName
          | none => param.Name
        match BuildDataSourceAttribute b s paramName computability with
        | .error _ => .panic
        | .ok parameterAttribute =>
          readParameterAttributesLoop b aliases rest
            (readParameterAttributes ++ [parameterAttribute])

/-- The parameters the loop ranges over: none when `ReadOp` is nil. -/
def readOpParameters (dataSource : explorer.DataSource Proxy Rest) : List (Parameter Proxy) :=
  match dataSource.ReadOp with
  | none => []
  | some op => op.Parameters

/-- Function `generateDataSourceSchema` (lines 60-127). -/
def generateDataSourceSchema [Inhabited Proxy] (b : Builders Proxy Rest Raw)
    (dataSource : explorer.DataSource Proxy Rest) : Outcome datasource.Schema :=
  match b.BuildSchemaFromResponse dataSource.ReadOp {}
      { OverrideComputability := some Computability.Computed } with
  | .error err => .error err
  | .ok readResponseSchema =>
    match BuildDataSourceAttributes b readResponseSchema with
    | .error err => .error err
    | .ok readResponseAttributes =>
      match readParameterAttributesLoop b dataSource.Aliases (readOpParameters dataSource) [] with
      | .error err => .error err
      | .panic => .panic
      | .ok readParameterAttributes =>
        .ok ⟨mergeDataSourceAttributes readParameterAttributes [readResponseAttributes]⟩

/-- The loop of `MapToIR` (lines 42-55) over the data source names still to
visit, with the entities emitted so far. An entity whose schema fails is
skipped (line 48). -/
def mapToIRLoop [Inhabited Proxy] (b : Builders Proxy Rest Raw)
    (dataSources : GoMap (explorer.DataSource Proxy Rest)) :
    List String → List datasource.DataSource → Outcome (List datasource.DataSource)
  | [], dataSourceSchemas => .ok dataSourceSchemas
  | name :: rest, dataSourceSchemas =>
    match generateDataSourceSchema b (dataSources.get name) with
    | .error _ => mapToIRLoop b dataSources rest dataSourceSchemas
    | .panic => .panic
    | .ok schema => mapToIRLoop b dataSources rest (dataSourceSchemas ++ [⟨name, schema⟩])

/-- Method `dataSourceMapper.MapToIR` (lines 37-58): `ok r` is the return of
`r` with a nil error. -/
def MapToIR [Inhabited Proxy] (b : Builders Proxy Rest Raw)
    (dataSources : GoMap (explorer.DataSource Proxy Rest)) :
    Outcome (List datasource.DataSource) :=
  mapToIRLoop b dataSources (SortedKeys dataSources) []

end

/-- The entity `MapToIR` appends for a data source name, when its schema is
generated. -/
def emitted {Proxy Rest Raw : Type} [Inhabited Proxy] (b : Builders Proxy Rest Raw)
    (dataSources : GoMap (explorer.DataSource Proxy Rest)) (name : String) :
    Option datasource.DataSource :=
  match generateDataSourceSchema b (dataSources.get name) with
  | .ok schema => some ⟨name, schema⟩
  | _ => none

/-! ## Sample inputs

A small instance of the builders, for closed examples. A schema proxy is its
declared type tag, and the empty tag is a proxy whose schema cannot be
resolved. An operation carries the properties of its response body (property
name to type tag), or nothing when it has no response schema. -/

/-- The description a sample sub-builder gives its attribute. -/
def sampleDescription (s : OASSchema String String) : Option String :=
  if s.Schema = "" then none else some s.Schema

/-- Sample builders: `BuildSchema` fails on the empty tag, the response schema is
an object with the properties the operation carries, and every sub-builder
names its attribute as asked. -/
def sampleBuilders : Builders String (Option (GoMap String)) String where
  BuildSchemaFromResponse := fun op _ _ =>
    match op with
    | none => .error "schema not found"
    | some o =>
      match o.Rest with
      | none => .error "schema not found"
      | some props => .ok ⟨OAS_type_object, props, ""⟩
  BuildSchema := fun proxy opts _ =>
    if proxy = "" then .error "no type"
    else .ok ⟨proxy, ⟨[], List.nodup_nil⟩, opts.OverrideDescription⟩
  GetBehavior := fun _ _ => Computability.Computed
  BuildStringDataSource := fun s name k => .ok (.mk name k (sampleDescription s) false .String)
  BuildIntegerDataSource := fun s name k => .ok (.mk name k (sampleDescription s) false .Integer)
  BuildNumberDataSource := fun s name k => .ok (.mk name k (sampleDescription s) false .Number)
  BuildBoolDataSource := fun s name k => .ok (.mk name k (sampleDescription s) false .Boolean)
  BuildListDataSource := fun s name k =>
    .ok (.mk name k (sampleDescription s) false (.List .String))
  BuildSingleNestedDataSource := fun s name k =>
    .ok (.mk name k (sampleDescription s) false (.SingleNested []))

/-- The empty alias map. -/
def noAliases : GoMap String := ⟨[], List.nodup_nil⟩

/-- A sample data source: the given parameters and aliases, and a response body
with the string properties `id` and `name`. -/
def sampleDataSource (params : List (Parameter String)) (aliases : GoMap String) :
    explorer.DataSource String (Option (GoMap String)) :=
  ⟨some ⟨params, some ⟨[("name", "string"), ("id", "string")], by decide⟩⟩, aliases⟩

/-- A sample parameter without description: its name, location, type tag and
required flag. -/
def sampleParameter (name location tag : String) (required : Bool) : Parameter String :=
  ⟨name, location, "", required, tag⟩

/-- A sample map of data sources, with `zeta` before `alpha` in iteration
order. -/
def sampleDataSources : GoMap (explorer.DataSource String (Option (GoMap String))) :=
  ⟨[("zeta", sampleDataSource [] noAliases),
    ("alpha", sampleDataSource [sampleParameter "id" "path" "string" true] noAliases)], by decide⟩

/-- A sample map in which the data source `bad` has a path parameter of the
unknown type tag `foo`. -/
def sampleDataSourcesInvalidType : GoMap (explorer.DataSource String (Option (GoMap String))) :=
  ⟨[("good", sampleDataSource [] noAliases),
    ("bad", sampleDataSource [sampleParameter "id" "path" "foo" true] noAliases)], by decide⟩

/-! ## Parameters of the read operation, one at a time -/

section
variable {Proxy Rest Raw : Type}

/-- The test of line 87, negated: the parameter is located in the path or in the
query, and so it is mapped. -/
def isMapped (param : Parameter Proxy) : Bool :=
  decide (param.In = OAS_param_path ∨ param.In = OAS_param_query)

/-- The computability of lines 100-103. -/
def parameterComputability (param : Parameter Proxy) : Computability :=
  if param.Required then Computability.Required else Computability.ComputedOptional

/-- The name of lines 105-109: the alias of the parameter name when the alias map
has one. -/
def parameterName (aliases : GoMap String) (param : Parameter Proxy) : String :=
  match aliases.get? param.Name with
  | some matchedName => matchedName
  | none => param.Name

/-- The attribute `a` is what lines 91-111 build for the parameter: its schema is
built with the description of the parameter, and the attribute from that
schema, with the name and the computability of the parameter. -/
def builtForParameter (b : Builders Proxy Rest Raw) (aliases : GoMap String)
    (param : Parameter Proxy) (a : Attribute) : Prop :=
  ∃ s, b.BuildSchema param.Schema { OverrideDescription := param.Description } {} = .ok s ∧
    BuildDataSourceAttribute b s (parameterName aliases param) (parameterComputability param)
      = .ok a

/-- The attribute `a` is what lines 69-80 of `attribute.go` build for the
property `name` of the schema `s`. -/
def builtForProperty [Inhabited Proxy] (b : Builders Proxy Rest Raw) (s : OASSchema Proxy Raw)
    (name : String) (a : Attribute) : Prop :=
  ∃ pSchema, b.BuildSchema (s.Properties.get name) {} {} = .ok pSchema ∧
    BuildDataSourceAttribute b pSchema name (b.GetBehavior s name) = .ok a

/-- The data source without the parameters that are neither in the path nor in
the query. -/
def withoutUnmappedParameters (dataSource : explorer.DataSource Proxy Rest) :
    explorer.DataSource Proxy Rest :=
  match dataSource.ReadOp with
  | none => dataSource
  | some op => ⟨some ⟨op.Parameters.filter isMapped, op.Rest⟩, dataSource.Aliases⟩

/-- Modelled from the spec: the sub-builders of the attribute builder key the
attribute they construct by the name, and classify it by the computability,
they are given. -/
def Builders.stamps (b : Builders Proxy Rest Raw) : Prop :=
  ∀ (s : OASSchema Proxy Raw) (name : String) (k : Computability) (a : Attribute),
    BuildDataSourceAttribute b s name k = .ok a → a.Name = name ∧ a.computability = k

/-- Modelled from the spec: the schema resolver reads the responses of the
operation, not its parameter list. -/
def Builders.resolverIgnoresParameters (b : Builders Proxy Rest Raw) : Prop :=
  ∀ (op : Operation Proxy Rest) (params : List (Parameter Proxy)) (o : SchemaOpts)
    (g : GlobalSchemaOpts),
    b.BuildSchemaFromResponse (some ⟨params, op.Rest⟩) o g = b.BuildSchemaFromResponse (some op) o g

end

/-! ## The attribute builder for resources (`oas/attribute.go`, lines 15-58) -/

namespace resource

/-- Modelled from the spec: `resource.Attribute` of the IR library. The spec has
one attribute node for both targets, so it has the shape of
`datasource.Attribute`. -/
abbrev Attribute : Type := Mapper.Attribute

end resource

/-- The resource sub-builders of package `oas` that `attribute.go` calls and
does not define. Each returns a value or an error (with a nil pointer). -/
structure ResourceBuilders (Proxy Raw : Type) where
  BuildStringResource : OASSchema Proxy Raw → String → Computability →
    Except String resource.Attribute
  BuildIntegerResource : OASSchema Proxy Raw → String → Computability →
    Except String resource.Attribute
  BuildNumberResource : OASSchema Proxy Raw → String → Computability →
    Except String resource.Attribute
  BuildBoolResource : OASSchema Proxy Raw → String → Computability →
    Except String resource.Attribute
  BuildListResource : OASSchema Proxy Raw → String → Computability →
    Except String resource.Attribute
  BuildSingleNestedResource : OASSchema Proxy Raw → String → Computability →
    Except String resource.Attribute

section
variable {Proxy Rest Raw : Type}

/-- Method `BuildResourceAttribute` (lines 41-58): dispatch on the type tag. -/
def BuildResourceAttribute (r : ResourceBuilders Proxy Raw) (s : OASSchema Proxy Raw)
    (name : String) (behavior : Computability) : Except String resource.Attribute :=
  if s.Type_ = OAS_type_string then r.BuildStringResource s name behavior
  else if s.Type_ = OAS_type_integer then r.BuildIntegerResource s name behavior
  else if s.Type_ = OAS_type_number then r.BuildNumberResource s name behavior
  else if s.Type_ = OAS_type_boolean then r.BuildBoolResource s name behavior
  else if s.Type_ = OAS_type_array then r.BuildListResource s name behavior
  else if s.Type_ = OAS_type_object then r.BuildSingleNestedResource s name behavior
  else .error ("invalid schema type '" ++ s.Type_ ++ "'")

/-- The loop of `BuildResourceAttributes` (lines 22-36) over the property names
still to visit, with the attributes built so far. `BuildSchema(pProxy)` is the
call with no options set. -/
def buildResourceAttributesLoop [Inhabited Proxy] (b : Builders Proxy Rest Raw)
    (r : ResourceBuilders Proxy Raw) (s : OASSchema Proxy Raw) :
    List String → List resource.Attribute → Except String (List resource.Attribute)
  | [], objectAttributes => .ok objectAttributes
  | name :: rest, objectAttributes =>
    match b.BuildSchema (s.Properties.get name) {} {} with
    | .error err => .error err
    | .ok pSchema =>
      match BuildResourceAttribute r pSchema name (b.GetBehavior s name) with
      | .error err =>
        .error ("failed to create object property '" ++ name ++ "' schema - " ++ err)
      | .ok attr =>
        buildResourceAttributesLoop b r s rest (objectAttributes ++ [attr])

/-- Method `BuildResourceAttributes` (lines 15-39): one attribute per property,
in sorted order of the property names. -/
def BuildResourceAttributes [Inhabited Proxy] (b : Builders Proxy Rest Raw)
    (r : ResourceBuilders Proxy Raw) (s : OASSchema Proxy Raw) :
    Except String (List resource.Attribute) :=
  buildResourceAttributesLoop b r s (SortedKeys s.Properties) []

/-- The attribute `a` is what lines 24-33 build for the property `name` of the
schema `s`. -/
def builtForResourceProperty [Inhabited Proxy] (b : Builders Proxy Rest Raw)
    (r : ResourceBuilders Proxy Raw) (s : OASSchema Proxy Raw) (name : String)
    (a : resource.Attribute) : Prop :=
  ∃ pSchema, b.BuildSchema (s.Properties.get name) {} {} = .ok pSchema ∧
    BuildResourceAttribute r pSchema name (b.GetBehavior s name) = .ok a

/-- Modelled from the spec: the resource sub-builders key the attribute they
construct by the name, and classify it by the computability, they are given. -/
def ResourceBuilders.stamps (r : ResourceBuilders Proxy Raw) : Prop :=
  ∀ (s : OASSchema Proxy Raw) (name : String) (k : Computability) (a : resource.Attribute),
    BuildResourceAttribute r s name k = .ok a → a.Name = name ∧ a.computability = k

end

/-- Modelled from the spec: `OASSchema.GetBehavior` when no override is supplied:
a property named in the required set of its parent is Required, any other is
ComputedOptional. -/
def GetBehavior (requiredNames : List String) (name : String) : Computability :=
  if name ∈ requiredNames then Computability.Required else Computability.ComputedOptional

/-- Sample resource sub-builders: each names and classifies its attribute as
asked. -/
def sampleResourceBuilders : ResourceBuilders String String where
  BuildStringResource := fun s name k => .ok (.mk name k (sampleDescription s) false .String)
  BuildIntegerResource := fun s name k => .ok (.mk name k (sampleDescription s) false .Integer)
  BuildNumberResource := fun s name k => .ok (.mk name k (sampleDescription s) false .Number)
  BuildBoolResource := fun s name k => .ok (.mk name k (sampleDescription s) false .Boolean)
  BuildListResource := fun s name k =>
    .ok (.mk name k (sampleDescription s) false (.List .String))
  BuildSingleNestedResource := fun s name k =>
    .ok (.mk name k (sampleDescription s) false (.SingleNested []))

/-- The sample builders with the behavior of a schema whose required set is
`requiredNames`. -/
def sampleBuildersRequiring (requiredNames : List String) :
    Builders String (Option (GoMap String)) String :=
  { sampleBuilders with GetBehavior := fun _ name => GetBehavior requiredNames name }

/-! ## The schema resolver

The resolver functions `BuildSchemaFromRequest` and `BuildSchemaFromResponse`
are called by the mapper and exercised by `schema/build_test.go`; their bodies
are outside the files at hand. -/

/-- Modelled from the spec: a media type entry of a body: its schema, `none`
when the schema is null. -/
structure MediaType (Proxy : Type) where
  Schema : Option Proxy

/-- Modelled from the spec: a request body, its content map from media type to
entry. -/
structure RequestBody (Proxy : Type) where
  Content : GoMap (MediaType Proxy)

/-- Modelled from the spec: a response, its content map from media type to
entry. -/
structure Response (Proxy : Type) where
  Content : GoMap (MediaType Proxy)

/-- Modelled from the spec: what the resolver reads of an operation: the request
body and the map from response code to response, each `none` when nil. -/
structure Bodies (Proxy : Type) where
  RequestBody : Option (RequestBody Proxy)
  Responses : Option (GoMap (Response Proxy))

/-- Modelled from the spec: the error `ErrSchemaNotFound` of the resolver. -/
def ErrSchemaNotFound : String := "schema not found"

/-- Modelled from the spec: the media type that takes priority. -/
def OAS_mediatype_json : String := "application/json"

/-- Modelled from the spec: the response code tried first. -/
def OAS_response_code_ok : String := "200"

/-- Modelled from the spec: the response code tried second. -/
def OAS_response_code_created : String := "201"

section
variable {Proxy Raw : Type}

/-- The schema declared under a media type: `none` when the media type is absent
or its schema is null. -/
def mediaTypeSchema (mediaTypes : GoMap (MediaType Proxy)) (mediaType : String) :
    Option Proxy :=
  (mediaTypes.get? mediaType).bind (fun m => m.Schema)

/-- Modelled from the spec: the media-type selection rule of section 4.2.
`application/json` is taken when it is present with a non-null schema;
otherwise the other media types are considered in lexicographic key order and
the first with a non-null schema is taken; with no such media type the
selection fails with schema-not-found. The selected schema is resolved by
`buildSchema`. -/
def selectMediaTypeSchema
    (buildSchema : Proxy → SchemaOpts → GlobalSchemaOpts → Except String (OASSchema Proxy Raw))
    (mediaTypes : GoMap (MediaType Proxy)) (o : SchemaOpts) (g : GlobalSchemaOpts) :
    Except String (OASSchema Proxy Raw) :=
  match mediaTypeSchema mediaTypes OAS_mediatype_json with
  | some p => buildSchema p o g
  | none =>
    match ((SortedKeys mediaTypes).filter (fun k => decide (k ≠ OAS_mediatype_json))).filterMap
        (mediaTypeSchema mediaTypes) with
    | p :: _ => buildSchema p o g
    | [] => .error ErrSchemaNotFound

/-- Modelled from the spec: `BuildSchemaFromRequest` (section 4.2,
`resolveRequestSchema`). It fails with schema-not-found when the operation is
absent, has no request body, or the request body has no content entries;
otherwise the media-type selection rule applies. -/
def BuildSchemaFromRequest
    (buildSchema : Proxy → SchemaOpts → GlobalSchemaOpts → Except String (OASSchema Proxy Raw))
    (op : Option (Operation Proxy (Bodies Proxy))) (o : SchemaOpts) (g : GlobalSchemaOpts) :
    Except String (OASSchema Proxy Raw) :=
  match op with
  | none => .error ErrSchemaNotFound
  | some operation =>
    match operation.Rest.RequestBody with
    | none => .error ErrSchemaNotFound
    | some body =>
      if body.Content.entries.isEmpty then .error ErrSchemaNotFound
      else selectMediaTypeSchema buildSchema body.Content o g

/-- The number written by a list of decimal digits, `none` when the list is empty
or holds another character. -/
def digitsValue (cs : List Char) : Option Nat :=
  if cs.isEmpty || !cs.all Char.isDigit then none
  else some (cs.foldl (fun n c => 10 * n + (c.toNat - 48)) 0)

/-- Modelled from the spec: the integer a response code parses as, when it lies
in `[200,299]`: a decimal numeral, with or without a leading plus sign. -/
def successCode (code : String) : Option Nat :=
  let value :=
    match code.toList with
    | '+' :: cs => digitsValue cs
    | cs => digitsValue cs
  value.bind (fun n => if 200 ≤ n ∧ n ≤ 299 then some n else none)

/-- Modelled from the spec: the candidate code order of section 4.2: `200` if
present, then `201` if present, then every remaining code that parses as an
integer in `[200,299]`, in ascending numeric order. -/
def responseCandidates (codes : GoMap (Response Proxy)) : List String :=
  (if OAS_response_code_ok ∈ codes.keys then [OAS_response_code_ok] else []) ++
  (if OAS_response_code_created ∈ codes.keys then [OAS_response_code_created] else []) ++
  ((((SortedKeys codes).filter
      (fun c => decide (c ≠ OAS_response_code_ok ∧ c ≠ OAS_response_code_created))).filterMap
      (fun c => (successCode c).map (fun n => (n, c)))).insertionSort
      (fun a b => a.1 ≤ b.1)).map Prod.snd

/-- Modelled from the spec: a content map yields a usable schema when one of its
media types has a non-null schema; a content map without entries yields
none. -/
def hasUsableSchema (mediaTypes : GoMap (MediaType Proxy)) : Bool :=
  (SortedKeys mediaTypes).any (fun k => (mediaTypeSchema mediaTypes k).isSome)

/-- Modelled from the spec: the selected response: the candidate codes are
tried in their order, and the response of the first one that yields a usable
schema is taken ("the smallest numeric 2xx code with a usable schema wins",
section 8); a candidate without content entries, or whose content entries all
have a null schema, is passed over. -/
def selectedResponse (codes : GoMap (Response Proxy)) : Option (Response Proxy) :=
  ((responseCandidates codes).filterMap codes.get?).find?
    (fun response => hasUsableSchema response.Content)

/-- Modelled from the spec: `BuildSchemaFromResponse` (section 4.2,
`resolveResponseSchema`). It fails with schema-not-found when the operation is
absent or declares no response codes; otherwise the media-type selection rule
applies to the selected response, and the resolution fails with
schema-not-found when every candidate code yields no usable schema. -/
def BuildSchemaFromResponse
    (buildSchema : Proxy → SchemaOpts → GlobalSchemaOpts → Except String (OASSchema Proxy Raw))
    (op : Option (Operation Proxy (Bodies Proxy))) (o : SchemaOpts) (g : GlobalSchemaOpts) :
    Except String (OASSchema Proxy Raw) :=
  match op with
  | none => .error ErrSchemaNotFound
  | some operation =>
    match operation.Rest.Responses with
    | none => .error ErrSchemaNotFound
    | some codes =>
      if codes.entries.isEmpty then .error ErrSchemaNotFound
      else
        match selectedResponse codes with
        | none => .error ErrSchemaNotFound
        | some response => selectMediaTypeSchema buildSchema response.Content o g

end

/-- A sample operation for the resolver: no parameters, the given request body
and responses; a schema proxy is its type tag. -/
def sampleOperation (requestBody : Option (RequestBody String))
    (responses : Option (GoMap (Response String))) : Operation String (Bodies String) :=
  ⟨[], ⟨requestBody, responses⟩⟩

/-! ### The size of an attribute tree -/

mutual
/-- The number of attribute nodes of a list of attribute trees, at every nesting
level. -/
def nodesList : List Attribute → Nat
  | [] => 0
  | a :: rest => nodesAttribute a + nodesList rest
/-- The number of attribute nodes of an attribute tree. -/
def nodesAttribute : Attribute → Nat
  | .mk _ _ _ _ v => 1 + nodesVariant v
/-- The number of attribute nodes below a variant. -/
def nodesVariant : Variant → Nat
  | .List e => nodesElementType e
  | .ListNested cs => nodesList cs
  | .SingleNested cs => nodesList cs
  | _ => 0
/-- The number of attribute nodes below an element type. -/
def nodesElementType : ElementType → Nat
  | .List e => nodesElementType e
  | .Object cs => nodesList cs
  | _ => 0
end

/-! ### Parts of the candidate code order -/

/-- The candidates after `200` and `201`: the other codes that parse as an
integer in `[200,299]`, in ascending numeric order; the third part of
`responseCandidates`. -/
def remainingCandidates {Proxy : Type} (codes : GoMap (Response Proxy)) : List String :=
  ((((SortedKeys codes).filter
      (fun c => decide (c ≠ OAS_response_code_ok ∧ c ≠ OAS_response_code_created))).filterMap
      (fun c => (successCode c).map (fun n => (n, c)))).insertionSort
      (fun a b => a.1 ≤ b.1)).map Prod.snd

/-- The response declared under a code, when it is declared with a usable
schema. -/
def usableResponse {Proxy : Type} (codes : GoMap (Response Proxy)) (code : String) :
    Option (Response Proxy) :=
  (codes.get? code).filter (fun response => hasUsableSchema response.Content)

/-- Sample response codes: `304` with a boolean `application/json` schema and
`204` with a boolean `application/xml` and a string `application/jay-son`
schema. -/
def sampleCodesSuccess : GoMap (Response String) :=
  ⟨[("304", ⟨⟨[("application/json", ⟨some "boolean"⟩)], by decide⟩⟩),
    ("204", ⟨⟨[("application/xml", ⟨some "boolean"⟩),
      ("application/jay-son", ⟨some "string"⟩)], by decide⟩⟩)], by decide⟩

/-- Sample response codes: `200` whose only content entry has a null schema,
and `201` with a string `application/json` schema. -/
def sampleCodesNullOk : GoMap (Response String) :=
  ⟨[("200", ⟨⟨[("application/json", ⟨none⟩)], by decide⟩⟩),
    ("201", ⟨⟨[("application/json", ⟨some "string"⟩)], by decide⟩⟩)], by decide⟩

/-- Sample response codes outside the success range: `300`, `skip-me!` and
`199`, each with a string `application/json` schema. -/
def sampleCodesNoSuccess : GoMap (Response String) :=
  ⟨[("300", ⟨⟨[("application/json", ⟨some "string"⟩)], by decide⟩⟩),
    ("skip-me!", ⟨⟨[("application/json", ⟨some "string"⟩)], by decide⟩⟩),
    ("199", ⟨⟨[("application/json", ⟨some "string"⟩)], by decide⟩⟩)], by decide⟩

/-! ## The nullability normalizer and the resolved schema (spec sections 3, 4.1 and 4.3)

`BuildSchema`, the accessor `GetBehavior` and the sub-builders are called by
`oas/attribute.go` and exercised by `schema/build_test.go`; their bodies are
outside the files at hand. -/

/-- Modelled from the spec: the null marker of a type set. -/
def OAS_type_null : String := "null"

/-- Modelled from the spec: a raw schema node as the upstream parser hands it
over (`base.Schema`): the declared type set, the `anyOf` and `oneOf` branches,
the description, the required names, the properties and the items. The children
are schema proxies. `Sensitive` is the sensitivity marker that the
configuration may put on a node. -/
structure RawSchema (Proxy : Type) where
  Type_ : List String := []
  AnyOf : List Proxy := []
  OneOf : List Proxy := []
  Description : Option String := none
  Required : List String := []
  Properties : GoMap Proxy := ⟨[], List.nodup_nil⟩
  Items : Option Proxy := none
  Sensitive : Bool := false

/-- Modelled from the spec: what `ResolvedSchema` (section 3) holds besides the
core type and the properties, which are `OASSchema.Type_` and
`OASSchema.Properties`: the nullability flag, and the description, required
names, items and sensitivity marker of the effective node. -/
structure ResolvedSchema (Proxy : Type) where
  nullable : Bool
  description : Option String
  requiredNames : List String
  items : Option Proxy
  sensitive : Bool

section
variable {Proxy : Type}

/-- Modelled from the spec: a node that declares a single concrete type; it is
its own effective node. -/
def singleType (nullable : Bool) (s : RawSchema Proxy) :
    Option (String × Bool × RawSchema Proxy) :=
  match s.Type_ with
  | [t] => if t = OAS_type_null then none else some (t, nullable, s)
  | _ => none

/-- Modelled from the spec: rule 1 of section 4.1: the declared type set has
exactly two entries and one of them is the null marker; the core type is the
other entry and the node is its own effective node. -/
def nullableTypeSet (s : RawSchema Proxy) : Option (String × Bool × RawSchema Proxy) :=
  match s.Type_ with
  | [a, b] =>
    if a = OAS_type_null then some (b, true, s)
    else if b = OAS_type_null then some (a, true, s)
    else none
  | _ => none

/-- Modelled from the spec: rule 2 of section 4.1 for one union (`anyOf` or
`oneOf`): exactly two branches, exactly one of them with the type set
`{null}`; core type and effective node come from the other branch. -/
def nullableUnion (node : Proxy → RawSchema Proxy) (branches : List Proxy) :
    Option (String × Bool × RawSchema Proxy) :=
  match branches with
  | [x, y] =>
    if (node x).Type_ = [OAS_type_null] ∧ (node y).Type_ ≠ [OAS_type_null] then
      singleType true (node y)
    else if (node y).Type_ = [OAS_type_null] ∧ (node x).Type_ ≠ [OAS_type_null] then
      singleType true (node x)
    else none
  | _ => none

/-- Modelled from the spec: the nullability normalizer of section 4.1. The
rules are checked in order; the result is the core type, the nullability flag
and the effective node, or a type-resolution error. -/
def normalize (node : Proxy → RawSchema Proxy) (s : RawSchema Proxy) :
    Except String (String × Bool × RawSchema Proxy) :=
  match nullableTypeSet s with
  | some r => .ok r
  | none =>
    match nullableUnion node s.AnyOf with
    | some r => .ok r
    | none =>
      match nullableUnion node s.OneOf with
      | some r => .ok r
      | none =>
        match singleType false s with
        | some r => .ok r
        | none => .error "unsupported schema type"

/-- Modelled from the spec: the resolved schema of core type `coreType` read
from the effective node; the description is the override when one is
supplied. -/
def resolvedAs (coreType : String) (nullable : Bool) (opts : SchemaOpts)
    (effectiveNode : RawSchema Proxy) : OASSchema Proxy (ResolvedSchema Proxy) :=
  ⟨coreType, effectiveNode.Properties,
    ⟨nullable,
      if opts.OverrideDescription = "" then effectiveNode.Description
      else some opts.OverrideDescription,
      effectiveNode.Required, effectiveNode.Items, effectiveNode.Sensitive⟩⟩

/-- Modelled from the spec: `BuildSchema`: the node behind the proxy is
normalized and read into a resolved schema. -/
def BuildSchema (node : Proxy → RawSchema Proxy) (proxy : Proxy) (opts : SchemaOpts)
    (_globalOpts : GlobalSchemaOpts) : Except String (OASSchema Proxy (ResolvedSchema Proxy)) :=
  match normalize node (node proxy) with
  | .error err => .error err
  | .ok (coreType, nullable, effectiveNode) => .ok (resolvedAs coreType nullable opts effectiveNode)

/-- Modelled from the spec: the list sub-builder (section 4.3, array): the items
are resolved; an item of core type object gives a `ListNested` with the child
attributes of the item, any other item a `List` with the element type of the
item. `nested` is the recursive build of child attributes and `elementType` the
build of an element type. -/
def BuildListResource
    (buildSchema : Proxy → SchemaOpts → GlobalSchemaOpts →
      Except String (OASSchema Proxy (ResolvedSchema Proxy)))
    (nested : OASSchema Proxy (ResolvedSchema Proxy) → Except String (List resource.Attribute))
    (elementType : OASSchema Proxy (ResolvedSchema Proxy) → Except String ElementType)
    (s : OASSchema Proxy (ResolvedSchema Proxy)) (name : String) (behavior : Computability) :
    Except String resource.Attribute :=
  match s.Schema.items with
  | none => .error "no items"
  | some items =>
    match buildSchema items {} {} with
    | .error err => .error err
    | .ok itemSchema =>
      if itemSchema.Type_ = OAS_type_object then
        match nested itemSchema with
        | .error err => .error err
        | .ok attributes =>
          .ok (.mk name behavior s.Schema.description false (.ListNested attributes))
      else
        match elementType itemSchema with
        | .error err => .error err
        | .ok e => .ok (.mk name behavior s.Schema.description false (.List e))

/-- Modelled from the spec: the resource sub-builders of section 4.3. A
primitive gets the description and the sensitivity marker of the resolved
schema; an object gives a `SingleNested` with its child attributes. -/
def specResourceBuilders (node : Proxy → RawSchema Proxy)
    (nested : OASSchema Proxy (ResolvedSchema Proxy) → Except String (List resource.Attribute))
    (elementType : OASSchema Proxy (ResolvedSchema Proxy) → Except String ElementType) :
    ResourceBuilders Proxy (ResolvedSchema Proxy) where
  BuildStringResource := fun s name k =>
    .ok (.mk name k s.Schema.description s.Schema.sensitive .String)
  BuildIntegerResource := fun s name k =>
    .ok (.mk name k s.Schema.description s.Schema.sensitive .Integer)
  BuildNumberResource := fun s name k =>
    .ok (.mk name k s.Schema.description s.Schema.sensitive .Number)
  BuildBoolResource := fun s name k =>
    .ok (.mk name k s.Schema.description s.Schema.sensitive .Boolean)
  BuildListResource := BuildListResource (BuildSchema node) nested elementType
  BuildSingleNestedResource := fun s name k =>
    match nested s with
    | .error err => .error err
    | .ok attributes => .ok (.mk name k s.Schema.description false (.SingleNested attributes))

/-- Modelled from the spec: the collaborators of `attribute.go` over raw nodes:
`BuildSchema` is the normalizing one, `GetBehavior` reads the resolved schema
of the parent through `getBehavior`, and the data source sub-builders are those
of the resource side. -/
def specBuilders (node : Proxy → RawSchema Proxy)
    (getBehavior : ResolvedSchema Proxy → String → Computability)
    (nested : OASSchema Proxy (ResolvedSchema Proxy) → Except String (List resource.Attribute))
    (elementType : OASSchema Proxy (ResolvedSchema Proxy) → Except String ElementType) :
    Builders Proxy (Bodies Proxy) (ResolvedSchema Proxy) where
  BuildSchemaFromResponse := BuildSchemaFromResponse (BuildSchema node)
  BuildSchema := BuildSchema node
  GetBehavior := fun s name => getBehavior s.Schema name
  BuildStringDataSource := (specResourceBuilders node nested elementType).BuildStringResource
  BuildIntegerDataSource := (specResourceBuilders node nested elementType).BuildIntegerResource
  BuildNumberDataSource := (specResourceBuilders node nested elementType).BuildNumberResource
  BuildBoolDataSource := (specResourceBuilders node nested elementType).BuildBoolResource
  BuildListDataSource := (specResourceBuilders node nested elementType).BuildListResource
  BuildSingleNestedDataSource :=
    (specResourceBuilders node nested elementType).BuildSingleNestedResource

end

section
variable {Proxy : Type}

mutual
/-- Modelled from the spec: the element type mirroring a resolved item schema
(section 4.3), for items nested at most `depth` levels deep. -/
def BuildElementType [Inhabited Proxy] (node : Proxy → RawSchema Proxy)
    (getBehavior : ResolvedSchema Proxy → String → Computability) :
    Nat → OASSchema Proxy (ResolvedSchema Proxy) → Except String ElementType
  | 0, _ => .error "schema nested too deep"
  | depth + 1, s =>
    if s.Type_ = OAS_type_string then .ok .String
    else if s.Type_ = OAS_type_integer then .ok .Integer
    else if s.Type_ = OAS_type_number then .ok .Number
    else if s.Type_ = OAS_type_boolean then .ok .Boolean
    else if s.Type_ = OAS_type_array then
      match s.Schema.items with
      | none => .error "no items"
      | some items =>
        match BuildSchema node items {} {} with
        | .error err => .error err
        | .ok itemSchema =>
          match BuildElementType node getBehavior depth itemSchema with
          | .error err => .error err
          | .ok e => .ok (.List e)
    else if s.Type_ = OAS_type_object then
      match buildNestedResourceAttributes node getBehavior depth s with
      | .error err => .error err
      | .ok attributes => .ok (.Object attributes)
    else .error ("invalid schema type '" ++ s.Type_ ++ "'")
/-- Modelled from the spec: `BuildResourceAttributes` with the sub-builders of
the spec, for schemas nested at most `depth` levels deep: the recursive build
of child attributes. -/
def buildNestedResourceAttributes [Inhabited Proxy] (node : Proxy → RawSchema Proxy)
    (getBehavior : ResolvedSchema Proxy → String → Computability) :
    Nat → OASSchema Proxy (ResolvedSchema Proxy) → Except String (List resource.Attribute)
  | 0, _ => .error "schema nested too deep"
  | depth + 1, s =>
    BuildResourceAttributes
      (specBuilders node getBehavior (buildNestedResourceAttributes node getBehavior depth)
        (BuildElementType node getBehavior depth))
      (specResourceBuilders node (buildNestedResourceAttributes node getBehavior depth)
        (BuildElementType node getBehavior depth)) s
end

/-- The body of the loop of `BuildResourceAttributes` (lines 24-33) for one
property: the attribute built for it, or the error returned. -/
def buildResourceProperty [Inhabited Proxy] {Rest Raw : Type} (b : Builders Proxy Rest Raw)
    (r : ResourceBuilders Proxy Raw) (s : OASSchema Proxy Raw) (name : String) :
    Except String resource.Attribute :=
  match b.BuildSchema (s.Properties.get name) {} {} with
  | .error err => .error err
  | .ok pSchema =>
    match BuildResourceAttribute r pSchema name (b.GetBehavior s name) with
    | .error err =>
      .error ("failed to create object property '" ++ name ++ "' schema - " ++ err)
    | .ok attr => .ok attr

/-- The proxy `e` declares the type `T` of the node `branch` as nullable, in
one of the three encodings: the node of `branch` with the type array of `null`
and `T`, an `anyOf` of a null branch and `branch`, or a `oneOf` of a null
branch and `branch`; the null entry or null branch comes first or second. -/
def encodesNullable (node : Proxy → RawSchema Proxy) (T : String) (branch e : Proxy) : Prop :=
  (node branch).Type_ = [T] ∧ T ≠ OAS_type_null ∧
  ((node e = { node branch with Type_ := [OAS_type_null, T] } ∨
      node e = { node branch with Type_ := [T, OAS_type_null] }) ∨
    (∃ nul, (node nul).Type_ = [OAS_type_null] ∧ (node e).Type_ = [] ∧
      ((node e).AnyOf = [nul, branch] ∨ (node e).AnyOf = [branch, nul])) ∨
    (∃ nul, (node nul).Type_ = [OAS_type_null] ∧ (node e).Type_ = [] ∧ (node e).AnyOf = [] ∧
      ((node e).OneOf = [nul, branch] ∨ (node e).OneOf = [branch, nul])))

/-- Two proxies declare a property in the same way up to the encoding of
nullability: they are the same proxy, or two encodings of one nullable type, or
two array nodes that differ in their items only, the items being two encodings
of one nullable type. -/
def sameUpToNullEncoding (node : Proxy → RawSchema Proxy) (p q : Proxy) : Prop :=
  p = q ∨
  (∃ T branch, encodesNullable node T branch p ∧ encodesNullable node T branch q) ∨
  (∃ T branch e f, encodesNullable node T branch e ∧ encodesNullable node T branch f ∧
    (node p).Type_ = [OAS_type_array] ∧ (node p).AnyOf = [] ∧ (node p).OneOf = [] ∧
    (node p).Items = some e ∧ node q = { node p with Items := some f })

end

/-- The primitive variant of a core type. -/
def primitiveVariant (coreType : String) : Option Variant :=
  if coreType = OAS_type_string then some .String
  else if coreType = OAS_type_integer then some .Integer
  else if coreType = OAS_type_number then some .Number
  else if coreType = OAS_type_boolean then some .Boolean
  else none

/-- Sample raw nodes, a proxy being the number of its node: a null node (0), a
string node (1) and three encodings of it as nullable (2, 3, 4), two array
nodes with nullable string items (5, 6), and two object nodes (7, 8) that
declare the properties `nick` and `tags` in different encodings. -/
def sampleNode : Nat → RawSchema Nat
  | 0 => { Type_ := ["null"] }
  | 1 => { Type_ := ["string"], Description := some "a nullable string" }
  | 2 => { Type_ := ["null", "string"], Description := some "a nullable string" }
  | 3 => { AnyOf := [0, 1] }
  | 4 => { OneOf := [1, 0] }
  | 5 => { Type_ := ["array"], Description := some "a list of nullable strings", Items := some 2 }
  | 6 => { Type_ := ["array"], Description := some "a list of nullable strings", Items := some 4 }
  | 7 => { Type_ := ["object"], Required := ["tags"],
           Properties := ⟨[("tags", 5), ("nick", 2)], by decide⟩ }
  | 8 => { Type_ := ["object"], Required := ["tags"],
           Properties := ⟨[("nick", 3), ("tags", 6)], by decide⟩ }
  | _ => {}

/-- The behavior of a property without override, read from the resolved schema
of its parent. -/
def sampleGetBehavior (parent : ResolvedSchema Nat) (name : String) : Computability :=
  GetBehavior parent.requiredNames name

/-- The collaborators over the sample nodes, with child attributes and element
types built two levels deep. -/
def sampleSpecBuilders : Builders Nat (Bodies Nat) (ResolvedSchema Nat) :=
  specBuilders sampleNode sampleGetBehavior
    (buildNestedResourceAttributes sampleNode sampleGetBehavior 2)
    (BuildElementType sampleNode sampleGetBehavior 2)

/-- The resource sub-builders over the sample nodes, with child attributes and
element types built two levels deep. -/
def sampleSpecResourceBuilders : ResourceBuilders Nat (ResolvedSchema Nat) :=
  specResourceBuilders sampleNode
    (buildNestedResourceAttributes sampleNode sampleGetBehavior 2)
    (BuildElementType sampleNode sampleGetBehavior 2)

/-! ## Lemmas on the merger -/

theorem mergeNested_Name (c m : Attribute) : (mergeNested c m).Name = m.Name := by
  unfold mergeNested
  split <;> rfl

theorem names_mergeInto (combine : Attribute → Attribute)
    (hc : ∀ m, (combine m).Name = m.Name) (c : Attribute) (main : List Attribute) :
    names (mergeInto combine c main) = addName (names main) c.Name := by
  induction main with
  | nil => simp [mergeInto, names, addName]
  | cons m ms ih =>
    unfold mergeInto
    by_cases h : m.Name = c.Name
    · simp [h, names, addName, hc]
    · have h' : ¬ c.Name = m.Name := fun e => h e.symm
      simp only [names] at ih
      simp only [h, if_false, names, List.map_cons, ih, addName, List.mem_cons, h', false_or]
      split <;> simp

theorem names_mergeSlice (main other : List Attribute) :
    names (mergeSlice main other) = (names other).foldl addName (names main) := by
  induction other generalizing main with
  | nil => simp [mergeSlice, names]
  | cons c cs ih =>
    rw [mergeSlice, ih, names_mergeInto _ (mergeNested_Name c)]
    simp [names]

theorem names_mergeDataSourceAttributes (main : List Attribute)
    (others : List (List Attribute)) :
    names (mergeDataSourceAttributes main others)
      = (names others.flatten).foldl addName (names main) := by
  unfold mergeDataSourceAttributes
  induction others generalizing main with
  | nil => simp [names]
  | cons o os ih =>
    rw [List.foldl_cons, ih, names_mergeSlice]
    simp [names, List.foldl_append]

theorem foldl_addName (ns : List String) : ∀ acc : List String,
    ∃ ext, ns.foldl addName acc = acc ++ ext ∧
      (∀ n, n ∈ ext ↔ n ∈ ns ∧ n ∉ acc) ∧
      ext.Pairwise (fun a b => ns.indexOf a < ns.indexOf b) := by
  induction ns with
  | nil => intro acc; exact ⟨[], by simp⟩
  | cons n ns ih =>
    intro acc
    by_cases hn : n ∈ acc
    · obtain ⟨ext, he, hm, hp⟩ := ih acc
      have hne : ∀ x ∈ ext, x ≠ n := fun x hx e => ((hm x).1 hx).2 (e ▸ hn)
      refine ⟨ext, by simp [addName, hn, he], ?_, ?_⟩
      · intro x
        rw [hm x, List.mem_cons]
        constructor
        · rintro ⟨h1, h2⟩; exact ⟨Or.inr h1, h2⟩
        · rintro ⟨h1 | h1, h2⟩
          · exact absurd (h1 ▸ hn) h2
          · exact ⟨h1, h2⟩
      · refine hp.imp_of_mem ?_
        intro a b ha hb hab
        rw [List.indexOf_cons_ne _ (hne a ha).symm, List.indexOf_cons_ne _ (hne b hb).symm]
        omega
    · obtain ⟨ext, he, hm, hp⟩ := ih (acc ++ [n])
      have hne : ∀ x ∈ ext, x ≠ n := fun x hx e => ((hm x).1 hx).2 (by simp [e])
      refine ⟨n :: ext, by simp [addName, hn, he], ?_, ?_⟩
      · intro x
        rw [List.mem_cons, hm x, List.mem_cons]
        constructor
        · rintro (h1 | ⟨h1, h2⟩)
          · exact ⟨Or.inl h1, h1 ▸ hn⟩
          · exact ⟨Or.inr h1, fun h => h2 (by simp [h])⟩
        · rintro ⟨h1 | h1, h2⟩
          · exact Or.inl h1
          · by_cases e : x = n
            · exact Or.inl e
            · exact Or.inr ⟨h1, by simp [h2, e]⟩
      · refine List.pairwise_cons.2 ⟨?_, hp.imp_of_mem ?_⟩
        · intro b hb
          rw [List.indexOf_cons_self, List.indexOf_cons_ne _ (hne b hb).symm]
          omega
        · intro a b ha hb hab
          rw [List.indexOf_cons_ne _ (hne a ha).symm, List.indexOf_cons_ne _ (hne b hb).symm]
          omega

/-! ## Claims on the merger -/

/-- C1: the name sequence of `mergeDataSourceAttributes main others` is the name
sequence of `main` followed by a list `ext` that holds exactly the names
occurring in the others and not in `main`, each once, ordered by their first
occurrence in the others read in argument order and then in list order. -/
theorem mergeDataSourceAttributes_names (main : List Attribute)
    (others : List (List Attribute)) :
    ∃ ext : List String,
      names (mergeDataSourceAttributes main others) = names main ++ ext ∧
      (∀ n, n ∈ ext ↔ n ∈ names others.flatten ∧ n ∉ names main) ∧
      ext.Nodup ∧
      ext.Pairwise (fun a b =>
        (names others.flatten).indexOf a < (names others.flatten).indexOf b) := by
  obtain ⟨ext, he, hm, hp⟩ := foldl_addName (names others.flatten) (names main)
  refine ⟨ext, ?_, hm, ?_, hp⟩
  · rw [names_mergeDataSourceAttributes, he]
  · exact hp.imp (fun h e => by rw [e] at h; exact absurd h (lt_irrefl _))


/-! ### Entries of the main slice -/

theorem mergeNested_eq_self (c m : Attribute)
    (h : m.kind.isPrimitive = true ∨ sameNested m c = false) : mergeNested c m = m := by
  obtain ⟨cn, ck, cd, cs, cv⟩ := c
  obtain ⟨n, k, d, s, v⟩ := m
  cases v <;> cases cv <;>
    simp_all [mergeNested, sameNested, Attribute.kind, Attribute.variant, Variant.kind,
      Kind.isPrimitive]

theorem mergeInto_getElem? (combine : Attribute → Attribute) (c a : Attribute) :
    ∀ (main : List Attribute) (i : Nat), main[i]? = some a →
      (a.Name = c.Name → combine a = a) → (mergeInto combine c main)[i]? = some a := by
  intro main
  induction main with
  | nil => intro i h; simp at h
  | cons m ms ih =>
    intro i h hc
    unfold mergeInto
    by_cases hn : m.Name = c.Name
    · cases i with
      | zero =>
        simp only [List.getElem?_cons_zero, Option.some.injEq] at h
        subst h
        simp [hn, hc hn]
      | succ j => simpa [hn] using h
    · cases i with
      | zero => simpa [hn] using h
      | succ j =>
        simp only [List.getElem?_cons_succ] at h
        simpa [hn] using ih j h hc

theorem mergeSlice_getElem? (a : Attribute) (other : List Attribute) :
    ∀ (main : List Attribute) (i : Nat), main[i]? = some a →
      (∀ c ∈ other, a.Name = c.Name → mergeNested c a = a) →
      (mergeSlice main other)[i]? = some a := by
  induction other with
  | nil => intro main i h _; simpa [mergeSlice] using h
  | cons c cs ih =>
    intro main i h hc
    rw [mergeSlice]
    exact ih _ i (mergeInto_getElem? _ c a main i h (hc c (List.mem_cons_self _ _)))
      (fun c' hc' => hc c' (List.mem_cons_of_mem _ hc'))

theorem mergeDataSourceAttributes_getElem? (a : Attribute) (others : List (List Attribute)) :
    ∀ (main : List Attribute) (i : Nat), main[i]? = some a →
      (∀ c ∈ others.flatten, a.Name = c.Name → mergeNested c a = a) →
      (mergeDataSourceAttributes main others)[i]? = some a := by
  unfold mergeDataSourceAttributes
  induction others with
  | nil => intro main i h _; simpa using h
  | cons o os ih =>
    intro main i h hc
    rw [List.foldl_cons]
    refine ih _ i (mergeSlice_getElem? a o main i h ?_) ?_
    · intro c hco; exact hc c (by simp [hco])
    · intro c hco; exact hc c (by simp [hco])

/-- C2: first writer wins. When entry `i` of `main` is primitive, or no attribute
of the others with its name has the same nested variant (both SingleNested, both
ListNested or both List), entry `i` of the merge is `main[i]` itself. The merge
is a total function into attribute lists: it has no error result. -/
theorem mergeDataSourceAttributes_first_writer_wins (main : List Attribute)
    (others : List (List Attribute)) (i : Fin main.length)
    (h : (main.get i).kind.isPrimitive = true ∨
      ∀ c ∈ others.flatten, c.Name = (main.get i).Name → sameNested (main.get i) c = false) :
    (mergeDataSourceAttributes main others)[i.val]? = some (main.get i) := by
  refine mergeDataSourceAttributes_getElem? _ others main i.val ?_ ?_
  · simp [List.getElem?_eq_getElem i.isLt]
  · intro c hc hn
    refine mergeNested_eq_self c _ ?_
    rcases h with h | h
    · exact Or.inl h
    · exact Or.inr (h c hc hn.symm)

/-! ### Frame of the merge -/

theorem mergeNested_shell (c m : Attribute) : (mergeNested c m).shell = m.shell := by
  unfold mergeNested
  split <;> rfl

theorem shell_mergeInto (combine : Attribute → Attribute)
    (hc : ∀ m, (combine m).shell = m.shell) (c : Attribute) (main : List Attribute) :
    ∃ ext, (mergeInto combine c main).map Attribute.shell = main.map Attribute.shell ++ ext := by
  induction main with
  | nil => exact ⟨[c.shell], by simp [mergeInto]⟩
  | cons m ms ih =>
    unfold mergeInto
    by_cases h : m.Name = c.Name
    · exact ⟨[], by simp [h, hc]⟩
    · obtain ⟨ext, he⟩ := ih
      exact ⟨ext, by simp [h, he]⟩

theorem shell_mergeSlice (other : List Attribute) : ∀ main : List Attribute,
    ∃ ext, (mergeSlice main other).map Attribute.shell = main.map Attribute.shell ++ ext := by
  induction other with
  | nil => intro main; exact ⟨[], by simp [mergeSlice]⟩
  | cons c cs ih =>
    intro main
    rw [mergeSlice]
    obtain ⟨e1, h1⟩ := shell_mergeInto _ (mergeNested_shell c) c main
    obtain ⟨e2, h2⟩ := ih (mergeInto (mergeNested c) c main)
    exact ⟨e1 ++ e2, by rw [h2, h1, List.append_assoc]⟩

theorem shell_mergeDataSourceAttributes (others : List (List Attribute)) :
    ∀ main : List Attribute, ∃ ext,
      (mergeDataSourceAttributes main others).map Attribute.shell
        = main.map Attribute.shell ++ ext := by
  unfold mergeDataSourceAttributes
  induction others with
  | nil => intro main; exact ⟨[], by simp⟩
  | cons o os ih =>
    intro main
    rw [List.foldl_cons]
    obtain ⟨e1, h1⟩ := shell_mergeSlice o main
    obtain ⟨e2, h2⟩ := ih (mergeSlice main o)
    exact ⟨e1 ++ e2, by rw [h2, h1, List.append_assoc]⟩

theorem eq_of_shell_eq_of_isPrimitive (a b : Attribute) (h : b.shell = a.shell)
    (hp : a.kind.isPrimitive = true) : b = a := by
  obtain ⟨n, k, d, s, v⟩ := a
  obtain ⟨n', k', d', s', v'⟩ := b
  simp only [Attribute.shell, Attribute.Name, Attribute.kind, Attribute.variant,
    Attribute.computability, Attribute.description, Attribute.sensitive,
    Prod.mk.injEq] at h
  obtain ⟨h1, h2, h3, h4, h5⟩ := h
  subst h1 h3 h4 h5
  cases v <;> cases v' <;>
    simp_all [Variant.kind, Kind.isPrimitive, Attribute.kind, Attribute.variant]

/-- C3: the merge never reorders or removes entries of `main`. The result is at
least as long as `main`, and entry `i` of the result has the name, the variant
tag, the computability, the description (and the sensitive flag) of `main[i]`;
it is `main[i]` itself unless `main[i]` is a collection variant, whose child
attribute list or element type is all that can differ. -/
theorem mergeDataSourceAttributes_frame (main : List Attribute)
    (others : List (List Attribute)) :
    main.length ≤ (mergeDataSourceAttributes main others).length ∧
    ∀ i : Fin main.length, ∃ b : Attribute,
      (mergeDataSourceAttributes main others)[i.val]? = some b ∧
      b.Name = (main.get i).Name ∧ b.kind = (main.get i).kind ∧
      b.computability = (main.get i).computability ∧
      b.description = (main.get i).description ∧
      b.sensitive = (main.get i).sensitive ∧
      (b = main.get i ∨ (main.get i).kind.isPrimitive = false) := by
  obtain ⟨ext, he⟩ := shell_mergeDataSourceAttributes others main
  have hlen : main.length ≤ (mergeDataSourceAttributes main others).length := by
    have := congrArg List.length he
    simp only [List.length_map, List.length_append] at this
    omega
  refine ⟨hlen, fun i => ?_⟩
  have hi : i.val < (mergeDataSourceAttributes main others).length := lt_of_lt_of_le i.isLt hlen
  refine ⟨(mergeDataSourceAttributes main others)[i.val], List.getElem?_eq_getElem hi, ?_⟩
  have hs : ((mergeDataSourceAttributes main others)[i.val]).shell = (main.get i).shell := by
    have h1 : ((mergeDataSourceAttributes main others).map Attribute.shell)[i.val]?
        = (main.map Attribute.shell ++ ext)[i.val]? := by rw [he]
    rw [List.getElem?_append_left (by simp)] at h1
    simpa [List.getElem?_eq_getElem hi, List.getElem?_eq_getElem i.isLt] using h1
  have hs' := hs
  simp only [Attribute.shell, Prod.mk.injEq] at hs'
  obtain ⟨h1, h2, h3, h4, h5⟩ := hs'
  refine ⟨h1, h2, h3, h4, h5, ?_⟩
  cases hp : (main.get i).kind.isPrimitive with
  | false => exact Or.inr rfl
  | true => exact Or.inl (eq_of_shell_eq_of_isPrimitive _ _ hs hp)

/-! ### Deep merge of nested entries -/

theorem find?_mergeInto_of_ne (combine : Attribute → Attribute)
    (hc : ∀ m, (combine m).Name = m.Name) (c : Attribute) (n : String) (hn : c.Name ≠ n)
    (main : List Attribute) :
    (mergeInto combine c main).find? (named n) = main.find? (named n) := by
  induction main with
  | nil => simp [mergeInto, named, hn]
  | cons m ms ih =>
    unfold mergeInto
    by_cases h : m.Name = c.Name
    · have hm : ¬ m.Name = n := fun e => hn (h ▸ e)
      simp [h, List.find?_cons, named, hc, hn]
    · rw [if_neg h, List.find?_cons, List.find?_cons, ih]

theorem find?_mergeInto_of_eq (combine : Attribute → Attribute)
    (hc : ∀ m, (combine m).Name = m.Name) (c : Attribute) (n : String) (hn : c.Name = n)
    (m0 : Attribute) (main : List Attribute) (h0 : main.find? (named n) = some m0) :
    (mergeInto combine c main).find? (named n) = some (combine m0) := by
  induction main with
  | nil => simp at h0
  | cons m ms ih =>
    unfold mergeInto
    by_cases h : m.Name = c.Name
    · have hm : m.Name = n := h.trans hn
      simp only [List.find?_cons, named, hm, decide_True, Option.some.injEq] at h0
      subst h0
      simp [h, List.find?_cons, named, hc, hn]
    · have hm : ¬ m.Name = n := fun e => h (e.trans hn.symm)
      simp only [List.find?_cons, named, hm, decide_False] at h0
      simp only [h, if_false, List.find?_cons, named, hm, decide_False]
      exact ih h0

theorem find?_mergeSlice (n : String) (other : List Attribute) :
    ∀ (main : List Attribute) (m0 : Attribute), main.find? (named n) = some m0 →
      (mergeSlice main other).find? (named n)
        = some ((other.filter (named n)).foldl (fun m c => mergeNested c m) m0) := by
  induction other with
  | nil => intro main m0 h; simpa [mergeSlice] using h
  | cons c cs ih =>
    intro main m0 h
    rw [mergeSlice]
    by_cases hn : c.Name = n
    · rw [ih _ _ (find?_mergeInto_of_eq _ (mergeNested_Name c) c n hn m0 main h)]
      simp [List.filter_cons, named, hn]
    · rw [ih _ m0 ((find?_mergeInto_of_ne _ (mergeNested_Name c) c n hn main).trans h)]
      simp [List.filter_cons, named, hn]

theorem count_names_mergeDataSourceAttributes (main : List Attribute)
    (others : List (List Attribute)) (n : String) (hn : n ∈ names main) :
    (names (mergeDataSourceAttributes main others)).count n = (names main).count n := by
  obtain ⟨ext, he, hm, -⟩ := foldl_addName (names others.flatten) (names main)
  rw [names_mergeDataSourceAttributes, he, List.count_append]
  have : n ∉ ext := fun h => ((hm n).1 h).2 hn
  simp [List.count_eq_zero_of_not_mem this]

theorem mem_names_of_find? (main : List Attribute) (n : String) (m0 : Attribute)
    (h : main.find? (named n) = some m0) : n ∈ names main := by
  have h1 := List.find?_some h
  have h2 := List.mem_of_find?_eq_some h
  simp only [named, decide_eq_true_eq] at h1
  exact h1 ▸ List.mem_map_of_mem _ h2

theorem mergeInto_of_not_mem (combine : Attribute → Attribute) (c : Attribute)
    (main : List Attribute) (h : c.Name ∉ names main) :
    mergeInto combine c main = main ++ [c] := by
  induction main with
  | nil => rfl
  | cons m ms ih =>
    simp only [names, List.map_cons, List.mem_cons, not_or] at h
    have h1 : ¬ m.Name = c.Name := fun e => h.1 e.symm
    simp only [mergeInto, h1, if_false, List.cons_append]
    rw [ih h.2]

theorem mergeSlice_of_disjoint (B : List Attribute) : ∀ A : List Attribute,
    (∀ x ∈ names A, x ∉ names B) → (names B).Nodup → mergeSlice A B = A ++ B := by
  induction B with
  | nil => intro A _ _; simp [mergeSlice]
  | cons c cs ih =>
    intro A hd hnd
    simp only [names, List.map_cons, List.nodup_cons] at hnd
    rw [mergeSlice, mergeInto_of_not_mem _ c A (fun h => hd _ h (by simp [names]))]
    rw [ih (A ++ [c]) ?_ hnd.2]
    · simp
    · intro x hx
      simp only [names, List.map_append, List.map_cons, List.map_nil, List.mem_append,
        List.mem_singleton] at hx
      rcases hx with hx | hx
      · intro h; exact hd x hx (by simp only [names, List.map_cons]; exact List.mem_cons_of_mem _ h)
      · rw [hx]; exact hnd.1

/-- C4: deep merge of SingleNested. When the first entry of `main` named `n` is
SingleNested with children `A` and the only entry of `other` named `n` is
SingleNested with children `B`, the first entry named `n` of the merge is that
main entry with children `mergeDataSourceAttributes A [B]`; the merge has as
many entries named `n` as `main`, a single one when the names of `main` are
pairwise distinct; and when `A` and `B` share no names, the sibling names of
`B` being pairwise distinct as in every attribute list of the data model, the
children are `A` followed by `B`. -/
theorem mergeDataSourceAttributes_singleNested (main other A B : List Attribute)
    (n : String) (k k' : Computability) (d d' : Option String) (s s' : Bool)
    (hm : main.find? (named n) = some (.mk n k d s (.SingleNested A)))
    (ho : other.filter (named n) = [.mk n k' d' s' (.SingleNested B)]) :
    (mergeDataSourceAttributes main [other]).find? (named n)
        = some (.mk n k d s (.SingleNested (mergeDataSourceAttributes A [B]))) ∧
    (names (mergeDataSourceAttributes main [other])).count n = (names main).count n ∧
    ((names main).Nodup → (names (mergeDataSourceAttributes main [other])).count n = 1) ∧
    ((∀ x ∈ names A, x ∉ names B) → (names B).Nodup →
      mergeDataSourceAttributes A [B] = A ++ B) := by
  have hmem := mem_names_of_find? main n _ hm
  have hcount := count_names_mergeDataSourceAttributes main [other] n hmem
  refine ⟨?_, hcount, ?_, ?_⟩
  · have h := find?_mergeSlice n other main _ hm
    rw [ho] at h
    simpa [mergeDataSourceAttributes, mergeNested] using h
  · intro hnd
    rw [hcount]
    exact List.count_eq_one_of_mem hnd hmem
  · intro hd hnd
    simpa [mergeDataSourceAttributes] using mergeSlice_of_disjoint B A hd hnd

/-- C4, witness: an object `cfg` with child `a` merged with an object `cfg`
with child `b` is one object `cfg` with children `a`, `b`. -/
theorem mergeDataSourceAttributes_singleNested_witness :
    [stringAttribute "id" .Required,
      singleNestedAttribute "cfg" .Computed [stringAttribute "a" .Computed]].find? (named "cfg")
      = some (.mk "cfg" .Computed none false (.SingleNested [stringAttribute "a" .Computed])) ∧
    [singleNestedAttribute "cfg" .Optional [stringAttribute "b" .Computed],
      stringAttribute "z" .Computed].filter (named "cfg")
      = [.mk "cfg" .Optional none false (.SingleNested [stringAttribute "b" .Computed])] ∧
    (mergeDataSourceAttributes
        [stringAttribute "id" .Required,
          singleNestedAttribute "cfg" .Computed [stringAttribute "a" .Computed]]
        [[singleNestedAttribute "cfg" .Optional [stringAttribute "b" .Computed],
          stringAttribute "z" .Computed]]).find? (named "cfg")
      = some (.mk "cfg" .Computed none false
          (.SingleNested ([stringAttribute "a" .Computed] ++ [stringAttribute "b" .Computed]))) :=
  have h := mergeDataSourceAttributes_singleNested
    [stringAttribute "id" .Required,
      singleNestedAttribute "cfg" .Computed [stringAttribute "a" .Computed]]
    [singleNestedAttribute "cfg" .Optional [stringAttribute "b" .Computed],
      stringAttribute "z" .Computed]
    [stringAttribute "a" .Computed] [stringAttribute "b" .Computed]
    "cfg" .Computed .Optional none none false false rfl rfl
  ⟨rfl, rfl, by rw [h.1, h.2.2.2 (by decide) (by decide)]⟩

/-- C5: when the first entry of `main` named `n` is ListNested with nested-object
children `A` and the only entry of `other` named `n` is ListNested with
nested-object children `B`, the first entry named `n` of the merge is that main
entry with children `mergeDataSourceAttributes A [B]`, the rule of SingleNested,
and the merge has as many entries named `n` as `main`. -/
theorem mergeDataSourceAttributes_listNested (main other A B : List Attribute)
    (n : String) (k k' : Computability) (d d' : Option String) (s s' : Bool)
    (hm : main.find? (named n) = some (.mk n k d s (.ListNested A)))
    (ho : other.filter (named n) = [.mk n k' d' s' (.ListNested B)]) :
    (mergeDataSourceAttributes main [other]).find? (named n)
        = some (.mk n k d s (.ListNested (mergeDataSourceAttributes A [B]))) ∧
    (names (mergeDataSourceAttributes main [other])).count n = (names main).count n := by
  refine ⟨?_, count_names_mergeDataSourceAttributes main [other] n
    (mem_names_of_find? main n _ hm)⟩
  have h := find?_mergeSlice n other main _ hm
  rw [ho] at h
  simpa [mergeDataSourceAttributes, mergeNested] using h

/-- C5, witness: a list of objects `items` with child `a` merged with a list of
objects `items` with children `b`, `a` has children `a`, `b`. -/
theorem mergeDataSourceAttributes_listNested_witness :
    [listNestedAttribute "items" .Computed [stringAttribute "a" .Required]].find? (named "items")
      = some (.mk "items" .Computed none false (.ListNested [stringAttribute "a" .Required])) ∧
    [stringAttribute "id" .Computed,
      listNestedAttribute "items" .Optional
        [stringAttribute "b" .Computed, stringAttribute "a" .Computed]].filter (named "items")
      = [.mk "items" .Optional none false
          (.ListNested [stringAttribute "b" .Computed, stringAttribute "a" .Computed])] ∧
    (mergeDataSourceAttributes
        [listNestedAttribute "items" .Computed [stringAttribute "a" .Required]]
        [[stringAttribute "id" .Computed,
          listNestedAttribute "items" .Optional
            [stringAttribute "b" .Computed, stringAttribute "a" .Computed]]]).find?
        (named "items")
      = some (.mk "items" .Computed none false
          (.ListNested [stringAttribute "a" .Required, stringAttribute "b" .Computed])) :=
  ⟨rfl, rfl,
    (mergeDataSourceAttributes_listNested
      [listNestedAttribute "items" .Computed [stringAttribute "a" .Required]]
      [stringAttribute "id" .Computed,
        listNestedAttribute "items" .Optional
          [stringAttribute "b" .Computed, stringAttribute "a" .Computed]]
      [stringAttribute "a" .Required]
      [stringAttribute "b" .Computed, stringAttribute "a" .Computed]
      "items" .Computed .Optional none none false false rfl rfl).1⟩

/-! ### Idempotence -/

theorem mergeInto_self (combine : Attribute → Attribute) (c : Attribute) (hc : combine c = c) :
    ∀ main : List Attribute, (names main).Nodup → c ∈ main →
      mergeInto combine c main = main := by
  intro main
  induction main with
  | nil => intro _ h; simp at h
  | cons m ms ih =>
    intro hnd hmem
    simp only [names, List.map_cons, List.nodup_cons] at hnd
    unfold mergeInto
    by_cases h : m.Name = c.Name
    · have hcm : c = m := by
        rcases List.mem_cons.1 hmem with e | e
        · exact e
        · exact absurd (h ▸ List.mem_map_of_mem Attribute.Name e) hnd.1
      subst hcm
      simp [hc]
    · have hcm : c ∈ ms := by
        rcases List.mem_cons.1 hmem with e | e
        · exact absurd (e ▸ rfl) h
        · exact e
      simp only [h, if_false]
      rw [ih hnd.2 hcm]

theorem mergeSlice_of_subset (other : List Attribute) : ∀ main : List Attribute,
    (names main).Nodup → (∀ c ∈ other, c ∈ main ∧ mergeNested c c = c) →
    mergeSlice main other = main := by
  induction other with
  | nil => intro main _ _; rfl
  | cons c cs ih =>
    intro main hnd h
    have hc := h c (List.mem_cons_self _ _)
    rw [mergeSlice, mergeInto_self _ c hc.2 main hnd hc.1]
    exact ih main hnd (fun c' hc' => h c' (List.mem_cons_of_mem _ hc'))

theorem nodup_names_of_uniqueNamesList : ∀ l : List Attribute,
    uniqueNamesList l = true → (names l).Nodup
  | [], _ => by simp [names]
  | a :: rest, h => by
    simp only [uniqueNamesList, Bool.and_eq_true, decide_eq_true_eq] at h
    simp only [names, List.map_cons, List.nodup_cons]
    exact ⟨h.1.1, nodup_names_of_uniqueNamesList rest h.2⟩

mutual
theorem mergeNested_self : ∀ a : Attribute, uniqueNamesAttribute a = true →
    mergeNested a a = a
  | .mk n k d s .String, _ => by simp [mergeNested]
  | .mk n k d s .Integer, _ => by simp [mergeNested]
  | .mk n k d s .Number, _ => by simp [mergeNested]
  | .mk n k d s .Boolean, _ => by simp [mergeNested]
  | .mk n k d s (.List e), h => by
    simp only [uniqueNamesAttribute, uniqueNamesVariant] at h
    simp [mergeNested, mergeElementType_self e h]
  | .mk n k d s (.ListNested cs), h => by
    simp only [uniqueNamesAttribute, uniqueNamesVariant] at h
    have h1 := mergeSlice_of_subset cs cs (nodup_names_of_uniqueNamesList cs h)
      (fun c hc => ⟨hc, mergeNested_self_of_mem cs h c hc⟩)
    simp [mergeNested, h1]
  | .mk n k d s (.SingleNested cs), h => by
    simp only [uniqueNamesAttribute, uniqueNamesVariant] at h
    have h1 := mergeSlice_of_subset cs cs (nodup_names_of_uniqueNamesList cs h)
      (fun c hc => ⟨hc, mergeNested_self_of_mem cs h c hc⟩)
    simp [mergeNested, h1]
theorem mergeNested_self_of_mem : ∀ l : List Attribute, uniqueNamesList l = true →
    ∀ c ∈ l, mergeNested c c = c
  | [], _, c, hc => by simp at hc
  | a :: rest, h, c, hc => by
    simp only [uniqueNamesList, Bool.and_eq_true] at h
    rcases List.mem_cons.1 hc with e | e
    · rw [e]; exact mergeNested_self a h.1.2
    · exact mergeNested_self_of_mem rest h.2 c e
theorem mergeElementType_self : ∀ e : ElementType, uniqueNamesElementType e = true →
    mergeElementType e e = e
  | .String, _ => by simp [mergeElementType]
  | .Integer, _ => by simp [mergeElementType]
  | .Number, _ => by simp [mergeElementType]
  | .Boolean, _ => by simp [mergeElementType]
  | .List e, _ => by simp [mergeElementType]
  | .Object cs, h => by
    simp only [uniqueNamesElementType] at h
    have h1 := mergeSlice_of_subset cs cs (nodup_names_of_uniqueNamesList cs h)
      (fun c hc => ⟨hc, mergeNested_self_of_mem cs h c hc⟩)
    simp [mergeElementType, h1]
end

/-- C6: idempotence. For a list whose sibling names are unique at every nesting
level, merging the list with itself returns the list unchanged. -/
theorem mergeDataSourceAttributes_idempotent (l : List Attribute)
    (h : uniqueNamesList l = true) : mergeDataSourceAttributes l [l] = l := by
  simp only [mergeDataSourceAttributes, List.foldl_cons, List.foldl_nil]
  exact mergeSlice_of_subset l l (nodup_names_of_uniqueNamesList l h)
    (fun c hc => ⟨hc, mergeNested_self_of_mem l h c hc⟩)

/-- C6, witness: a list with a nested object, a list of objects and a list of
strings, merged with itself. -/
theorem mergeDataSourceAttributes_idempotent_witness :
    uniqueNamesList
        [stringAttribute "id" .Required,
          singleNestedAttribute "cfg" .Computed
            [stringAttribute "a" .Computed, listAttribute "b" .Computed .String],
          listNestedAttribute "items" .Computed [stringAttribute "a" .Computed],
          listAttribute "tags" .ComputedOptional (.Object [stringAttribute "k" .Computed])]
      = true ∧
    mergeDataSourceAttributes
        [stringAttribute "id" .Required,
          singleNestedAttribute "cfg" .Computed
            [stringAttribute "a" .Computed, listAttribute "b" .Computed .String],
          listNestedAttribute "items" .Computed [stringAttribute "a" .Computed],
          listAttribute "tags" .ComputedOptional (.Object [stringAttribute "k" .Computed])]
        [[stringAttribute "id" .Required,
          singleNestedAttribute "cfg" .Computed
            [stringAttribute "a" .Computed, listAttribute "b" .Computed .String],
          listNestedAttribute "items" .Computed [stringAttribute "a" .Computed],
          listAttribute "tags" .ComputedOptional (.Object [stringAttribute "k" .Computed])]]
      = [stringAttribute "id" .Required,
          singleNestedAttribute "cfg" .Computed
            [stringAttribute "a" .Computed, listAttribute "b" .Computed .String],
          listNestedAttribute "items" .Computed [stringAttribute "a" .Computed],
          listAttribute "tags" .ComputedOptional (.Object [stringAttribute "k" .Computed])] :=
  ⟨by decide, mergeDataSourceAttributes_idempotent _ (by decide)⟩

/-- C2, witness: parameter `id` (Required) merged with a response body holding
`id` (Computed) and `tags`: entry 0 is primitive and stays the Required `id`. -/
theorem mergeDataSourceAttributes_first_writer_wins_witness :
    (stringAttribute "id" .Required).kind.isPrimitive = true ∧
    (mergeDataSourceAttributes [stringAttribute "id" .Required]
        [[stringAttribute "id" .Computed,
          listAttribute "tags" .ComputedOptional .String]])[0]?
      = some (stringAttribute "id" .Required) :=
  ⟨rfl, mergeDataSourceAttributes_first_writer_wins [stringAttribute "id" .Required]
    [[stringAttribute "id" .Computed, listAttribute "tags" .ComputedOptional .String]]
    ⟨0, by decide⟩ (Or.inl rfl)⟩

/-! ## Lemmas on Go maps and sorted keys -/

theorem sortedKeys_perm {V : Type} (m : GoMap V) : (SortedKeys m).Perm m.keys :=
  List.perm_insertionSort _ _

theorem mem_sortedKeys {V : Type} (m : GoMap V) (k : String) :
    k ∈ SortedKeys m ↔ k ∈ m.keys :=
  (sortedKeys_perm m).mem_iff

theorem sortedKeys_sorted_le {V : Type} (m : GoMap V) :
    (SortedKeys m).Sorted (fun a b : String => a.toList ≤ b.toList) :=
  @List.sorted_insertionSort String (fun a b => a.toList ≤ b.toList) _
    ⟨fun a b => le_total a.toList b.toList⟩ ⟨fun _ _ _ h1 h2 => le_trans h1 h2⟩ m.keys

theorem sortedKeys_nodup {V : Type} (m : GoMap V) : (SortedKeys m).Nodup :=
  (sortedKeys_perm m).nodup_iff.2 m.nodup

theorem sortedKeys_sorted {V : Type} (m : GoMap V) :
    (SortedKeys m).Sorted (fun a b : String => a < b) := by
  have h1 : (SortedKeys m).Sorted (fun a b : String => a ≤ b) :=
    (sortedKeys_sorted_le m).imp (fun h => String.le_iff_toList_le.2 h)
  exact h1.lt_of_le (sortedKeys_nodup m)

theorem sortedKeys_congr {V : Type} (m m' : GoMap V) (h : m'.entries.Perm m.entries) :
    SortedKeys m' = SortedKeys m := by
  have hp : (SortedKeys m').Perm (SortedKeys m) :=
    ((sortedKeys_perm m').trans (h.map Prod.fst)).trans (sortedKeys_perm m).symm
  have h1 : (SortedKeys m').Sorted (fun a b : String => a ≤ b) :=
    (sortedKeys_sorted_le m').imp (fun h => String.le_iff_toList_le.2 h)
  have h2 : (SortedKeys m).Sorted (fun a b : String => a ≤ b) :=
    (sortedKeys_sorted_le m).imp (fun h => String.le_iff_toList_le.2 h)
  exact List.eq_of_perm_of_sorted hp h1 h2

theorem lookup_eq_of_perm {V : Type} {l₁ l₂ : List (String × V)} (h : l₁.Perm l₂) :
    (l₁.map Prod.fst).Nodup → ∀ k : String, l₁.lookup k = l₂.lookup k := by
  induction h with
  | nil => intro _ _; rfl
  | cons x _ ih =>
    intro nd k
    obtain ⟨a, v⟩ := x
    simp only [List.map_cons, List.nodup_cons] at nd
    simp only [List.lookup_cons]
    cases k == a
    · exact ih nd.2 k
    · rfl
  | swap x y l =>
    intro nd k
    obtain ⟨a, v⟩ := x
    obtain ⟨c, w⟩ := y
    simp only [List.map_cons, List.nodup_cons, List.mem_cons, not_or] at nd
    simp only [List.lookup_cons]
    cases h1 : k == a <;> cases h2 : k == c <;> try rfl
    exact absurd ((beq_iff_eq.1 h2).symm.trans (beq_iff_eq.1 h1)) nd.1.1
  | trans h1 _ ih1 ih2 =>
    intro nd k
    exact (ih1 nd k).trans (ih2 ((h1.map Prod.fst).nodup_iff.1 nd) k)

theorem get_congr {V : Type} [Inhabited V] (m m' : GoMap V) (h : m'.entries.Perm m.entries)
    (k : String) : m'.get k = m.get k := by
  simp only [GoMap.get, GoMap.get?, lookup_eq_of_perm h m'.nodup k]

/-! ## Lemmas on `MapToIR` -/

section
variable {Proxy Rest Raw : Type} [Inhabited Proxy]

theorem mapToIRLoop_cases (b : Builders Proxy Rest Raw)
    (m : GoMap (explorer.DataSource Proxy Rest)) : ∀ (keys : List String)
    (acc : List datasource.DataSource),
    (mapToIRLoop b m keys acc = .panic ∧
      ∃ name ∈ keys, generateDataSourceSchema b (m.get name) = .panic) ∨
    (mapToIRLoop b m keys acc = .ok (acc ++ keys.filterMap (emitted b m)) ∧
      ∀ name ∈ keys, generateDataSourceSchema b (m.get name) ≠ .panic) := by
  intro keys
  induction keys with
  | nil => intro acc; exact Or.inr ⟨by simp [mapToIRLoop], by simp⟩
  | cons name rest ih =>
    intro acc
    cases hg : generateDataSourceSchema b (m.get name) with
    | panic =>
      exact Or.inl ⟨by simp [mapToIRLoop, hg], name, List.mem_cons_self _ _, hg⟩
    | error e =>
      rcases ih acc with ⟨h1, n, hn, h2⟩ | ⟨h1, h2⟩
      · exact Or.inl ⟨by simp [mapToIRLoop, hg, h1], n, List.mem_cons_of_mem _ hn, h2⟩
      · refine Or.inr ⟨by simp [mapToIRLoop, hg, h1, emitted], ?_⟩
        intro n hn
        rcases List.mem_cons.1 hn with e1 | e1
        · rw [e1, hg]; exact fun h => Outcome.noConfusion h
        · exact h2 n e1
    | ok s =>
      rcases ih (acc ++ [⟨name, s⟩]) with ⟨h1, n, hn, h2⟩ | ⟨h1, h2⟩
      · exact Or.inl ⟨by simp [mapToIRLoop, hg, h1], n, List.mem_cons_of_mem _ hn, h2⟩
      · refine Or.inr ⟨by simp [mapToIRLoop, hg, h1, emitted], ?_⟩
        intro n hn
        rcases List.mem_cons.1 hn with e1 | e1
        · rw [e1, hg]; exact fun h => Outcome.noConfusion h
        · exact h2 n e1

theorem mapToIRLoop_congr (b : Builders Proxy Rest Raw)
    (m m' : GoMap (explorer.DataSource Proxy Rest)) (h : ∀ k, m'.get k = m.get k) :
    ∀ (keys : List String) (acc : List datasource.DataSource),
      mapToIRLoop b m' keys acc = mapToIRLoop b m keys acc := by
  intro keys
  induction keys with
  | nil => intro acc; rfl
  | cons name rest ih =>
    intro acc
    simp only [mapToIRLoop, h name]
    cases generateDataSourceSchema b (m.get name) with
    | panic => rfl
    | error e => exact ih acc
    | ok s => exact ih _

theorem map_Name_filterMap_emitted (b : Builders Proxy Rest Raw)
    (m : GoMap (explorer.DataSource Proxy Rest)) (keys : List String) :
    (keys.filterMap (emitted b m)).map (fun d => d.Name)
      = keys.filter (fun k => (emitted b m k).isSome) := by
  induction keys with
  | nil => rfl
  | cons name rest ih =>
    simp only [List.filterMap_cons, List.filter_cons]
    cases hg : generateDataSourceSchema b (m.get name) <;> simp [emitted, hg, ih]

/-- C7: the list `MapToIR` returns is in strictly ascending order of entity name,
and it does not depend on the iteration order of the input map: two maps with
the same entries in different orders give the same outcome. -/
theorem MapToIR_sorted (b : Builders Proxy Rest Raw)
    (m : GoMap (explorer.DataSource Proxy Rest)) :
    (∀ r, MapToIR b m = .ok r → (r.map (fun d => d.Name)).Sorted (fun a b : String => a < b)) ∧
    (∀ m' : GoMap (explorer.DataSource Proxy Rest), m'.entries.Perm m.entries →
      MapToIR b m' = MapToIR b m) := by
  constructor
  · intro r hr
    unfold MapToIR at hr
    rcases mapToIRLoop_cases b m (SortedKeys m) [] with ⟨h1, -⟩ | ⟨h1, -⟩
    · rw [h1] at hr; exact Outcome.noConfusion hr
    · rw [h1] at hr
      injection hr with hr
      rw [← hr, List.nil_append, map_Name_filterMap_emitted]
      exact (sortedKeys_sorted m).sublist (List.filter_sublist _)
  · intro m' hp
    unfold MapToIR
    rw [sortedKeys_congr m m' hp]
    exact mapToIRLoop_congr b m m' (get_congr m m' hp) _ _

end

/-- C7, witness: the sample map lists `zeta` before `alpha`; `MapToIR` returns
`alpha` before `zeta`. -/
theorem MapToIR_sorted_witness :
    MapToIR sampleBuilders sampleDataSources
      = .ok [⟨"alpha", ⟨[stringAttribute "id" .Required, stringAttribute "name" .Computed]⟩⟩,
          ⟨"zeta", ⟨[stringAttribute "id" .Computed, stringAttribute "name" .Computed]⟩⟩] ∧
    (["alpha", "zeta"] : List String).Sorted (fun a b : String => a < b) :=
  ⟨rfl, (MapToIR_sorted sampleBuilders sampleDataSources).1 _ rfl⟩

section
variable {Proxy Rest Raw : Type} [Inhabited Proxy]

/-- Per-entity recovery, where no call panics: `MapToIR` returns, with a nil
error, one entity per key whose schema is generated, carrying that schema, in
sorted order of the keys; an entity whose schema returns an error is left out. -/
theorem MapToIR_of_no_panic (b : Builders Proxy Rest Raw)
    (m : GoMap (explorer.DataSource Proxy Rest))
    (h : ∀ name ∈ m.keys, generateDataSourceSchema b (m.get name) ≠ .panic) :
    MapToIR b m = .ok ((SortedKeys m).filterMap (emitted b m)) := by
  unfold MapToIR
  rcases mapToIRLoop_cases b m (SortedKeys m) [] with ⟨-, n, hn, h2⟩ | ⟨h1, -⟩
  · exact absurd h2 (h n ((mem_sortedKeys m n).1 hn))
  · simpa using h1

/-- A panic of one call is a panic of `MapToIR`: nothing is returned. -/
theorem MapToIR_of_panic (b : Builders Proxy Rest Raw)
    (m : GoMap (explorer.DataSource Proxy Rest)) (name : String) (hn : name ∈ m.keys)
    (h : generateDataSourceSchema b (m.get name) = .panic) : MapToIR b m = .panic := by
  unfold MapToIR
  rcases mapToIRLoop_cases b m (SortedKeys m) [] with ⟨h1, -⟩ | ⟨-, h2⟩
  · exact h1
  · exact absurd h (h2 name ((mem_sortedKeys m name).2 hn))

end

/-- C8, failing input: the data source `bad` has a path parameter whose type tag
`foo` is none of the six; `BuildDataSourceAttribute` returns a nil attribute and
an error (attribute.go, line 101), line 113 logs it and line 116 dereferences the
nil pointer. `MapToIR` does not return; the entity `good` is not emitted. -/
theorem MapToIR_invalid_param_type_panics :
    BuildDataSourceAttribute sampleBuilders ⟨"foo", ⟨[], List.nodup_nil⟩, ""⟩ "id" .Required
      = .error "invalid schema type 'foo'" ∧
    generateDataSourceSchema sampleBuilders (sampleDataSourcesInvalidType.get "good")
      = .ok ⟨[stringAttribute "id" .Computed, stringAttribute "name" .Computed]⟩ ∧
    generateDataSourceSchema sampleBuilders (sampleDataSourcesInvalidType.get "bad") = .panic ∧
    MapToIR sampleBuilders sampleDataSourcesInvalidType = .panic :=
  ⟨rfl, rfl, rfl, rfl⟩

/-! ## Lemmas on `generateDataSourceSchema` -/

section
variable {Proxy Rest Raw : Type}

theorem readParameterAttributesLoop_append (b : Builders Proxy Rest Raw)
    (aliases : GoMap String) (post : List (Parameter Proxy)) :
    ∀ (pre : List (Parameter Proxy)) (acc0 acc : List Attribute),
      readParameterAttributesLoop b aliases pre acc0 = .ok acc →
      readParameterAttributesLoop b aliases (pre ++ post) acc0
        = readParameterAttributesLoop b aliases post acc := by
  intro pre
  induction pre with
  | nil =>
    intro acc0 acc h
    simp only [readParameterAttributesLoop] at h
    injection h with h
    rw [List.nil_append, h]
  | cons p rest ih =>
    intro acc0 acc h
    rw [List.cons_append, readParameterAttributesLoop]
    rw [readParameterAttributesLoop] at h
    by_cases hin : p.In ≠ OAS_param_path ∧ p.In ≠ OAS_param_query
    · rw [if_pos hin] at h ⊢
      exact ih _ _ h
    · rw [if_neg hin] at h ⊢
      cases hs : b.BuildSchema p.Schema { OverrideDescription := p.Description } {} with
      | error e => rw [hs] at h; exact Outcome.noConfusion h
      | ok s =>
        rw [hs] at h
        simp only at h ⊢
        split at h
        · exact Outcome.noConfusion h
        · exact ih _ _ h

theorem readParameterAttributesLoop_schema_error (b : Builders Proxy Rest Raw)
    (aliases : GoMap String) (p : Parameter Proxy) (post : List (Parameter Proxy))
    (acc : List Attribute) (e : String)
    (hin : p.In = OAS_param_path ∨ p.In = OAS_param_query)
    (he : b.BuildSchema p.Schema { OverrideDescription := p.Description } {} = .error e) :
    readParameterAttributesLoop b aliases (p :: post) acc
      = .error ("failed to build param schema for '" ++ p.Name ++ "'") := by
  have hin' : ¬ (p.In ≠ OAS_param_path ∧ p.In ≠ OAS_param_query) := by
    rintro ⟨h1, h2⟩
    rcases hin with h | h
    · exact h1 h
    · exact h2 h
  rw [readParameterAttributesLoop, if_neg hin', he]

theorem nodup_names_mergeDataSourceAttributes (main : List Attribute)
    (others : List (List Attribute)) (h : (names main).Nodup) :
    (names (mergeDataSourceAttributes main others)).Nodup := by
  obtain ⟨ext, he, hm, hp⟩ := foldl_addName (names others.flatten) (names main)
  rw [names_mergeDataSourceAttributes, he]
  refine List.nodup_append.2 ⟨h, ?_, ?_⟩
  · exact hp.imp (fun h e => by rw [e] at h; exact absurd h (lt_irrefl _))
  · intro x hx hx'
    exact ((hm x).1 hx').2 hx

variable [Inhabited Proxy]

/-- C9, as amended: when the response-body attributes build, the parameters
before `p` build, and `BuildSchema` fails on the path or query parameter `p`,
`generateDataSourceSchema` returns no schema and the error
`failed to build param schema for '<name of p>'`: the entity is aborted. -/
theorem generateDataSourceSchema_param_schema_error (b : Builders Proxy Rest Raw)
    (dataSource : explorer.DataSource Proxy Rest) (rs : OASSchema Proxy Raw)
    (ra acc : List Attribute) (pre post : List (Parameter Proxy)) (p : Parameter Proxy)
    (e : String)
    (hr : b.BuildSchemaFromResponse dataSource.ReadOp {}
      { OverrideComputability := some Computability.Computed } = .ok rs)
    (ha : BuildDataSourceAttributes b rs = .ok ra)
    (hp : readOpParameters dataSource = pre ++ p :: post)
    (hpre : readParameterAttributesLoop b dataSource.Aliases pre [] = .ok acc)
    (hin : p.In = OAS_param_path ∨ p.In = OAS_param_query)
    (he : b.BuildSchema p.Schema { OverrideDescription := p.Description } {} = .error e) :
    generateDataSourceSchema b dataSource
      = .error ("failed to build param schema for '" ++ p.Name ++ "'") := by
  unfold generateDataSourceSchema
  rw [hr]
  simp only
  rw [ha]
  simp only
  rw [hp, readParameterAttributesLoop_append b _ (p :: post) pre [] acc hpre,
    readParameterAttributesLoop_schema_error b _ p post acc e hin he]

/-- Where the attributes built for the mapped parameters have pairwise distinct
names, no two entries of the attribute list that `generateDataSourceSchema`
returns have the same name: the merge adds a response-body attribute only under
a name that is not there yet. -/
theorem generateDataSourceSchema_nodup (b : Builders Proxy Rest Raw)
    (dataSource : explorer.DataSource Proxy Rest) (s : datasource.Schema)
    (pa : List Attribute)
    (hs : generateDataSourceSchema b dataSource = .ok s)
    (hp : readParameterAttributesLoop b dataSource.Aliases (readOpParameters dataSource) []
      = .ok pa)
    (hn : (names pa).Nodup) : (names s.Attributes).Nodup := by
  unfold generateDataSourceSchema at hs
  rw [hp] at hs
  split at hs
  · exact Outcome.noConfusion hs
  · split at hs
    · exact Outcome.noConfusion hs
    · simp only at hs
      injection hs with hs
      rw [← hs]
      exact nodup_names_mergeDataSourceAttributes pa _ hn

end

/-- C9, witness: the path parameter `id` builds, the schema of the query
parameter `q` cannot be resolved, and the entity fails. -/
theorem generateDataSourceSchema_param_schema_error_witness :
    sampleBuilders.BuildSchema "" { OverrideDescription := "" } {} = .error "no type" ∧
    generateDataSourceSchema sampleBuilders
        (sampleDataSource
          [sampleParameter "id" "path" "string" true, sampleParameter "q" "query" "" false] noAliases)
      = .error "failed to build param schema for 'q'" :=
  ⟨rfl, generateDataSourceSchema_param_schema_error sampleBuilders
    (sampleDataSource
      [sampleParameter "id" "path" "string" true, sampleParameter "q" "query" "" false] noAliases)
    ⟨OAS_type_object, ⟨[("name", "string"), ("id", "string")], by decide⟩, ""⟩
    [stringAttribute "id" .Computed, stringAttribute "name" .Computed]
    [stringAttribute "id" .Required]
    [sampleParameter "id" "path" "string" true] [] (sampleParameter "q" "query" "" false)
    "no type" rfl rfl rfl rfl (Or.inr rfl) rfl⟩

/-- C9, counterexample: the response-body attributes of the sample data source
build, the schema of its only parameter `q` (a query parameter) fails to build,
and `generateDataSourceSchema` returns an error, whereas the same data source
without `q` yields the schema with `id` and `name`. -/
theorem parameter_schema_failure_counterexample :
    BuildDataSourceAttributes sampleBuilders
        ⟨OAS_type_object, ⟨[("name", "string"), ("id", "string")], by decide⟩, ""⟩
      = .ok [stringAttribute "id" .Computed, stringAttribute "name" .Computed] ∧
    sampleBuilders.BuildSchema "" { OverrideDescription := "" } {} = .error "no type" ∧
    generateDataSourceSchema sampleBuilders
        (sampleDataSource [sampleParameter "q" "query" "" false] noAliases)
      = .error "failed to build param schema for 'q'" ∧
    generateDataSourceSchema sampleBuilders (sampleDataSource [] noAliases)
      = .ok ⟨[stringAttribute "id" .Computed, stringAttribute "name" .Computed]⟩ ∧
    generateDataSourceSchema sampleBuilders
        (sampleDataSource [sampleParameter "q" "query" "" false] noAliases)
      ≠ generateDataSourceSchema sampleBuilders (sampleDataSource [] noAliases) :=
  ⟨rfl, rfl, rfl, rfl, fun h =>
    Outcome.noConfusion
      (h : (Outcome.error "failed to build param schema for 'q'" : Outcome datasource.Schema)
        = Outcome.ok ⟨[stringAttribute "id" .Computed, stringAttribute "name" .Computed]⟩)⟩

/-- The other half of per-parameter recovery: when the attribute of a path
parameter fails to build (type tag `foo`), the warning of line 113 is followed
by the dereference of line 116, and nothing is returned. -/
theorem generateDataSourceSchema_invalid_param_type_panics :
    generateDataSourceSchema sampleBuilders
        (sampleDataSource [sampleParameter "id" "path" "foo" true] noAliases) = .panic :=
  rfl

/-- One path parameter `id` and the response body `id`, `name`: the names of
the result are pairwise distinct. -/
theorem generateDataSourceSchema_nodup_example :
    generateDataSourceSchema sampleBuilders
        (sampleDataSource [sampleParameter "id" "path" "string" true] noAliases)
      = .ok ⟨[stringAttribute "id" .Required, stringAttribute "name" .Computed]⟩ ∧
    (names [stringAttribute "id" .Required]).Nodup ∧
    (names [stringAttribute "id" .Required, stringAttribute "name" .Computed]).Nodup :=
  ⟨rfl, by decide, generateDataSourceSchema_nodup sampleBuilders
    (sampleDataSource [sampleParameter "id" "path" "string" true] noAliases)
    ⟨[stringAttribute "id" .Required, stringAttribute "name" .Computed]⟩
    [stringAttribute "id" .Required] rfl rfl (by decide)⟩

/-- C10, failing input: a path parameter `id` and a query parameter `id`, and
likewise two parameters `a` and `b` both aliased to `id`. Line 116 appends the
attribute of each mapped parameter without looking at the names already there,
and the merge only checks the response-body attributes against the parameter
attributes: `generateDataSourceSchema` succeeds with two entries named `id`. -/
theorem generateDataSourceSchema_duplicate_parameter_names :
    generateDataSourceSchema sampleBuilders
        (sampleDataSource
          [sampleParameter "id" "path" "string" true,
            sampleParameter "id" "query" "string" false] noAliases)
      = .ok ⟨[stringAttribute "id" .Required, stringAttribute "id" .ComputedOptional,
          stringAttribute "name" .Computed]⟩ ∧
    generateDataSourceSchema sampleBuilders
        (sampleDataSource
          [sampleParameter "a" "path" "string" true,
            sampleParameter "b" "query" "string" false] ⟨[("a", "id"), ("b", "id")], by decide⟩)
      = .ok ⟨[stringAttribute "id" .Required, stringAttribute "id" .ComputedOptional,
          stringAttribute "name" .Computed]⟩ ∧
    ¬ (names [stringAttribute "id" .Required, stringAttribute "id" .ComputedOptional,
          stringAttribute "name" .Computed]).Nodup :=
  ⟨rfl, rfl, by decide⟩

/-! ## The schema of a data source, part by part -/

section
variable {Proxy Rest Raw : Type}

theorem readParameterAttributesLoop_cons_unmapped (b : Builders Proxy Rest Raw)
    (aliases : GoMap String) (p : Parameter Proxy) (rest : List (Parameter Proxy))
    (acc : List Attribute) (h : isMapped p = false) :
    readParameterAttributesLoop b aliases (p :: rest) acc
      = readParameterAttributesLoop b aliases rest acc := by
  have h' : p.In ≠ OAS_param_path ∧ p.In ≠ OAS_param_query := by
    simpa [isMapped, not_or] using h
  rw [readParameterAttributesLoop, if_pos h']

theorem readParameterAttributesLoop_cons_mapped (b : Builders Proxy Rest Raw)
    (aliases : GoMap String) (p : Parameter Proxy) (rest : List (Parameter Proxy))
    (acc : List Attribute) (h : isMapped p = true) :
    readParameterAttributesLoop b aliases (p :: rest) acc
      = match b.BuildSchema p.Schema { OverrideDescription := p.Description } {} with
        | .error _ => .error ("failed to build param schema for '" ++ p.Name ++ "'")
        | .ok s =>
          match BuildDataSourceAttribute b s (parameterName aliases p)
              (parameterComputability p) with
          | .error _ => .panic
          | .ok a => readParameterAttributesLoop b aliases rest (acc ++ [a]) := by
  have h' : ¬ (p.In ≠ OAS_param_path ∧ p.In ≠ OAS_param_query) := by
    simp only [isMapped, decide_eq_true_eq] at h
    rintro ⟨h1, h2⟩
    rcases h with h | h
    · exact h1 h
    · exact h2 h
  rw [readParameterAttributesLoop, if_neg h']
  rfl

theorem readParameterAttributesLoop_filter (b : Builders Proxy Rest Raw)
    (aliases : GoMap String) : ∀ (params : List (Parameter Proxy)) (acc : List Attribute),
    readParameterAttributesLoop b aliases (params.filter isMapped) acc
      = readParameterAttributesLoop b aliases params acc := by
  intro params
  induction params with
  | nil => intro acc; rfl
  | cons p rest ih =>
    intro acc
    cases h : isMapped p with
    | false =>
      rw [List.filter_cons_of_neg (by simp [h]),
        readParameterAttributesLoop_cons_unmapped b aliases p rest acc h]
      exact ih acc
    | true =>
      rw [List.filter_cons_of_pos h, readParameterAttributesLoop_cons_mapped b aliases p _ acc h,
        readParameterAttributesLoop_cons_mapped b aliases p rest acc h]
      cases b.BuildSchema p.Schema { OverrideDescription := p.Description } {} with
      | error e => rfl
      | ok s =>
        simp only
        cases BuildDataSourceAttribute b s (parameterName aliases p)
            (parameterComputability p) with
        | error e => rfl
        | ok a => exact ih _

theorem readParameterAttributesLoop_ok (b : Builders Proxy Rest Raw) (aliases : GoMap String) :
    ∀ (params : List (Parameter Proxy)) (acc pa : List Attribute),
      readParameterAttributesLoop b aliases params acc = .ok pa →
      ∃ attrs, pa = acc ++ attrs ∧
        List.Forall₂ (builtForParameter b aliases) (params.filter isMapped) attrs := by
  intro params
  induction params with
  | nil =>
    intro acc pa h
    simp only [readParameterAttributesLoop] at h
    injection h with h
    exact ⟨[], by simp [h], List.Forall₂.nil⟩
  | cons p rest ih =>
    intro acc pa h
    cases hm : isMapped p with
    | false =>
      rw [readParameterAttributesLoop_cons_unmapped b aliases p rest acc hm] at h
      rw [List.filter_cons_of_neg (by simp [hm])]
      exact ih acc pa h
    | true =>
      rw [readParameterAttributesLoop_cons_mapped b aliases p rest acc hm] at h
      rw [List.filter_cons_of_pos hm]
      cases hs : b.BuildSchema p.Schema { OverrideDescription := p.Description } {} with
      | error e => rw [hs] at h; exact Outcome.noConfusion h
      | ok s =>
        rw [hs] at h
        simp only at h
        cases ha : BuildDataSourceAttribute b s (parameterName aliases p)
            (parameterComputability p) with
        | error e => rw [ha] at h; exact Outcome.noConfusion h
        | ok a =>
          rw [ha] at h
          obtain ⟨attrs, h1, h2⟩ := ih _ pa h
          exact ⟨a :: attrs, by simp [h1], List.Forall₂.cons ⟨s, hs, ha⟩ h2⟩

variable [Inhabited Proxy]

theorem generateDataSourceSchema_ok (b : Builders Proxy Rest Raw)
    (dataSource : explorer.DataSource Proxy Rest) (s : datasource.Schema)
    (h : generateDataSourceSchema b dataSource = .ok s) :
    ∃ rs ra pa,
      b.BuildSchemaFromResponse dataSource.ReadOp {}
        { OverrideComputability := some Computability.Computed } = .ok rs ∧
      BuildDataSourceAttributes b rs = .ok ra ∧
      readParameterAttributesLoop b dataSource.Aliases (readOpParameters dataSource) [] = .ok pa ∧
      s.Attributes = mergeDataSourceAttributes pa [ra] := by
  unfold generateDataSourceSchema at h
  cases hr : b.BuildSchemaFromResponse dataSource.ReadOp {}
      { OverrideComputability := some Computability.Computed } with
  | error e => rw [hr] at h; exact Outcome.noConfusion h
  | ok rs =>
    rw [hr] at h
    simp only at h
    cases ha : BuildDataSourceAttributes b rs with
    | error e => rw [ha] at h; exact Outcome.noConfusion h
    | ok ra =>
      rw [ha] at h
      simp only at h
      cases hp : readParameterAttributesLoop b dataSource.Aliases
          (readOpParameters dataSource) [] with
      | error e => rw [hp] at h; exact Outcome.noConfusion h
      | panic => rw [hp] at h; exact Outcome.noConfusion h
      | ok pa =>
        rw [hp] at h
        simp only at h
        injection h with h
        exact ⟨rs, ra, pa, rfl, ha, rfl, by rw [← h]⟩

end

/-! ### What the merge appends -/

theorem length_mergeInto_of_mem (combine : Attribute → Attribute) (c : Attribute)
    (main : List Attribute) (h : c.Name ∈ names main) :
    (mergeInto combine c main).length = main.length := by
  induction main with
  | nil => simp [names] at h
  | cons m ms ih =>
    unfold mergeInto
    by_cases hn : m.Name = c.Name
    · simp [hn]
    · have hc : c.Name ∈ names ms := by
        simp only [names, List.map_cons, List.mem_cons] at h
        rcases h with h | h
        · exact absurd h.symm hn
        · exact h
      simp [hn, ih hc]

theorem drop_mergeSlice (other : List Attribute) : ∀ main : List Attribute,
    (names other).Nodup →
    (mergeSlice main other).drop main.length
      = other.filter (fun a => decide (a.Name ∉ names main)) := by
  induction other with
  | nil => intro main _; simp [mergeSlice]
  | cons c cs ih =>
    intro main hnd
    simp only [names, List.map_cons, List.nodup_cons] at hnd
    rw [mergeSlice]
    by_cases hc : c.Name ∈ names main
    · have hl := length_mergeInto_of_mem (mergeNested c) c main hc
      have hn : names (mergeInto (mergeNested c) c main) = names main := by
        rw [names_mergeInto _ (mergeNested_Name c), addName, if_pos hc]
      have h1 := ih (mergeInto (mergeNested c) c main) hnd.2
      rw [hl, hn] at h1
      rw [h1, List.filter_cons_of_neg (by simpa using hc)]
    · rw [mergeInto_of_not_mem _ c main hc]
      have h1 := ih (main ++ [c]) hnd.2
      have h2 : (mergeSlice (main ++ [c]) cs)[main.length]? = some c := by
        refine mergeSlice_getElem? c cs (main ++ [c]) main.length
          (List.getElem?_concat_length main c) ?_
        intro c' hc' hn
        exact absurd (hn ▸ List.mem_map_of_mem Attribute.Name hc') hnd.1
      obtain ⟨hlt, hget⟩ := List.getElem?_eq_some.1 h2
      rw [List.drop_eq_getElem_cons hlt, hget, List.filter_cons_of_pos (by simpa using hc)]
      simp only [List.length_append, List.length_singleton] at h1
      rw [h1]
      congr 1
      refine List.filter_congr ?_
      intro x hx
      have hxc : x.Name ≠ c.Name := fun e =>
        hnd.1 (e ▸ List.mem_map_of_mem Attribute.Name hx)
      simp [names, hxc]

theorem take_shell_mergeDataSourceAttributes (main : List Attribute)
    (others : List (List Attribute)) :
    ((mergeDataSourceAttributes main others).take main.length).map Attribute.shell
      = main.map Attribute.shell := by
  obtain ⟨ext, he⟩ := shell_mergeDataSourceAttributes others main
  rw [List.map_take, he, List.take_left' (by simp)]

/-! ### The loop of `BuildDataSourceAttributes` -/

section
variable {Proxy Rest Raw : Type} [Inhabited Proxy]

theorem buildDataSourceAttributesLoop_ok (b : Builders Proxy Rest Raw)
    (s : OASSchema Proxy Raw) : ∀ (propertyNames : List String) (acc attrs : List Attribute),
    buildDataSourceAttributesLoop b s propertyNames acc = .ok attrs →
    ∃ new, attrs = acc ++ new ∧ List.Forall₂ (builtForProperty b s) propertyNames new := by
  intro propertyNames
  induction propertyNames with
  | nil =>
    intro acc attrs h
    simp only [buildDataSourceAttributesLoop] at h
    injection h with h
    exact ⟨[], by simp [h], List.Forall₂.nil⟩
  | cons name rest ih =>
    intro acc attrs h
    rw [buildDataSourceAttributesLoop] at h
    cases hs : b.BuildSchema (s.Properties.get name) {} {} with
    | error e => rw [hs] at h; exact Except.noConfusion h
    | ok pSchema =>
      rw [hs] at h
      simp only at h
      cases ha : BuildDataSourceAttribute b pSchema name (b.GetBehavior s name) with
      | error e => rw [ha] at h; exact Except.noConfusion h
      | ok a =>
        rw [ha] at h
        obtain ⟨new, h1, h2⟩ := ih _ attrs h
        exact ⟨a :: new, by simp [h1], List.Forall₂.cons ⟨pSchema, hs, ha⟩ h2⟩

theorem buildDataSourceAttributesLoop_error (b : Builders Proxy Rest Raw)
    (s : OASSchema Proxy Raw) : ∀ (propertyNames : List String) (acc : List Attribute)
    (e : String), buildDataSourceAttributesLoop b s propertyNames acc = .error e →
    ∃ name ∈ propertyNames,
      b.BuildSchema (s.Properties.get name) {} {} = .error e ∨
      ∃ pSchema err, b.BuildSchema (s.Properties.get name) {} {} = .ok pSchema ∧
        BuildDataSourceAttribute b pSchema name (b.GetBehavior s name) = .error err ∧
        e = "failed to create object property '" ++ name ++ "' schema - " ++ err := by
  intro propertyNames
  induction propertyNames with
  | nil =>
    intro acc e h
    simp only [buildDataSourceAttributesLoop] at h
    exact Except.noConfusion h
  | cons name rest ih =>
    intro acc e h
    rw [buildDataSourceAttributesLoop] at h
    cases hs : b.BuildSchema (s.Properties.get name) {} {} with
    | error e0 =>
      rw [hs] at h
      injection h with h
      exact ⟨name, List.mem_cons_self _ _, Or.inl (h ▸ hs)⟩
    | ok pSchema =>
      rw [hs] at h
      simp only at h
      cases ha : BuildDataSourceAttribute b pSchema name (b.GetBehavior s name) with
      | error err =>
        rw [ha] at h
        injection h with h
        exact ⟨name, List.mem_cons_self _ _, Or.inr ⟨pSchema, err, hs, ha, h.symm⟩⟩
      | ok a =>
        rw [ha] at h
        obtain ⟨n, hn, h1⟩ := ih _ e h
        exact ⟨n, List.mem_cons_of_mem _ hn, h1⟩

theorem names_of_forall₂_builtForProperty (b : Builders Proxy Rest Raw) (hst : b.stamps)
    (s : OASSchema Proxy Raw) (propertyNames : List String) (attrs : List Attribute)
    (h : List.Forall₂ (builtForProperty b s) propertyNames attrs) :
    names attrs = propertyNames := by
  induction h with
  | nil => rfl
  | cons h1 _ ih =>
    obtain ⟨pSchema, _, ha⟩ := h1
    simp only [names, List.map_cons] at ih ⊢
    rw [ih, (hst _ _ _ _ ha).1]

end

/-! ## Claims on `generateDataSourceSchema` -/

theorem map_computability_of_builtForParameter {Proxy Rest Raw : Type}
    (b : Builders Proxy Rest Raw) (hst : b.stamps) (aliases : GoMap String)
    (params : List (Parameter Proxy)) (attrs : List Attribute)
    (h : List.Forall₂ (builtForParameter b aliases) params attrs) :
    attrs.map Attribute.computability = params.map parameterComputability := by
  induction h with
  | nil => rfl
  | cons h1 _ ih =>
    obtain ⟨sch, _, h4⟩ := h1
    simp only [List.map_cons, ih, (hst _ _ _ _ h4).2]

theorem map_Name_of_builtForParameter {Proxy Rest Raw : Type}
    (b : Builders Proxy Rest Raw) (hst : b.stamps) (aliases : GoMap String)
    (params : List (Parameter Proxy)) (attrs : List Attribute)
    (h : List.Forall₂ (builtForParameter b aliases) params attrs) :
    attrs.map Attribute.Name = params.map (parameterName aliases) := by
  induction h with
  | nil => rfl
  | cons h1 _ ih =>
    obtain ⟨sch, _, h4⟩ := h1
    simp only [List.map_cons, ih, (hst _ _ _ _ h4).1]

theorem sampleBuilders_stamps : sampleBuilders.stamps := by
  intro s name k a h
  unfold BuildDataSourceAttribute at h
  split_ifs at h
  all_goals first
    | exact Except.noConfusion h
    | (simp only [sampleBuilders, Except.ok.injEq] at h; subst h; exact ⟨rfl, rfl⟩)

section
variable {Proxy Rest Raw : Type} [Inhabited Proxy]

/-- C11: parameters take precedence. When `generateDataSourceSchema` succeeds, its
attributes are `mergeDataSourceAttributes pa [ra]`, where `pa` holds the
attributes built for the path and query parameters in declaration order and
`ra` the attributes built for the properties of the response body in sorted
order of the property names. The first entries of the result are those of `pa`,
with their names and computability; the entries after them are the entries of
`ra` with other names, in the order of `ra`, when the names of `ra` are
distinct, which they are (strictly ascending) when the sub-builders name their
attributes as asked. -/
theorem generateDataSourceSchema_parameters_first (b : Builders Proxy Rest Raw)
    (dataSource : explorer.DataSource Proxy Rest) (s : datasource.Schema)
    (h : generateDataSourceSchema b dataSource = .ok s) :
    ∃ rs ra pa,
      b.BuildSchemaFromResponse dataSource.ReadOp {}
        { OverrideComputability := some Computability.Computed } = .ok rs ∧
      List.Forall₂ (builtForProperty b rs) (SortedKeys rs.Properties) ra ∧
      List.Forall₂ (builtForParameter b dataSource.Aliases)
        ((readOpParameters dataSource).filter isMapped) pa ∧
      s.Attributes = mergeDataSourceAttributes pa [ra] ∧
      (s.Attributes.take pa.length).map Attribute.shell = pa.map Attribute.shell ∧
      ((names ra).Nodup →
        s.Attributes.drop pa.length = ra.filter (fun a => decide (a.Name ∉ names pa))) ∧
      (b.stamps → (names ra).Sorted (fun x y : String => x < y)) := by
  obtain ⟨rs, ra, pa, hr, ha, hp, hs⟩ := generateDataSourceSchema_ok b dataSource s h
  obtain ⟨attrs, h1, h2⟩ := readParameterAttributesLoop_ok b _ _ _ _ hp
  obtain ⟨new, h3, h4⟩ := buildDataSourceAttributesLoop_ok b rs _ _ _ ha
  rw [List.nil_append] at h1 h3
  subst h1 h3
  refine ⟨rs, ra, pa, hr, h4, h2, hs, ?_, ?_, ?_⟩
  · rw [hs]; exact take_shell_mergeDataSourceAttributes pa [ra]
  · intro hnd
    rw [hs]
    simpa [mergeDataSourceAttributes] using drop_mergeSlice ra pa hnd
  · intro hst
    rw [names_of_forall₂_builtForProperty b hst rs _ _ h4]
    exact sortedKeys_sorted rs.Properties

/-- C12: only path and query parameters are mapped. When the schema resolver does
not read the parameter list, `generateDataSourceSchema` gives the same outcome
(the same attributes or the same failure) for a data source and for that data
source without its parameters located elsewhere, whatever their schemas. -/
theorem generateDataSourceSchema_withoutUnmappedParameters (b : Builders Proxy Rest Raw)
    (hb : b.resolverIgnoresParameters) (dataSource : explorer.DataSource Proxy Rest) :
    generateDataSourceSchema b (withoutUnmappedParameters dataSource)
      = generateDataSourceSchema b dataSource := by
  obtain ⟨readOp, aliases⟩ := dataSource
  cases readOp with
  | none => rfl
  | some op =>
    simp only [generateDataSourceSchema, withoutUnmappedParameters, readOpParameters,
      hb op (op.Parameters.filter isMapped), readParameterAttributesLoop_filter]

/-- C13: when `generateDataSourceSchema` succeeds, the attribute of every path or
query parameter is built by `BuildDataSourceAttribute` with computability
Required when the parameter is required and ComputedOptional when it is not;
and when the sub-builders classify their attributes as asked, these are the
computabilities of the first entries of the returned list. -/
theorem generateDataSourceSchema_parameter_computability (b : Builders Proxy Rest Raw)
    (dataSource : explorer.DataSource Proxy Rest) (s : datasource.Schema)
    (h : generateDataSourceSchema b dataSource = .ok s) :
    ∃ pa ra, s.Attributes = mergeDataSourceAttributes pa [ra] ∧
      List.Forall₂
        (fun param a => ∃ sch name,
          b.BuildSchema param.Schema { OverrideDescription := param.Description } {} = .ok sch ∧
          ((param.Required = true ∧
              BuildDataSourceAttribute b sch name Computability.Required = .ok a) ∨
            (param.Required = false ∧
              BuildDataSourceAttribute b sch name Computability.ComputedOptional = .ok a)))
        ((readOpParameters dataSource).filter isMapped) pa ∧
      (b.stamps →
        (s.Attributes.take pa.length).map Attribute.computability
          = ((readOpParameters dataSource).filter isMapped).map
              (fun param => if param.Required then Computability.Required
                else Computability.ComputedOptional)) := by
  obtain ⟨rs, ra, pa, -, -, hp, hs⟩ := generateDataSourceSchema_ok b dataSource s h
  obtain ⟨attrs, h1, h2⟩ := readParameterAttributesLoop_ok b _ _ _ _ hp
  rw [List.nil_append] at h1
  subst h1
  refine ⟨pa, ra, hs, ?_, ?_⟩
  · refine h2.imp ?_
    rintro param a ⟨sch, h3, h4⟩
    refine ⟨sch, parameterName dataSource.Aliases param, h3, ?_⟩
    cases hreq : param.Required with
    | true => exact Or.inl ⟨rfl, by simpa [parameterComputability, hreq] using h4⟩
    | false => exact Or.inr ⟨rfl, by simpa [parameterComputability, hreq] using h4⟩
  · intro hst
    have ht := take_shell_mergeDataSourceAttributes pa [ra]
    rw [← hs] at ht
    have hc : (s.Attributes.take pa.length).map Attribute.computability
        = pa.map Attribute.computability := by
      have := congrArg (List.map (fun x : String × Kind × Computability × Option String × Bool =>
        x.2.2.1)) ht
      simpa [Attribute.shell, Function.comp_def] using this
    rw [hc, map_computability_of_builtForParameter b hst _ _ _ h2]
    rfl

/-- C14: when `generateDataSourceSchema` succeeds, the attribute of every path or
query parameter is built by `BuildDataSourceAttribute` under the alias of the
parameter name when the alias map has an entry for it, and under the parameter
name otherwise; and when the sub-builders name their attributes as asked, these
are the names of the first entries of the returned list. -/
theorem generateDataSourceSchema_parameter_name (b : Builders Proxy Rest Raw)
    (dataSource : explorer.DataSource Proxy Rest) (s : datasource.Schema)
    (h : generateDataSourceSchema b dataSource = .ok s) :
    ∃ pa ra, s.Attributes = mergeDataSourceAttributes pa [ra] ∧
      List.Forall₂
        (fun param a => ∃ sch k,
          b.BuildSchema param.Schema { OverrideDescription := param.Description } {} = .ok sch ∧
          ((∃ matchedName, dataSource.Aliases.get? param.Name = some matchedName ∧
              BuildDataSourceAttribute b sch matchedName k = .ok a) ∨
            (dataSource.Aliases.get? param.Name = none ∧
              BuildDataSourceAttribute b sch param.Name k = .ok a)))
        ((readOpParameters dataSource).filter isMapped) pa ∧
      (b.stamps →
        (s.Attributes.take pa.length).map Attribute.Name
          = ((readOpParameters dataSource).filter isMapped).map
              (fun param => (dataSource.Aliases.get? param.Name).getD param.Name)) := by
  obtain ⟨rs, ra, pa, -, -, hp, hs⟩ := generateDataSourceSchema_ok b dataSource s h
  obtain ⟨attrs, h1, h2⟩ := readParameterAttributesLoop_ok b _ _ _ _ hp
  rw [List.nil_append] at h1
  subst h1
  refine ⟨pa, ra, hs, ?_, ?_⟩
  · refine h2.imp ?_
    rintro param a ⟨sch, h3, h4⟩
    refine ⟨sch, parameterComputability param, h3, ?_⟩
    cases hal : dataSource.Aliases.get? param.Name with
    | some m => exact Or.inl ⟨m, rfl, by simpa [parameterName, hal] using h4⟩
    | none => exact Or.inr ⟨rfl, by simpa [parameterName, hal] using h4⟩
  · intro hst
    have ht := take_shell_mergeDataSourceAttributes pa [ra]
    rw [← hs] at ht
    have hc : (s.Attributes.take pa.length).map Attribute.Name = pa.map Attribute.Name := by
      have := congrArg (List.map (fun x : String × Kind × Computability × Option String × Bool =>
        x.1)) ht
      simpa [Attribute.shell, Function.comp_def] using this
    rw [hc, map_Name_of_builtForParameter b hst _ _ _ h2]
    refine List.map_congr_left ?_
    intro param _
    simp only [parameterName]
    cases dataSource.Aliases.get? param.Name <;> rfl

/-- C15: the response body is required. When the response schema of the read
operation cannot be resolved, or the attributes of the response body cannot be
built, `generateDataSourceSchema` returns that error and no schema. -/
theorem generateDataSourceSchema_response_required (b : Builders Proxy Rest Raw)
    (dataSource : explorer.DataSource Proxy Rest) :
    (∀ e, b.BuildSchemaFromResponse dataSource.ReadOp {}
        { OverrideComputability := some Computability.Computed } = .error e →
      generateDataSourceSchema b dataSource = .error e) ∧
    (∀ rs e, b.BuildSchemaFromResponse dataSource.ReadOp {}
        { OverrideComputability := some Computability.Computed } = .ok rs →
      BuildDataSourceAttributes b rs = .error e →
      generateDataSourceSchema b dataSource = .error e) := by
  constructor
  · intro e he
    unfold generateDataSourceSchema
    rw [he]
  · intro rs e hr he
    unfold generateDataSourceSchema
    rw [hr]
    simp only
    rw [he]

end

/-- C11, witness: the required path parameter `id` and the response body `id`,
`name`: the parameter comes first and stays Required, `name` follows. -/
theorem generateDataSourceSchema_parameters_first_witness :
    generateDataSourceSchema sampleBuilders
        (sampleDataSource [sampleParameter "id" "path" "string" true] noAliases)
      = .ok ⟨[stringAttribute "id" .Required, stringAttribute "name" .Computed]⟩ ∧
    ∃ rs ra pa,
      sampleBuilders.BuildSchemaFromResponse
        (sampleDataSource [sampleParameter "id" "path" "string" true] noAliases).ReadOp {}
        { OverrideComputability := some Computability.Computed } = .ok rs ∧
      List.Forall₂ (builtForProperty sampleBuilders rs) (SortedKeys rs.Properties) ra ∧
      List.Forall₂ (builtForParameter sampleBuilders noAliases)
        ((readOpParameters
          (sampleDataSource [sampleParameter "id" "path" "string" true] noAliases)).filter
            isMapped) pa ∧
      [stringAttribute "id" .Required, stringAttribute "name" .Computed]
        = mergeDataSourceAttributes pa [ra] ∧
      (([stringAttribute "id" .Required, stringAttribute "name" .Computed]).take pa.length).map
        Attribute.shell = pa.map Attribute.shell ∧
      ((names ra).Nodup →
        ([stringAttribute "id" .Required, stringAttribute "name" .Computed]).drop pa.length
          = ra.filter (fun a => decide (a.Name ∉ names pa))) ∧
      (sampleBuilders.stamps → (names ra).Sorted (fun x y : String => x < y)) :=
  ⟨rfl, generateDataSourceSchema_parameters_first sampleBuilders
    (sampleDataSource [sampleParameter "id" "path" "string" true] noAliases)
    ⟨[stringAttribute "id" .Required, stringAttribute "name" .Computed]⟩ rfl⟩

/-- C12, witness: a header parameter `trace` whose schema cannot be resolved
changes nothing. -/
theorem generateDataSourceSchema_withoutUnmappedParameters_witness :
    sampleBuilders.resolverIgnoresParameters ∧
    sampleBuilders.BuildSchema "" { OverrideDescription := "" } {} = .error "no type" ∧
    generateDataSourceSchema sampleBuilders
        (sampleDataSource
          [sampleParameter "trace" "header" "" true,
            sampleParameter "id" "path" "string" true] noAliases)
      = .ok ⟨[stringAttribute "id" .Required, stringAttribute "name" .Computed]⟩ ∧
    generateDataSourceSchema sampleBuilders
        (withoutUnmappedParameters (sampleDataSource
          [sampleParameter "trace" "header" "" true,
            sampleParameter "id" "path" "string" true] noAliases))
      = generateDataSourceSchema sampleBuilders
        (sampleDataSource
          [sampleParameter "trace" "header" "" true,
            sampleParameter "id" "path" "string" true] noAliases) :=
  ⟨fun _ _ _ _ => rfl, rfl, rfl,
    generateDataSourceSchema_withoutUnmappedParameters sampleBuilders (fun _ _ _ _ => rfl)
      (sampleDataSource
        [sampleParameter "trace" "header" "" true,
          sampleParameter "id" "path" "string" true] noAliases)⟩

/-- C13, witness: a required path parameter `id` and an optional query parameter
`q` give a Required and a ComputedOptional attribute. -/
theorem generateDataSourceSchema_parameter_computability_witness :
    generateDataSourceSchema sampleBuilders
        (sampleDataSource
          [sampleParameter "id" "path" "string" true,
            sampleParameter "q" "query" "string" false] noAliases)
      = .ok ⟨[stringAttribute "id" .Required, stringAttribute "q" .ComputedOptional,
          stringAttribute "name" .Computed]⟩ ∧
    (([stringAttribute "id" .Required, stringAttribute "q" .ComputedOptional,
        stringAttribute "name" .Computed]).take 2).map Attribute.computability
      = [Computability.Required, Computability.ComputedOptional] := by
  refine ⟨rfl, ?_⟩
  obtain ⟨pa, ra, -, h2, h3⟩ := generateDataSourceSchema_parameter_computability sampleBuilders
    (sampleDataSource
      [sampleParameter "id" "path" "string" true,
        sampleParameter "q" "query" "string" false] noAliases)
    ⟨[stringAttribute "id" .Required, stringAttribute "q" .ComputedOptional,
      stringAttribute "name" .Computed]⟩ rfl
  have hl : pa.length = 2 := h2.length_eq.symm
  rw [hl] at h3
  exact h3 sampleBuilders_stamps

/-- C14, witness: the path parameter `id` is aliased to `identifier`, the query
parameter `q` has no alias. -/
theorem generateDataSourceSchema_parameter_name_witness :
    generateDataSourceSchema sampleBuilders
        (sampleDataSource
          [sampleParameter "id" "path" "string" true,
            sampleParameter "q" "query" "string" false]
          ⟨[("id", "identifier")], by decide⟩)
      = .ok ⟨[stringAttribute "identifier" .Required, stringAttribute "q" .ComputedOptional,
          stringAttribute "id" .Computed, stringAttribute "name" .Computed]⟩ ∧
    (([stringAttribute "identifier" .Required, stringAttribute "q" .ComputedOptional,
        stringAttribute "id" .Computed, stringAttribute "name" .Computed]).take 2).map
        Attribute.Name
      = ["identifier", "q"] := by
  refine ⟨rfl, ?_⟩
  obtain ⟨pa, ra, -, h2, h3⟩ := generateDataSourceSchema_parameter_name sampleBuilders
    (sampleDataSource
      [sampleParameter "id" "path" "string" true,
        sampleParameter "q" "query" "string" false]
      ⟨[("id", "identifier")], by decide⟩)
    ⟨[stringAttribute "identifier" .Required, stringAttribute "q" .ComputedOptional,
      stringAttribute "id" .Computed, stringAttribute "name" .Computed]⟩ rfl
  have hl : pa.length = 2 := h2.length_eq.symm
  rw [hl] at h3
  exact h3 sampleBuilders_stamps

/-- C15, witness: an operation without response schema, and a response body
whose property `x` has the unknown type tag `foo`. -/
theorem generateDataSourceSchema_response_required_witness :
    (sampleBuilders.BuildSchemaFromResponse (some ⟨[], none⟩) {}
        { OverrideComputability := some Computability.Computed } = .error "schema not found" ∧
      generateDataSourceSchema sampleBuilders ⟨some ⟨[], none⟩, noAliases⟩
        = .error "schema not found") ∧
    (BuildDataSourceAttributes sampleBuilders
        ⟨OAS_type_object, ⟨[("x", "foo")], by decide⟩, ""⟩
        = .error "failed to create object property 'x' schema - invalid schema type 'foo'" ∧
      generateDataSourceSchema sampleBuilders
        ⟨some ⟨[sampleParameter "id" "path" "string" true],
          some ⟨[("x", "foo")], by decide⟩⟩, noAliases⟩
        = .error "failed to create object property 'x' schema - invalid schema type 'foo'") :=
  ⟨⟨rfl, (generateDataSourceSchema_response_required sampleBuilders
      ⟨some ⟨[], none⟩, noAliases⟩).1 _ rfl⟩,
    ⟨rfl, (generateDataSourceSchema_response_required sampleBuilders
      ⟨some ⟨[sampleParameter "id" "path" "string" true],
        some ⟨[("x", "foo")], by decide⟩⟩, noAliases⟩).2 _ _ rfl rfl⟩⟩

/-! ## Claims on the attribute builder -/

section
variable {Proxy Rest Raw : Type}

/-- C16: type dispatch. For a type tag that is none of the six, both
`BuildResourceAttribute` and `BuildDataSourceAttribute` return no attribute and
the error `invalid schema type '<tag>'`; for each of the six tags they return
the result of the sub-builder of that kind. -/
theorem buildAttribute_dispatch (b : Builders Proxy Rest Raw) (r : ResourceBuilders Proxy Raw)
    (s : OASSchema Proxy Raw) (name : String) (k : Computability) :
    (s.Type_ ∉ [OAS_type_string, OAS_type_integer, OAS_type_number, OAS_type_boolean,
        OAS_type_array, OAS_type_object] →
      BuildResourceAttribute r s name k = .error ("invalid schema type '" ++ s.Type_ ++ "'") ∧
      BuildDataSourceAttribute b s name k
        = .error ("invalid schema type '" ++ s.Type_ ++ "'")) ∧
    (s.Type_ = OAS_type_string →
      BuildResourceAttribute r s name k = r.BuildStringResource s name k ∧
      BuildDataSourceAttribute b s name k = b.BuildStringDataSource s name k) ∧
    (s.Type_ = OAS_type_integer →
      BuildResourceAttribute r s name k = r.BuildIntegerResource s name k ∧
      BuildDataSourceAttribute b s name k = b.BuildIntegerDataSource s name k) ∧
    (s.Type_ = OAS_type_number →
      BuildResourceAttribute r s name k = r.BuildNumberResource s name k ∧
      BuildDataSourceAttribute b s name k = b.BuildNumberDataSource s name k) ∧
    (s.Type_ = OAS_type_boolean →
      BuildResourceAttribute r s name k = r.BuildBoolResource s name k ∧
      BuildDataSourceAttribute b s name k = b.BuildBoolDataSource s name k) ∧
    (s.Type_ = OAS_type_array →
      BuildResourceAttribute r s name k = r.BuildListResource s name k ∧
      BuildDataSourceAttribute b s name k = b.BuildListDataSource s name k) ∧
    (s.Type_ = OAS_type_object →
      BuildResourceAttribute r s name k = r.BuildSingleNestedResource s name k ∧
      BuildDataSourceAttribute b s name k = b.BuildSingleNestedDataSource s name k) := by
  refine ⟨?_, ?_, ?_, ?_, ?_, ?_, ?_⟩
  · intro h
    simp only [List.mem_cons, List.mem_singleton, List.not_mem_nil, or_false, not_or] at h
    obtain ⟨h1, h2, h3, h4, h5, h6⟩ := h
    simp [BuildResourceAttribute, BuildDataSourceAttribute, h1, h2, h3, h4, h5, h6]
  all_goals
    intro h
    simp [BuildResourceAttribute, BuildDataSourceAttribute, h, OAS_type_string,
      OAS_type_integer, OAS_type_number, OAS_type_boolean, OAS_type_array, OAS_type_object]

end

/-- C16, witness: the tag `foo` is rejected by both builders, and the tag
`boolean` goes to the Bool sub-builders. -/
theorem buildAttribute_dispatch_witness :
    (BuildResourceAttribute sampleResourceBuilders ⟨"foo", ⟨[], List.nodup_nil⟩, ""⟩ "x"
        .Required = .error "invalid schema type 'foo'" ∧
      BuildDataSourceAttribute sampleBuilders ⟨"foo", ⟨[], List.nodup_nil⟩, ""⟩ "x"
        .Required = .error "invalid schema type 'foo'") ∧
    (BuildResourceAttribute sampleResourceBuilders ⟨"boolean", ⟨[], List.nodup_nil⟩, ""⟩ "x"
        .Required = .ok (.mk "x" .Required none false .Boolean) ∧
      BuildDataSourceAttribute sampleBuilders ⟨"boolean", ⟨[], List.nodup_nil⟩, ""⟩ "x"
        .Required = .ok (.mk "x" .Required none false .Boolean)) :=
  ⟨(buildAttribute_dispatch sampleBuilders sampleResourceBuilders
      ⟨"foo", ⟨[], List.nodup_nil⟩, ""⟩ "x" .Required).1 (by decide),
    (buildAttribute_dispatch sampleBuilders sampleResourceBuilders
      ⟨"boolean", ⟨[], List.nodup_nil⟩, ""⟩ "x" .Required).2.2.2.2.1 rfl⟩

theorem facts_of_names_eq_sortedKeys {Proxy : Type} (props : GoMap Proxy) (attrs : List Attribute)
    (h : names attrs = SortedKeys props) :
    attrs.length = props.entries.length ∧ (names attrs).Perm props.keys ∧
    (names attrs).Sorted (fun x y : String => x < y) ∧
    ∀ props' : GoMap Proxy, props'.entries.Perm props.entries →
      names attrs = SortedKeys props' := by
  refine ⟨?_, ?_, ?_, ?_⟩
  · have h1 := congrArg List.length h
    have h2 := (sortedKeys_perm props).length_eq
    simp only [names, List.length_map, GoMap.keys] at h1 h2
    omega
  · rw [h]; exact sortedKeys_perm props
  · rw [h]; exact sortedKeys_sorted props
  · intro props' hp
    rw [h, sortedKeys_congr props props' hp]

section
variable {Proxy Rest Raw : Type} [Inhabited Proxy]

theorem buildResourceAttributesLoop_ok (b : Builders Proxy Rest Raw)
    (r : ResourceBuilders Proxy Raw) (s : OASSchema Proxy Raw) :
    ∀ (propertyNames : List String) (acc attrs : List resource.Attribute),
    buildResourceAttributesLoop b r s propertyNames acc = .ok attrs →
    ∃ new, attrs = acc ++ new ∧
      List.Forall₂ (builtForResourceProperty b r s) propertyNames new := by
  intro propertyNames
  induction propertyNames with
  | nil =>
    intro acc attrs h
    simp only [buildResourceAttributesLoop] at h
    injection h with h
    exact ⟨[], by simp [h], List.Forall₂.nil⟩
  | cons name rest ih =>
    intro acc attrs h
    rw [buildResourceAttributesLoop] at h
    cases hs : b.BuildSchema (s.Properties.get name) {} {} with
    | error e => rw [hs] at h; exact Except.noConfusion h
    | ok pSchema =>
      rw [hs] at h
      simp only at h
      cases ha : BuildResourceAttribute r pSchema name (b.GetBehavior s name) with
      | error e => rw [ha] at h; exact Except.noConfusion h
      | ok a =>
        rw [ha] at h
        obtain ⟨new, h1, h2⟩ := ih _ attrs h
        exact ⟨a :: new, by simp [h1], List.Forall₂.cons ⟨pSchema, hs, ha⟩ h2⟩

theorem buildResourceAttributesLoop_error (b : Builders Proxy Rest Raw)
    (r : ResourceBuilders Proxy Raw) (s : OASSchema Proxy Raw) :
    ∀ (propertyNames : List String) (acc : List resource.Attribute) (e : String),
    buildResourceAttributesLoop b r s propertyNames acc = .error e →
    ∃ name ∈ propertyNames,
      b.BuildSchema (s.Properties.get name) {} {} = .error e ∨
      ∃ pSchema err, b.BuildSchema (s.Properties.get name) {} {} = .ok pSchema ∧
        BuildResourceAttribute r pSchema name (b.GetBehavior s name) = .error err ∧
        e = "failed to create object property '" ++ name ++ "' schema - " ++ err := by
  intro propertyNames
  induction propertyNames with
  | nil =>
    intro acc e h
    simp only [buildResourceAttributesLoop] at h
    exact Except.noConfusion h
  | cons name rest ih =>
    intro acc e h
    rw [buildResourceAttributesLoop] at h
    cases hs : b.BuildSchema (s.Properties.get name) {} {} with
    | error e0 =>
      rw [hs] at h
      injection h with h
      exact ⟨name, List.mem_cons_self _ _, Or.inl (h ▸ hs)⟩
    | ok pSchema =>
      rw [hs] at h
      simp only at h
      cases ha : BuildResourceAttribute r pSchema name (b.GetBehavior s name) with
      | error err =>
        rw [ha] at h
        injection h with h
        exact ⟨name, List.mem_cons_self _ _, Or.inr ⟨pSchema, err, hs, ha, h.symm⟩⟩
      | ok a =>
        rw [ha] at h
        obtain ⟨n, hn, h1⟩ := ih _ e h
        exact ⟨n, List.mem_cons_of_mem _ hn, h1⟩

theorem names_of_forall₂_builtForResourceProperty (b : Builders Proxy Rest Raw)
    (r : ResourceBuilders Proxy Raw) (hst : r.stamps) (s : OASSchema Proxy Raw)
    (propertyNames : List String) (attrs : List resource.Attribute)
    (h : List.Forall₂ (builtForResourceProperty b r s) propertyNames attrs) :
    names attrs = propertyNames := by
  induction h with
  | nil => rfl
  | cons h1 _ ih =>
    obtain ⟨pSchema, _, ha⟩ := h1
    simp only [names, List.map_cons] at ih ⊢
    rw [ih, (hst _ _ _ _ ha).1]

/-- C17: when `BuildResourceAttributes` (respectively
`BuildDataSourceAttributes`) succeeds, and the sub-builders name their
attributes as asked, the returned list has one attribute per property of the
schema, its names are the property names, in strictly ascending order, and
they are the sorted keys of the property map in any iteration order. -/
theorem buildAttributes_names (b : Builders Proxy Rest Raw) (r : ResourceBuilders Proxy Raw)
    (hb : b.stamps) (hr : r.stamps) (s : OASSchema Proxy Raw) :
    (∀ attrs, BuildResourceAttributes b r s = .ok attrs →
      attrs.length = s.Properties.entries.length ∧ (names attrs).Perm s.Properties.keys ∧
      (names attrs).Sorted (fun x y : String => x < y) ∧
      ∀ props' : GoMap Proxy, props'.entries.Perm s.Properties.entries →
        names attrs = SortedKeys props') ∧
    (∀ attrs, BuildDataSourceAttributes b s = .ok attrs →
      attrs.length = s.Properties.entries.length ∧ (names attrs).Perm s.Properties.keys ∧
      (names attrs).Sorted (fun x y : String => x < y) ∧
      ∀ props' : GoMap Proxy, props'.entries.Perm s.Properties.entries →
        names attrs = SortedKeys props') := by
  constructor
  · intro attrs h
    obtain ⟨new, h1, h2⟩ := buildResourceAttributesLoop_ok b r s _ _ _ h
    rw [List.nil_append] at h1
    subst h1
    exact facts_of_names_eq_sortedKeys s.Properties attrs
      (names_of_forall₂_builtForResourceProperty b r hr s _ _ h2)
  · intro attrs h
    obtain ⟨new, h1, h2⟩ := buildDataSourceAttributesLoop_ok b s _ _ _ h
    rw [List.nil_append] at h1
    subst h1
    exact facts_of_names_eq_sortedKeys s.Properties attrs
      (names_of_forall₂_builtForProperty b hb s _ _ h2)

end

theorem sampleResourceBuilders_stamps : sampleResourceBuilders.stamps := by
  intro s name k a h
  unfold BuildResourceAttribute at h
  split_ifs at h
  all_goals first
    | exact Except.noConfusion h
    | (simp only [sampleResourceBuilders, Except.ok.injEq] at h; subst h; exact ⟨rfl, rfl⟩)

/-- C17, witness: the property map lists `name` before `id`; both builders return
`id` before `name`. -/
theorem buildAttributes_names_witness :
    sampleBuilders.stamps ∧ sampleResourceBuilders.stamps ∧
    BuildResourceAttributes sampleBuilders sampleResourceBuilders
        ⟨OAS_type_object, ⟨[("name", "string"), ("id", "integer")], by decide⟩, ""⟩
      = .ok [.mk "id" .Computed none false .Integer, stringAttribute "name" .Computed] ∧
    BuildDataSourceAttributes sampleBuilders
        ⟨OAS_type_object, ⟨[("name", "string"), ("id", "integer")], by decide⟩, ""⟩
      = .ok [.mk "id" .Computed none false .Integer, stringAttribute "name" .Computed] ∧
    (names [.mk "id" .Computed none false .Integer, stringAttribute "name" .Computed]).Sorted
      (fun x y : String => x < y) ∧
    (names [.mk "id" .Computed none false .Integer, stringAttribute "name" .Computed]).Perm
      ["name", "id"] :=
  ⟨sampleBuilders_stamps, sampleResourceBuilders_stamps, rfl, rfl,
    ((buildAttributes_names sampleBuilders sampleResourceBuilders sampleBuilders_stamps
      sampleResourceBuilders_stamps
      ⟨OAS_type_object, ⟨[("name", "string"), ("id", "integer")], by decide⟩, ""⟩).1 _
      rfl).2.2.1,
    ((buildAttributes_names sampleBuilders sampleResourceBuilders sampleBuilders_stamps
      sampleResourceBuilders_stamps
      ⟨OAS_type_object, ⟨[("name", "string"), ("id", "integer")], by decide⟩, ""⟩).2 _
      rfl).2.1⟩

section
variable {Proxy Rest Raw : Type}

theorem readParameterAttributesLoop_error (b : Builders Proxy Rest Raw)
    (aliases : GoMap String) : ∀ (params : List (Parameter Proxy)) (acc : List Attribute)
    (e : String), readParameterAttributesLoop b aliases params acc = .error e →
    ∃ p ∈ params, isMapped p = true ∧
      (∃ e0, b.BuildSchema p.Schema { OverrideDescription := p.Description } {} = .error e0) ∧
      e = "failed to build param schema for '" ++ p.Name ++ "'" := by
  intro params
  induction params with
  | nil =>
    intro acc e h
    simp only [readParameterAttributesLoop] at h
    exact Outcome.noConfusion h
  | cons p rest ih =>
    intro acc e h
    cases hm : isMapped p with
    | false =>
      rw [readParameterAttributesLoop_cons_unmapped b aliases p rest acc hm] at h
      obtain ⟨q, hq, h1⟩ := ih acc e h
      exact ⟨q, List.mem_cons_of_mem _ hq, h1⟩
    | true =>
      rw [readParameterAttributesLoop_cons_mapped b aliases p rest acc hm] at h
      cases hs : b.BuildSchema p.Schema { OverrideDescription := p.Description } {} with
      | error e0 =>
        rw [hs] at h
        injection h with h
        exact ⟨p, List.mem_cons_self _ _, hm, ⟨e0, hs⟩, h.symm⟩
      | ok s =>
        rw [hs] at h
        simp only at h
        cases ha : BuildDataSourceAttribute b s (parameterName aliases p)
            (parameterComputability p) with
        | error e1 => rw [ha] at h; exact Outcome.noConfusion h
        | ok a =>
          rw [ha] at h
          obtain ⟨q, hq, h1⟩ := ih _ e h
          exact ⟨q, List.mem_cons_of_mem _ hq, h1⟩

variable [Inhabited Proxy]

/-- C18, as amended: when `BuildResourceAttributes` or `BuildDataSourceAttributes`
fails, a property of the schema is at fault: either its schema could not be
resolved, and the error is that of `BuildSchema`, unchanged; or its attribute
could not be built, and the error is
`failed to create object property '<name>' schema - <underlying error>`. When
`generateDataSourceSchema` fails after the response body was built, the schema
of a path or query parameter could not be built, and the error is
`failed to build param schema for '<name>'`, without the underlying error. -/
theorem build_error_origin (b : Builders Proxy Rest Raw) (r : ResourceBuilders Proxy Raw)
    (s : OASSchema Proxy Raw) (dataSource : explorer.DataSource Proxy Rest) :
    (∀ e, BuildResourceAttributes b r s = .error e →
      ∃ name ∈ s.Properties.keys,
        b.BuildSchema (s.Properties.get name) {} {} = .error e ∨
        ∃ pSchema err, b.BuildSchema (s.Properties.get name) {} {} = .ok pSchema ∧
          BuildResourceAttribute r pSchema name (b.GetBehavior s name) = .error err ∧
          e = "failed to create object property '" ++ name ++ "' schema - " ++ err) ∧
    (∀ e, BuildDataSourceAttributes b s = .error e →
      ∃ name ∈ s.Properties.keys,
        b.BuildSchema (s.Properties.get name) {} {} = .error e ∨
        ∃ pSchema err, b.BuildSchema (s.Properties.get name) {} {} = .ok pSchema ∧
          BuildDataSourceAttribute b pSchema name (b.GetBehavior s name) = .error err ∧
          e = "failed to create object property '" ++ name ++ "' schema - " ++ err) ∧
    (∀ rs ra e,
      b.BuildSchemaFromResponse dataSource.ReadOp {}
        { OverrideComputability := some Computability.Computed } = .ok rs →
      BuildDataSourceAttributes b rs = .ok ra →
      generateDataSourceSchema b dataSource = .error e →
      ∃ p ∈ readOpParameters dataSource, isMapped p = true ∧
        (∃ e0, b.BuildSchema p.Schema { OverrideDescription := p.Description } {}
          = .error e0) ∧
        e = "failed to build param schema for '" ++ p.Name ++ "'") := by
  refine ⟨?_, ?_, ?_⟩
  · intro e h
    obtain ⟨name, hn, h1⟩ := buildResourceAttributesLoop_error b r s _ _ e h
    exact ⟨name, (mem_sortedKeys _ _).1 hn, h1⟩
  · intro e h
    obtain ⟨name, hn, h1⟩ := buildDataSourceAttributesLoop_error b s _ _ e h
    exact ⟨name, (mem_sortedKeys _ _).1 hn, h1⟩
  · intro rs ra e hr ha h
    unfold generateDataSourceSchema at h
    rw [hr] at h
    simp only at h
    rw [ha] at h
    simp only at h
    cases hp : readParameterAttributesLoop b dataSource.Aliases
        (readOpParameters dataSource) [] with
    | ok pa => rw [hp] at h; exact Outcome.noConfusion h
    | panic => rw [hp] at h; exact Outcome.noConfusion h
    | error e1 =>
      rw [hp] at h
      injection h with h
      rw [← h]
      exact readParameterAttributesLoop_error b _ _ _ _ hp

/-- C19: required propagation. When the behavior of the properties of a schema is
that of the required set `requiredNames` (no override supplied) and the
sub-builders classify their attributes as asked, the attribute that
`BuildResourceAttributes` emits for a property is Required when the property is
in the required set and ComputedOptional otherwise, whatever the schema of the
property. -/
theorem buildResourceAttributes_required (b : Builders Proxy Rest Raw)
    (r : ResourceBuilders Proxy Raw) (s : OASSchema Proxy Raw) (requiredNames : List String)
    (hg : ∀ name, b.GetBehavior s name = GetBehavior requiredNames name) (hr : r.stamps)
    (attrs : List resource.Attribute) (h : BuildResourceAttributes b r s = .ok attrs) :
    List.Forall₂
      (fun name a => a.Name = name ∧
        a.computability = if name ∈ requiredNames then Computability.Required
          else Computability.ComputedOptional)
      (SortedKeys s.Properties) attrs ∧
    ∀ name ∈ s.Properties.keys, ∃ a ∈ attrs, a.Name = name ∧
      (name ∈ requiredNames → a.computability = Computability.Required) ∧
      (name ∉ requiredNames → a.computability = Computability.ComputedOptional) := by
  obtain ⟨new, h1, h2⟩ := buildResourceAttributesLoop_ok b r s _ _ _ h
  rw [List.nil_append] at h1
  subst h1
  have h3 : List.Forall₂
      (fun name a => a.Name = name ∧
        a.computability = if name ∈ requiredNames then Computability.Required
          else Computability.ComputedOptional)
      (SortedKeys s.Properties) attrs := by
    refine h2.imp ?_
    rintro name a ⟨pSchema, _, ha⟩
    have := hr _ _ _ _ ha
    exact ⟨this.1, by rw [this.2, hg name]; rfl⟩
  refine ⟨h3, ?_⟩
  intro name hn
  have hn' := (mem_sortedKeys s.Properties name).2 hn
  obtain ⟨i, hi, hget⟩ := List.getElem_of_mem hn'
  have hlen := h3.length_eq
  have h4 := (List.forall₂_iff_get.1 h3).2 i hi (hlen ▸ hi)
  simp only [List.get_eq_getElem, hget] at h4
  refine ⟨attrs.get ⟨i, hlen ▸ hi⟩, List.get_mem _ _ _, h4.1, ?_, ?_⟩
  · intro hreq; exact h4.2.trans (if_pos hreq)
  · intro hreq; exact h4.2.trans (if_neg hreq)

end

/-- C18, witness: the property `x` of unknown type tag `foo` is named in the
error of `BuildDataSourceAttributes`, and the parameter `q` in the error of
`generateDataSourceSchema`. -/
theorem build_error_origin_witness :
    (BuildDataSourceAttributes sampleBuilders
        ⟨OAS_type_object, ⟨[("x", "foo")], by decide⟩, ""⟩
      = .error "failed to create object property 'x' schema - invalid schema type 'foo'" ∧
      ∃ name ∈ (⟨[("x", "foo")], by decide⟩ : GoMap String).keys,
        sampleBuilders.BuildSchema
            ((⟨[("x", "foo")], by decide⟩ : GoMap String).get name) {} {}
          = .error "failed to create object property 'x' schema - invalid schema type 'foo'" ∨
        ∃ pSchema err,
          sampleBuilders.BuildSchema
            ((⟨[("x", "foo")], by decide⟩ : GoMap String).get name) {} {} = .ok pSchema ∧
          BuildDataSourceAttribute sampleBuilders pSchema name
            (sampleBuilders.GetBehavior
              ⟨OAS_type_object, ⟨[("x", "foo")], by decide⟩, ""⟩ name) = .error err ∧
          "failed to create object property 'x' schema - invalid schema type 'foo'"
            = "failed to create object property '" ++ name ++ "' schema - " ++ err) ∧
    (generateDataSourceSchema sampleBuilders
        (sampleDataSource [sampleParameter "q" "query" "" false] noAliases)
      = .error "failed to build param schema for 'q'" ∧
      ∃ p ∈ readOpParameters
          (sampleDataSource [sampleParameter "q" "query" "" false] noAliases),
        isMapped p = true ∧
        (∃ e0, sampleBuilders.BuildSchema p.Schema { OverrideDescription := p.Description } {}
          = .error e0) ∧
        "failed to build param schema for 'q'"
          = "failed to build param schema for '" ++ p.Name ++ "'") :=
  ⟨⟨rfl, (build_error_origin sampleBuilders sampleResourceBuilders
      ⟨OAS_type_object, ⟨[("x", "foo")], by decide⟩, ""⟩
      (sampleDataSource [] noAliases)).2.1 _ rfl⟩,
    ⟨rfl, (build_error_origin sampleBuilders sampleResourceBuilders
      ⟨OAS_type_object, ⟨[], by decide⟩, ""⟩
      (sampleDataSource [sampleParameter "q" "query" "" false] noAliases)).2.2
      ⟨OAS_type_object, ⟨[("name", "string"), ("id", "string")], by decide⟩, ""⟩
      [stringAttribute "id" .Computed, stringAttribute "name" .Computed] _ rfl rfl rfl⟩⟩

/-- C18, counterexample: the schema of the property `x` cannot be resolved, with
the error `no type`; both builders return `no type`, which does not name `x`.
The schema of the parameter `q` cannot be built, with the error `no type`;
`generateDataSourceSchema` returns
`failed to build param schema for 'q'`, which does not contain `no type`. -/
theorem unwrapped_error_counterexample :
    sampleBuilders.BuildSchema "" {} {} = .error "no type" ∧
    BuildResourceAttributes sampleBuilders sampleResourceBuilders
        ⟨OAS_type_object, ⟨[("x", "")], by decide⟩, ""⟩ = .error "no type" ∧
    BuildDataSourceAttributes sampleBuilders
        ⟨OAS_type_object, ⟨[("x", "")], by decide⟩, ""⟩ = .error "no type" ∧
    ¬ ("x".toList <:+: "no type".toList) ∧
    sampleBuilders.BuildSchema "" { OverrideDescription := "" } {} = .error "no type" ∧
    generateDataSourceSchema sampleBuilders
        (sampleDataSource [sampleParameter "q" "query" "" false] noAliases)
      = .error "failed to build param schema for 'q'" ∧
    ¬ ("no type".toList <:+: "failed to build param schema for 'q'".toList) :=
  ⟨rfl, rfl, rfl, by decide, rfl, rfl, by decide⟩

/-- C19, witness: of the three properties only `nullable_string_two` is in the
required set; the array property `string_list_prop` is ComputedOptional like
the string property `nullable_string_one`. -/
theorem buildResourceAttributes_required_witness :
    BuildResourceAttributes (sampleBuildersRequiring ["nullable_string_two"])
        sampleResourceBuilders
        ⟨OAS_type_object,
          ⟨[("string_list_prop", "array"), ("nullable_string_two", "string"),
            ("nullable_string_one", "string")], by decide⟩, ""⟩
      = .ok [stringAttribute "nullable_string_one" .ComputedOptional,
          stringAttribute "nullable_string_two" .Required,
          listAttribute "string_list_prop" .ComputedOptional .String] ∧
    List.Forall₂
      (fun name a => Attribute.Name a = name ∧
        Attribute.computability a = if name ∈ ["nullable_string_two"]
          then Computability.Required else Computability.ComputedOptional)
      (SortedKeys (⟨[("string_list_prop", "array"), ("nullable_string_two", "string"),
            ("nullable_string_one", "string")], by decide⟩ : GoMap String))
      [stringAttribute "nullable_string_one" .ComputedOptional,
        stringAttribute "nullable_string_two" .Required,
        listAttribute "string_list_prop" .ComputedOptional .String] :=
  ⟨rfl, (buildResourceAttributes_required (sampleBuildersRequiring ["nullable_string_two"])
    sampleResourceBuilders
    ⟨OAS_type_object,
      ⟨[("string_list_prop", "array"), ("nullable_string_two", "string"),
        ("nullable_string_one", "string")], by decide⟩, ""⟩
    ["nullable_string_two"] (fun _ => rfl) sampleResourceBuilders_stamps _ rfl).1⟩

/-! ## Claims on the schema resolver -/

section
variable {Proxy Raw : Type}

theorem selectMediaTypeSchema_json
    (buildSchema : Proxy → SchemaOpts → GlobalSchemaOpts → Except String (OASSchema Proxy Raw))
    (mediaTypes : GoMap (MediaType Proxy)) (o : SchemaOpts) (g : GlobalSchemaOpts) (p : Proxy)
    (h : mediaTypeSchema mediaTypes OAS_mediatype_json = some p) :
    selectMediaTypeSchema buildSchema mediaTypes o g = buildSchema p o g := by
  unfold selectMediaTypeSchema
  rw [h]

theorem entries_ne_nil_of_get? {V : Type} (m : GoMap V) (k : String) (v : V)
    (h : m.get? k = some v) : m.entries.isEmpty = false := by
  obtain ⟨entries, nd⟩ := m
  cases entries with
  | nil => simp [GoMap.get?] at h
  | cons e es => rfl

theorem entries_ne_nil_of_selectedResponse (codes : GoMap (Response Proxy))
    (response : Response Proxy) (h : selectedResponse codes = some response) :
    codes.entries.isEmpty = false := by
  unfold selectedResponse at h
  have h1 := List.mem_of_find?_eq_some h
  obtain ⟨c, -, hc⟩ := List.mem_filterMap.1 h1
  exact entries_ne_nil_of_get? codes c response hc

theorem mediaTypeSchema_congr (m m' : GoMap (MediaType Proxy))
    (h : m'.entries.Perm m.entries) (k : String) :
    mediaTypeSchema m' k = mediaTypeSchema m k := by
  simp only [mediaTypeSchema, GoMap.get?, lookup_eq_of_perm h m'.nodup k]

theorem selectMediaTypeSchema_congr
    (buildSchema : Proxy → SchemaOpts → GlobalSchemaOpts → Except String (OASSchema Proxy Raw))
    (m m' : GoMap (MediaType Proxy)) (h : m'.entries.Perm m.entries) (o : SchemaOpts)
    (g : GlobalSchemaOpts) :
    selectMediaTypeSchema buildSchema m' o g = selectMediaTypeSchema buildSchema m o g := by
  have hf : mediaTypeSchema m' = mediaTypeSchema m := funext (mediaTypeSchema_congr m m' h)
  unfold selectMediaTypeSchema
  rw [hf, sortedKeys_congr m m' h]

/-- C20: media-type priority. When the request body of an operation declares
`application/json` with a non-null schema `p`, `BuildSchemaFromRequest` returns
what `BuildSchema` makes of `p`; when the selected response does,
`BuildSchemaFromResponse` returns what `BuildSchema` makes of `p`; whatever
other media types are declared. The selection does not depend on the iteration
order of the content map. -/
theorem resolver_json_priority
    (buildSchema : Proxy → SchemaOpts → GlobalSchemaOpts → Except String (OASSchema Proxy Raw))
    (operation : Operation Proxy (Bodies Proxy)) (o : SchemaOpts) (g : GlobalSchemaOpts)
    (p : Proxy) :
    (∀ body, operation.Rest.RequestBody = some body →
      mediaTypeSchema body.Content OAS_mediatype_json = some p →
      BuildSchemaFromRequest buildSchema (some operation) o g = buildSchema p o g) ∧
    (∀ codes response, operation.Rest.Responses = some codes →
      selectedResponse codes = some response →
      mediaTypeSchema response.Content OAS_mediatype_json = some p →
      BuildSchemaFromResponse buildSchema (some operation) o g = buildSchema p o g) ∧
    (∀ m m' : GoMap (MediaType Proxy), m'.entries.Perm m.entries →
      selectMediaTypeSchema buildSchema m' o g = selectMediaTypeSchema buildSchema m o g) := by
  refine ⟨?_, ?_, ?_⟩
  · intro body hb hj
    have hne : body.Content.entries.isEmpty = false := by
      cases hg : body.Content.get? OAS_mediatype_json with
      | none => simp [mediaTypeSchema, hg] at hj
      | some v => exact entries_ne_nil_of_get? _ _ v hg
    simp only [BuildSchemaFromRequest, hb, hne, Bool.false_eq_true, if_false]
    exact selectMediaTypeSchema_json buildSchema body.Content o g p hj
  · intro codes response hc hs hj
    have hne := entries_ne_nil_of_selectedResponse codes response hs
    simp only [BuildSchemaFromResponse, hc, hne, Bool.false_eq_true, if_false, hs]
    exact selectMediaTypeSchema_json buildSchema response.Content o g p hj
  · intro m m' h
    exact selectMediaTypeSchema_congr buildSchema m m' h o g

end

/-- C20, witness: the request body and the responses of the tests
`default to application/json` and `default to 200 and application/json`. -/
theorem resolver_json_priority_witness :
    BuildSchemaFromRequest sampleBuilders.BuildSchema
        (some (sampleOperation
          (some ⟨⟨[("application/xml", ⟨some "boolean"⟩),
            ("application/json", ⟨some "string"⟩)], by decide⟩⟩) none)) {} {}
      = sampleBuilders.BuildSchema "string" {} {} ∧
    BuildSchemaFromResponse sampleBuilders.BuildSchema
        (some (sampleOperation none
          (some ⟨[("201", ⟨⟨[("application/json", ⟨some "boolean"⟩)], by decide⟩⟩),
            ("200", ⟨⟨[("application/xml", ⟨some "boolean"⟩),
              ("application/json", ⟨some "string"⟩)], by decide⟩⟩)], by decide⟩))) {} {}
      = sampleBuilders.BuildSchema "string" {} {} ∧
    sampleBuilders.BuildSchema "string" {} {} = .ok ⟨"string", ⟨[], List.nodup_nil⟩, ""⟩ :=
  ⟨(resolver_json_priority sampleBuilders.BuildSchema
      (sampleOperation
        (some ⟨⟨[("application/xml", ⟨some "boolean"⟩),
          ("application/json", ⟨some "string"⟩)], by decide⟩⟩) none) {} {} "string").1
      _ rfl rfl,
    (resolver_json_priority sampleBuilders.BuildSchema
      (sampleOperation none
        (some ⟨[("201", ⟨⟨[("application/json", ⟨some "boolean"⟩)], by decide⟩⟩),
          ("200", ⟨⟨[("application/xml", ⟨some "boolean"⟩),
            ("application/json", ⟨some "string"⟩)], by decide⟩⟩)], by decide⟩)) {} {}
      "string").2.1 _ _ rfl rfl rfl,
    rfl⟩

/-- The resolver of the spec reads the responses of the operation only: builders
that resolve response schemas with it do not read the parameter list. -/
theorem resolverIgnoresParameters_of_eq {Proxy Raw : Type}
    (b : Builders Proxy (Bodies Proxy) Raw)
    (h : b.BuildSchemaFromResponse = BuildSchemaFromResponse b.BuildSchema) :
    b.resolverIgnoresParameters := by
  intro op params o g
  rw [h]
  rfl

/-! ## More on the merger: uniqueness, sequencing, totality -/

theorem mergeSlice_append (a : List Attribute) : ∀ (main b : List Attribute),
    mergeSlice main (a ++ b) = mergeSlice (mergeSlice main a) b := by
  induction a with
  | nil => intro main b; simp [mergeSlice]
  | cons c cs ih =>
    intro main b
    rw [List.cons_append, mergeSlice, mergeSlice, ih]

theorem length_mergeInto_le (combine : Attribute → Attribute) (c : Attribute)
    (main : List Attribute) :
    main.length ≤ (mergeInto combine c main).length ∧
    (mergeInto combine c main).length ≤ main.length + 1 := by
  induction main with
  | nil => simp [mergeInto]
  | cons m ms ih =>
    unfold mergeInto
    by_cases h : m.Name = c.Name
    · simp [h]
    · simp only [h, if_false, List.length_cons]
      omega

theorem length_mergeSlice_le (other : List Attribute) : ∀ main : List Attribute,
    main.length ≤ (mergeSlice main other).length ∧
    (mergeSlice main other).length ≤ main.length + other.length := by
  induction other with
  | nil => intro main; simp [mergeSlice]
  | cons c cs ih =>
    intro main
    rw [mergeSlice]
    have h1 := length_mergeInto_le (mergeNested c) c main
    have h2 := ih (mergeInto (mergeNested c) c main)
    simp only [List.length_cons]
    omega

/-- C25: the merge preserves name uniqueness. When the names of `main` are
pairwise distinct, so are the names of `mergeDataSourceAttributes main others`,
whatever names the others repeat. -/
theorem mergeDataSourceAttributes_nodup (main : List Attribute)
    (others : List (List Attribute)) (h : (names main).Nodup) :
    (names (mergeDataSourceAttributes main others)).Nodup :=
  nodup_names_mergeDataSourceAttributes main others h

/-- C25, witness: the others repeat `tags` within one list and `id` across
lists. -/
theorem mergeDataSourceAttributes_nodup_witness :
    (names [stringAttribute "id" .Required]).Nodup ∧
    names (mergeDataSourceAttributes [stringAttribute "id" .Required]
        [[stringAttribute "tags" .Computed, stringAttribute "tags" .Optional],
          [stringAttribute "id" .Computed, stringAttribute "tags" .Computed]])
      = ["id", "tags"] ∧
    (names (mergeDataSourceAttributes [stringAttribute "id" .Required]
        [[stringAttribute "tags" .Computed, stringAttribute "tags" .Optional],
          [stringAttribute "id" .Computed, stringAttribute "tags" .Computed]])).Nodup :=
  ⟨by decide, rfl, mergeDataSourceAttributes_nodup [stringAttribute "id" .Required]
    [[stringAttribute "tags" .Computed, stringAttribute "tags" .Optional],
      [stringAttribute "id" .Computed, stringAttribute "tags" .Computed]] (by decide)⟩

/-- C26: merge sources are applied in sequence.
`mergeDataSourceAttributes main [a, b]` is
`mergeDataSourceAttributes (mergeDataSourceAttributes main [a]) [b]` and also
`mergeDataSourceAttributes main [a ++ b]`; with no other lists, or with empty
lists only, the result is `main`. -/
theorem mergeDataSourceAttributes_sequence (main a b : List Attribute) (n : Nat) :
    mergeDataSourceAttributes main [a, b]
      = mergeDataSourceAttributes (mergeDataSourceAttributes main [a]) [b] ∧
    mergeDataSourceAttributes main [a, b] = mergeDataSourceAttributes main [a ++ b] ∧
    mergeDataSourceAttributes main [] = main ∧
    mergeDataSourceAttributes main (List.replicate n []) = main := by
  refine ⟨rfl, ?_, rfl, ?_⟩
  · simp only [mergeDataSourceAttributes, List.foldl_cons, List.foldl_nil]
    exact (mergeSlice_append a main b).symm
  · induction n with
    | zero => rfl
    | succ k ih =>
      simp only [mergeDataSourceAttributes, List.replicate_succ, List.foldl_cons,
        mergeSlice] at ih ⊢
      exact ih

theorem nodesList_append (l₁ l₂ : List Attribute) :
    nodesList (l₁ ++ l₂) = nodesList l₁ + nodesList l₂ := by
  induction l₁ with
  | nil => simp [nodesList]
  | cons a rest ih => rw [List.cons_append, nodesList, nodesList, ih]; omega

theorem nodesList_mergeInto_le (combine : Attribute → Attribute) (c : Attribute)
    (hc : ∀ m, nodesAttribute (combine m) ≤ nodesAttribute m + nodesAttribute c)
    (main : List Attribute) :
    nodesList (mergeInto combine c main) ≤ nodesList main + nodesAttribute c := by
  induction main with
  | nil => simp [mergeInto, nodesList]
  | cons m ms ih =>
    unfold mergeInto
    by_cases h : m.Name = c.Name
    · have := hc m
      simp only [h, if_true, nodesList]
      omega
    · simp only [h, if_false, nodesList]
      omega

mutual
theorem nodesAttribute_mergeNested_le : ∀ (c m : Attribute),
    nodesAttribute (mergeNested c m) ≤ nodesAttribute m + nodesAttribute c
  | .mk _ _ _ _ .String, m => by simp [mergeNested]
  | .mk _ _ _ _ .Integer, m => by simp [mergeNested]
  | .mk _ _ _ _ .Number, m => by simp [mergeNested]
  | .mk _ _ _ _ .Boolean, m => by simp [mergeNested]
  | .mk _ _ _ _ (.List ce), .mk n k d s v => by
    cases v <;> simp only [mergeNested, nodesAttribute, nodesVariant] <;> try omega
    have := nodesElementType_mergeElementType_le ce ‹ElementType›
    omega
  | .mk _ _ _ _ (.ListNested cs), .mk n k d s v => by
    cases v <;> simp only [mergeNested, nodesAttribute, nodesVariant] <;> try omega
    have := nodesList_mergeSlice_le cs ‹List Attribute›
    omega
  | .mk _ _ _ _ (.SingleNested cs), .mk n k d s v => by
    cases v <;> simp only [mergeNested, nodesAttribute, nodesVariant] <;> try omega
    have := nodesList_mergeSlice_le cs ‹List Attribute›
    omega
theorem nodesList_mergeSlice_le : ∀ (other main : List Attribute),
    nodesList (mergeSlice main other) ≤ nodesList main + nodesList other
  | [], main => by simp [mergeSlice, nodesList]
  | c :: cs, main => by
    rw [mergeSlice]
    have h1 := nodesList_mergeInto_le (mergeNested c) c (nodesAttribute_mergeNested_le c) main
    have h2 := nodesList_mergeSlice_le cs (mergeInto (mergeNested c) c main)
    simp only [nodesList]
    omega
theorem nodesElementType_mergeElementType_le : ∀ (ce me : ElementType),
    nodesElementType (mergeElementType me ce) ≤ nodesElementType me + nodesElementType ce
  | .String, me => by simp [mergeElementType]
  | .Integer, me => by simp [mergeElementType]
  | .Number, me => by simp [mergeElementType]
  | .Boolean, me => by simp [mergeElementType]
  | .List e, me => by simp [mergeElementType]
  | .Object cs, me => by
    cases me <;> simp only [mergeElementType, nodesElementType] <;> try omega
    have := nodesList_mergeSlice_le cs ‹List Attribute›
    omega
end

/-- C27: the merger is total. `mergeDataSourceAttributes` is defined by structural
recursion on the attribute trees of the others, with no fuel and no error
result: for every `main` and `others` it returns a list, which holds at least
the entries of `main` and at most one more entry per attribute of the others,
and whose trees have, at all nesting levels together, no more attribute nodes
than `main` and the others have. -/
theorem mergeDataSourceAttributes_total (main : List Attribute)
    (others : List (List Attribute)) :
    ∃ result : List Attribute, mergeDataSourceAttributes main others = result ∧
      main.length ≤ result.length ∧
      result.length ≤ main.length + others.flatten.length ∧
      nodesList result ≤ nodesList main + nodesList others.flatten := by
  refine ⟨_, rfl, ?_⟩
  unfold mergeDataSourceAttributes
  induction others generalizing main with
  | nil => simp
  | cons o os ih =>
    rw [List.foldl_cons]
    have h1 := length_mergeSlice_le o main
    have h3 := nodesList_mergeSlice_le o main
    have h2 := ih (mergeSlice main o)
    simp only [List.flatten_cons, List.length_append, nodesList_append]
    omega

/-! ## More on the schema resolver -/

theorem filterMap_sorted_cases {α : Type} (f : String → Option α) :
    ∀ L : List String, L.Sorted (fun a b : String => a < b) →
    (L.filterMap f = [] ∧ ∀ k ∈ L, f k = none) ∨
    ∃ k p rest, k ∈ L ∧ f k = some p ∧ L.filterMap f = p :: rest ∧
      ∀ k' ∈ L, f k' ≠ none → k ≤ k' := by
  intro L
  induction L with
  | nil => intro _; exact Or.inl ⟨rfl, by simp⟩
  | cons x t ih =>
    intro hs
    have hs' := List.sorted_cons.1 hs
    cases hx : f x with
    | some p =>
      refine Or.inr ⟨x, p, t.filterMap f, List.mem_cons_self _ _, hx, ?_, ?_⟩
      · simp [List.filterMap_cons, hx]
      · intro k' hk' _
        rcases List.mem_cons.1 hk' with e | e
        · exact e ▸ le_refl _
        · exact le_of_lt (hs'.1 k' e)
    | none =>
      rcases ih hs'.2 with ⟨h1, h2⟩ | ⟨k, p, rest, hk, hf, h1, h2⟩
      · refine Or.inl ⟨by simp [List.filterMap_cons, hx, h1], ?_⟩
        intro k hk
        rcases List.mem_cons.1 hk with e | e
        · exact e ▸ hx
        · exact h2 k e
      · refine Or.inr ⟨k, p, rest, List.mem_cons_of_mem _ hk, hf, ?_, ?_⟩
        · simp [List.filterMap_cons, hx, h1]
        · intro k' hk' hne
          rcases List.mem_cons.1 hk' with e | e
          · exact absurd (e ▸ hx) hne
          · exact h2 k' e hne

theorem mem_keys_of_get? {V : Type} (m : GoMap V) (k : String) (v : V)
    (h : m.get? k = some v) : k ∈ m.keys := by
  obtain ⟨entries, nd⟩ := m
  simp only [GoMap.get?, GoMap.keys] at h ⊢
  clear nd
  induction entries with
  | nil => simp at h
  | cons e es ih =>
    obtain ⟨a, w⟩ := e
    simp only [List.lookup_cons] at h
    cases hka : k == a with
    | true => simp [beq_iff_eq.1 hka]
    | false =>
      rw [hka] at h
      exact List.mem_cons_of_mem _ (ih h)

section
variable {Proxy Raw : Type}

theorem mem_keys_of_mediaTypeSchema (mediaTypes : GoMap (MediaType Proxy)) (k : String)
    (p : Proxy) (h : mediaTypeSchema mediaTypes k = some p) : k ∈ mediaTypes.keys := by
  unfold mediaTypeSchema at h
  cases hg : mediaTypes.get? k with
  | none => simp [hg] at h
  | some v => exact mem_keys_of_get? mediaTypes k v hg

theorem otherMediaTypes_sorted (mediaTypes : GoMap (MediaType Proxy)) :
    ((SortedKeys mediaTypes).filter (fun k => decide (k ≠ OAS_mediatype_json))).Sorted
      (fun a b : String => a < b) :=
  (sortedKeys_sorted mediaTypes).sublist (List.filter_sublist _)

theorem selectMediaTypeSchema_all_null
    (buildSchema : Proxy → SchemaOpts → GlobalSchemaOpts → Except String (OASSchema Proxy Raw))
    (mediaTypes : GoMap (MediaType Proxy)) (o : SchemaOpts) (g : GlobalSchemaOpts)
    (h : ∀ k, mediaTypeSchema mediaTypes k = none) :
    selectMediaTypeSchema buildSchema mediaTypes o g = .error ErrSchemaNotFound := by
  unfold selectMediaTypeSchema
  rw [h OAS_mediatype_json]
  have : ((SortedKeys mediaTypes).filter (fun k => decide (k ≠ OAS_mediatype_json))).filterMap
      (mediaTypeSchema mediaTypes) = [] := by
    rw [List.filterMap_eq_nil_iff]
    intro k _
    exact h k
  rw [this]

theorem selectMediaTypeSchema_fallback
    (buildSchema : Proxy → SchemaOpts → GlobalSchemaOpts → Except String (OASSchema Proxy Raw))
    (mediaTypes : GoMap (MediaType Proxy)) (o : SchemaOpts) (g : GlobalSchemaOpts)
    (k : String) (p : Proxy)
    (hj : mediaTypeSchema mediaTypes OAS_mediatype_json = none)
    (hk : mediaTypeSchema mediaTypes k = some p)
    (hmin : ∀ k' p', mediaTypeSchema mediaTypes k' = some p' → k ≤ k') :
    selectMediaTypeSchema buildSchema mediaTypes o g = buildSchema p o g := by
  have hkL : k ∈ (SortedKeys mediaTypes).filter (fun k => decide (k ≠ OAS_mediatype_json)) := by
    refine List.mem_filter.2 ⟨(mem_sortedKeys _ _).2 (mem_keys_of_mediaTypeSchema _ k p hk), ?_⟩
    have : k ≠ OAS_mediatype_json := fun e => by rw [e, hj] at hk; exact Option.noConfusion hk
    simpa using this
  unfold selectMediaTypeSchema
  rw [hj]
  rcases filterMap_sorted_cases (mediaTypeSchema mediaTypes) _ (otherMediaTypes_sorted mediaTypes)
    with ⟨-, h2⟩ | ⟨k0, p0, rest, hk0, hf0, h1, h2⟩
  · rw [h2 k hkL] at hk; exact Option.noConfusion hk
  · have e : k0 = k :=
      le_antisymm (h2 k hkL (by rw [hk]; exact fun h => Option.noConfusion h)) (hmin k0 p0 hf0)
    rw [e, hk] at hf0
    injection hf0 with hf0
    rw [h1, hf0]

theorem selectMediaTypeSchema_selected
    (buildSchema : Proxy → SchemaOpts → GlobalSchemaOpts → Except String (OASSchema Proxy Raw))
    (mediaTypes : GoMap (MediaType Proxy)) (o : SchemaOpts) (g : GlobalSchemaOpts)
    (h : ∃ k p, mediaTypeSchema mediaTypes k = some p) :
    ∃ k p, mediaTypeSchema mediaTypes k = some p ∧
      (k = OAS_mediatype_json ∨
        (mediaTypeSchema mediaTypes OAS_mediatype_json = none ∧
          ∀ k' p', mediaTypeSchema mediaTypes k' = some p' → k ≤ k')) ∧
      selectMediaTypeSchema buildSchema mediaTypes o g = buildSchema p o g := by
  cases hj : mediaTypeSchema mediaTypes OAS_mediatype_json with
  | some p =>
    exact ⟨OAS_mediatype_json, p, hj, Or.inl rfl,
      selectMediaTypeSchema_json buildSchema mediaTypes o g p hj⟩
  | none =>
    obtain ⟨k1, p1, h1⟩ := h
    have hk1 : k1 ∈ (SortedKeys mediaTypes).filter
        (fun k => decide (k ≠ OAS_mediatype_json)) := by
      refine List.mem_filter.2
        ⟨(mem_sortedKeys _ _).2 (mem_keys_of_mediaTypeSchema _ k1 p1 h1), ?_⟩
      have : k1 ≠ OAS_mediatype_json := fun e => by
        rw [e, hj] at h1; exact Option.noConfusion h1
      simpa using this
    rcases filterMap_sorted_cases (mediaTypeSchema mediaTypes) _
      (otherMediaTypes_sorted mediaTypes) with ⟨-, h2⟩ | ⟨k0, p0, rest, hk0, hf0, -, h2⟩
    · rw [h2 k1 hk1] at h1; exact Option.noConfusion h1
    · have hmin : ∀ k' p', mediaTypeSchema mediaTypes k' = some p' → k0 ≤ k' := by
        intro k' p' h'
        refine h2 k' (List.mem_filter.2
          ⟨(mem_sortedKeys _ _).2 (mem_keys_of_mediaTypeSchema _ k' p' h'), ?_⟩)
          (by rw [h']; exact fun h => Option.noConfusion h)
        have : k' ≠ OAS_mediatype_json := fun e => by
          rw [e, hj] at h'; exact Option.noConfusion h'
        simpa using this
      exact ⟨k0, p0, hf0, Or.inr ⟨rfl, hmin⟩,
        selectMediaTypeSchema_fallback buildSchema mediaTypes o g k0 p0 hj hf0 hmin⟩

/-- C21: lexicographic media-type fallback. When the request body has no
`application/json` entry, or one with a null schema, and `k` is the smallest
media-type key whose schema is non-null, with schema `p`,
`BuildSchemaFromRequest` returns what `BuildSchema` makes of `p`; media types
with a null schema are passed over. -/
theorem request_lexicographic_fallback
    (buildSchema : Proxy → SchemaOpts → GlobalSchemaOpts → Except String (OASSchema Proxy Raw))
    (operation : Operation Proxy (Bodies Proxy)) (o : SchemaOpts) (g : GlobalSchemaOpts)
    (body : RequestBody Proxy) (k : String) (p : Proxy)
    (hb : operation.Rest.RequestBody = some body)
    (hj : mediaTypeSchema body.Content OAS_mediatype_json = none)
    (hk : mediaTypeSchema body.Content k = some p)
    (hmin : ∀ k' p', mediaTypeSchema body.Content k' = some p' → k ≤ k') :
    BuildSchemaFromRequest buildSchema (some operation) o g = buildSchema p o g := by
  have hne : body.Content.entries.isEmpty = false := by
    cases hg : body.Content.get? k with
    | none => simp [mediaTypeSchema, hg] at hk
    | some v => exact entries_ne_nil_of_get? _ _ v hg
  simp only [BuildSchemaFromRequest, hb, hne, Bool.false_eq_true, if_false]
  exact selectMediaTypeSchema_fallback buildSchema body.Content o g k p hj hk hmin

/-- C23, as amended: `BuildSchemaFromRequest` fails with schema-not-found when the
operation is nil, when its request body is nil, when the request body has no
content entries, and when every declared media type has a null schema. When a
media type has a non-null schema, it returns what `BuildSchema` makes of the
selected schema, that of `application/json` when non-null and else that of the
smallest key with a non-null schema: it succeeds when that schema is
resolvable, and fails with the error of `BuildSchema` when it is not. -/
theorem request_schema_found_or_not
    (buildSchema : Proxy → SchemaOpts → GlobalSchemaOpts → Except String (OASSchema Proxy Raw))
    (operation : Operation Proxy (Bodies Proxy)) (o : SchemaOpts) (g : GlobalSchemaOpts) :
    BuildSchemaFromRequest buildSchema none o g = .error ErrSchemaNotFound ∧
    (operation.Rest.RequestBody = none →
      BuildSchemaFromRequest buildSchema (some operation) o g = .error ErrSchemaNotFound) ∧
    (∀ body, operation.Rest.RequestBody = some body → body.Content.entries = [] →
      BuildSchemaFromRequest buildSchema (some operation) o g = .error ErrSchemaNotFound) ∧
    (∀ body, operation.Rest.RequestBody = some body →
      (∀ k, mediaTypeSchema body.Content k = none) →
      BuildSchemaFromRequest buildSchema (some operation) o g = .error ErrSchemaNotFound) ∧
    (∀ body, operation.Rest.RequestBody = some body →
      (∃ k p, mediaTypeSchema body.Content k = some p) →
      ∃ k p, mediaTypeSchema body.Content k = some p ∧
        (k = OAS_mediatype_json ∨
          (mediaTypeSchema body.Content OAS_mediatype_json = none ∧
            ∀ k' p', mediaTypeSchema body.Content k' = some p' → k ≤ k')) ∧
        BuildSchemaFromRequest buildSchema (some operation) o g = buildSchema p o g) := by
  refine ⟨rfl, ?_, ?_, ?_, ?_⟩
  · intro hb
    simp only [BuildSchemaFromRequest, hb]
  · intro body hb he
    simp [BuildSchemaFromRequest, hb, he]
  · intro body hb hn
    simp only [BuildSchemaFromRequest, hb]
    split
    · rfl
    · exact selectMediaTypeSchema_all_null buildSchema body.Content o g hn
  · intro body hb hex
    obtain ⟨k, p, h1, h2, h3⟩ := selectMediaTypeSchema_selected buildSchema body.Content o g hex
    refine ⟨k, p, h1, h2, ?_⟩
    have hne : body.Content.entries.isEmpty = false := by
      cases hg : body.Content.get? k with
      | none => simp [mediaTypeSchema, hg] at h1
      | some v => exact entries_ne_nil_of_get? _ _ v hg
    simp only [BuildSchemaFromRequest, hb, hne, Bool.false_eq_true, if_false]
    exact h3

end

theorem mem_entries_of_get? {V : Type} (m : GoMap V) (k : String) (v : V)
    (h : m.get? k = some v) : (k, v) ∈ m.entries := by
  obtain ⟨entries, nd⟩ := m
  simp only [GoMap.get?] at h ⊢
  clear nd
  induction entries with
  | nil => simp at h
  | cons e es ih =>
    obtain ⟨a, w⟩ := e
    simp only [List.lookup_cons] at h
    cases hka : k == a with
    | true =>
      rw [hka] at h
      injection h with h
      simp [beq_iff_eq.1 hka, h]
    | false =>
      rw [hka] at h
      exact List.mem_cons_of_mem _ (ih h)

theorem mem_entries_of_mediaTypeSchema {Proxy : Type} (mediaTypes : GoMap (MediaType Proxy))
    (k : String) (p : Proxy) (h : mediaTypeSchema mediaTypes k = some p) :
    ∃ m : MediaType Proxy, (k, m) ∈ mediaTypes.entries ∧ m.Schema = some p := by
  unfold mediaTypeSchema at h
  cases hg : mediaTypes.get? k with
  | none => simp [hg] at h
  | some v =>
    rw [hg] at h
    exact ⟨v, mem_entries_of_get? mediaTypes k v hg, h⟩

/-- C21, witness: `application/json` has a null schema, and of
`application/xml` and `application/jay-son` the second is the smaller key. -/
theorem request_lexicographic_fallback_witness :
    mediaTypeSchema (⟨[("application/json", ⟨none⟩), ("application/xml", ⟨some "boolean"⟩),
        ("application/jay-son", ⟨some "string"⟩)], by decide⟩ : GoMap (MediaType String))
      OAS_mediatype_json = none ∧
    BuildSchemaFromRequest sampleBuilders.BuildSchema
        (some (sampleOperation
          (some ⟨⟨[("application/json", ⟨none⟩), ("application/xml", ⟨some "boolean"⟩),
            ("application/jay-son", ⟨some "string"⟩)], by decide⟩⟩) none)) {} {}
      = sampleBuilders.BuildSchema "string" {} {} := by
  refine ⟨rfl, request_lexicographic_fallback sampleBuilders.BuildSchema
    (sampleOperation
      (some ⟨⟨[("application/json", ⟨none⟩), ("application/xml", ⟨some "boolean"⟩),
        ("application/jay-son", ⟨some "string"⟩)], by decide⟩⟩) none) {} {} _
    "application/jay-son" "string" rfl rfl rfl ?_⟩
  intro k' p' h
  obtain ⟨m, hm, hs⟩ := mem_entries_of_mediaTypeSchema _ k' p' h
  simp only [List.mem_cons, Prod.mk.injEq, List.mem_singleton, List.not_mem_nil,
    or_false] at hm
  rcases hm with ⟨-, e⟩ | ⟨e1, -⟩ | ⟨e1, -⟩
  · rw [e] at hs; exact Option.noConfusion hs
  · rw [e1]; exact String.le_iff_toList_le.2 (by decide)
  · rw [e1]

/-- C23, witness: an operation without request body, and the request body of the
test `no media type schemas`. -/
theorem request_schema_found_or_not_witness :
    BuildSchemaFromRequest sampleBuilders.BuildSchema (some (sampleOperation none none)) {} {}
      = .error ErrSchemaNotFound ∧
    BuildSchemaFromRequest sampleBuilders.BuildSchema
        (some (sampleOperation
          (some ⟨⟨[("application/json", ⟨none⟩), ("application/xml", ⟨none⟩)],
            by decide⟩⟩) none)) {} {}
      = .error ErrSchemaNotFound := by
  refine ⟨(request_schema_found_or_not sampleBuilders.BuildSchema
      (sampleOperation none none) {} {}).2.1 rfl,
    (request_schema_found_or_not sampleBuilders.BuildSchema
      (sampleOperation
        (some ⟨⟨[("application/json", ⟨none⟩), ("application/xml", ⟨none⟩)],
          by decide⟩⟩) none) {} {}).2.2.2.1 _ rfl ?_⟩
  intro k
  cases h : mediaTypeSchema (⟨[("application/json", ⟨none⟩), ("application/xml", ⟨none⟩)],
      by decide⟩ : GoMap (MediaType String)) k with
  | none => rfl
  | some p =>
    obtain ⟨m, hm, hs⟩ := mem_entries_of_mediaTypeSchema _ k p h
    simp only [List.mem_cons, Prod.mk.injEq, List.mem_singleton, List.not_mem_nil,
      or_false] at hm
    rcases hm with ⟨-, e⟩ | ⟨-, e⟩ <;> (rw [e] at hs; exact Option.noConfusion hs)

/-- C23, counterexample: `application/xml` has a non-null schema that resolves,
but `application/json` is selected, its non-null schema does not resolve, and
`BuildSchemaFromRequest` fails with the error of `BuildSchema`. -/
theorem request_unresolvable_json_counterexample :
    mediaTypeSchema (⟨[("application/xml", ⟨some "string"⟩), ("application/json", ⟨some ""⟩)],
        by decide⟩ : GoMap (MediaType String)) "application/xml" = some "string" ∧
    sampleBuilders.BuildSchema "string" {} {} = .ok ⟨"string", ⟨[], List.nodup_nil⟩, ""⟩ ∧
    sampleBuilders.BuildSchema "" {} {} = .error "no type" ∧
    BuildSchemaFromRequest sampleBuilders.BuildSchema
        (some (sampleOperation
          (some ⟨⟨[("application/xml", ⟨some "string"⟩), ("application/json", ⟨some ""⟩)],
            by decide⟩⟩) none)) {} {}
      = .error "no type" :=
  ⟨rfl, rfl, rfl, rfl⟩

/-! ### The candidate response codes -/

theorem get?_of_mem_keys {V : Type} (m : GoMap V) (k : String) (h : k ∈ m.keys) :
    ∃ v, m.get? k = some v := by
  obtain ⟨entries, nd⟩ := m
  simp only [GoMap.get?, GoMap.keys] at h ⊢
  clear nd
  induction entries with
  | nil => simp at h
  | cons e es ih =>
    obtain ⟨a, w⟩ := e
    simp only [List.lookup_cons]
    cases hka : k == a with
    | true => exact ⟨w, rfl⟩
    | false =>
      simp only [List.map_cons, List.mem_cons] at h
      rcases h with h | h
      · rw [h] at hka; simp at hka
      · exact ih h

theorem filterMap_get?_of_ite {V : Type} (m : GoMap V) (k : String) :
    (if k ∈ m.keys then [k] else []).filterMap m.get? = (m.get? k).toList := by
  by_cases h : k ∈ m.keys
  · obtain ⟨v, hv⟩ := get?_of_mem_keys m k h
    simp [h, hv]
  · have : m.get? k = none := by
      cases hg : m.get? k with
      | none => rfl
      | some v => exact absurd (mem_keys_of_get? m k v hg) h
    simp [h, this]

theorem find?_filterMap_of_sorted {R : Type} (g : String → Option R) (P : R → Bool)
    (x : Nat × String) (r : R) (hg : g x.2 = some r) (hP : P r = true) :
    ∀ S : List (Nat × String), S.Sorted (fun a b => a.1 ≤ b.1) → x ∈ S →
      (∀ y ∈ S, y ≠ x → ∀ r', g y.2 = some r' → P r' = true → x.1 < y.1) →
      ((S.map Prod.snd).filterMap g).find? P = some r := by
  intro S
  induction S with
  | nil => intro _ hx; simp at hx
  | cons y t ih =>
    intro hs hx hmin
    have hs' := List.sorted_cons.1 hs
    by_cases hyx : y = x
    · subst hyx
      simp [List.filterMap_cons, hg, List.find?_cons, hP]
    · have hxt : x ∈ t := by
        rcases List.mem_cons.1 hx with e | e
        · exact absurd e.symm hyx
        · exact e
      have hle : y.1 ≤ x.1 := hs'.1 x hxt
      have hrec := ih hs'.2 hxt (fun z hz => hmin z (List.mem_cons_of_mem _ hz))
      cases hgy : g y.2 with
      | none => simpa [List.filterMap_cons, hgy] using hrec
      | some r' =>
        cases hPr : P r' with
        | true =>
          have := hmin y (List.mem_cons_self _ _) hyx r' hgy hPr
          omega
        | false => simpa [List.filterMap_cons, hgy, List.find?_cons, hPr] using hrec

section
variable {Proxy Raw : Type}

/-- The remaining candidates with their numbers, before they are sorted. -/
theorem mem_remaining_pairs (codes : GoMap (Response Proxy)) (y : Nat × String) :
    y ∈ ((SortedKeys codes).filter
        (fun c => decide (c ≠ OAS_response_code_ok ∧ c ≠ OAS_response_code_created))).filterMap
        (fun c => (successCode c).map (fun n => (n, c))) ↔
    y.2 ∈ codes.keys ∧ y.2 ≠ OAS_response_code_ok ∧ y.2 ≠ OAS_response_code_created ∧
      successCode y.2 = some y.1 := by
  obtain ⟨n, c⟩ := y
  simp only [List.mem_filterMap, List.mem_filter, mem_sortedKeys, decide_eq_true_eq,
    Option.map_eq_some', Prod.mk.injEq]
  constructor
  · rintro ⟨c', ⟨h1, h2, h3⟩, n', h4, h5, h6⟩
    subst h6 h5
    exact ⟨h1, h2, h3, h4⟩
  · rintro ⟨h1, h2, h3, h4⟩
    exact ⟨c, ⟨h1, h2, h3⟩, n, h4, rfl, rfl⟩

theorem selectedResponse_eq (codes : GoMap (Response Proxy)) :
    selectedResponse codes
      = ((codes.get? OAS_response_code_ok).toList ++
          (codes.get? OAS_response_code_created).toList ++
          (remainingCandidates codes).filterMap codes.get?).find?
          (fun response => hasUsableSchema response.Content) := by
  unfold selectedResponse responseCandidates remainingCandidates
  rw [List.filterMap_append, List.filterMap_append, filterMap_get?_of_ite,
    filterMap_get?_of_ite]

theorem digitsValue_none_of_not_digit (cs : List Char) (h : cs.all Char.isDigit = false) :
    digitsValue cs = none := by
  simp [digitsValue, h]

theorem successCode_range (c : String) (n : Nat) (h : successCode c = some n) :
    200 ≤ n ∧ n ≤ 299 := by
  unfold successCode at h
  simp only [Option.bind_eq_some] at h
  obtain ⟨m, -, hm⟩ := h
  by_cases hr : 200 ≤ m ∧ m ≤ 299
  · rw [if_pos hr] at hm
    cases hm
    exact hr
  · rw [if_neg hr] at hm
    exact Option.noConfusion hm

theorem remaining_pairs_sorted (codes : GoMap (Response Proxy)) :
    ((((SortedKeys codes).filter
      (fun c => decide (c ≠ OAS_response_code_ok ∧ c ≠ OAS_response_code_created))).filterMap
      (fun c => (successCode c).map (fun n => (n, c)))).insertionSort
      (fun a b => a.1 ≤ b.1)).Sorted (fun a b : Nat × String => a.1 ≤ b.1) :=
  @List.sorted_insertionSort (Nat × String) (fun a b => a.1 ≤ b.1) _
    ⟨fun a b => Nat.le_total a.1 b.1⟩ ⟨fun _ _ _ h1 h2 => Nat.le_trans h1 h2⟩ _

theorem mem_remainingCandidates (codes : GoMap (Response Proxy)) (c : String) :
    c ∈ remainingCandidates codes ↔
      c ∈ codes.keys ∧ c ≠ OAS_response_code_ok ∧ c ≠ OAS_response_code_created ∧
        ∃ n, successCode c = some n := by
  unfold remainingCandidates
  rw [List.mem_map]
  constructor
  · rintro ⟨y, hy, rfl⟩
    obtain ⟨h1, h2, h3, h4⟩ :=
      (mem_remaining_pairs codes y).1 ((List.perm_insertionSort _ _).mem_iff.1 hy)
    exact ⟨h1, h2, h3, y.1, h4⟩
  · rintro ⟨h1, h2, h3, n, h4⟩
    exact ⟨(n, c), (List.perm_insertionSort _ _).mem_iff.2
      ((mem_remaining_pairs codes (n, c)).2 ⟨h1, h2, h3, h4⟩), rfl⟩

theorem mem_responseCandidates (codes : GoMap (Response Proxy)) (c : String) :
    c ∈ responseCandidates codes ↔
      c ∈ codes.keys ∧ (c = OAS_response_code_ok ∨ c = OAS_response_code_created ∨
        ∃ n, successCode c = some n) := by
  have hrem := mem_remainingCandidates codes c
  unfold remainingCandidates at hrem
  unfold responseCandidates
  simp only [List.mem_append, hrem]
  constructor
  · rintro ((h | h) | h)
    · by_cases hk : OAS_response_code_ok ∈ codes.keys
      · rw [if_pos hk, List.mem_singleton] at h
        exact ⟨h ▸ hk, Or.inl h⟩
      · rw [if_neg hk] at h
        exact absurd h (List.not_mem_nil _)
    · by_cases hk : OAS_response_code_created ∈ codes.keys
      · rw [if_pos hk, List.mem_singleton] at h
        exact ⟨h ▸ hk, Or.inr (Or.inl h)⟩
      · rw [if_neg hk] at h
        exact absurd h (List.not_mem_nil _)
    · exact ⟨h.1, Or.inr (Or.inr h.2.2.2)⟩
  · rintro ⟨hk, h⟩
    by_cases h1 : c = OAS_response_code_ok
    · subst h1
      exact Or.inl (Or.inl (by rw [if_pos hk]; exact List.mem_singleton_self _))
    · by_cases h2 : c = OAS_response_code_created
      · subst h2
        exact Or.inl (Or.inr (by rw [if_pos hk]; exact List.mem_singleton_self _))
      · rcases h with h | h | h
        · exact absurd h h1
        · exact absurd h h2
        · exact Or.inr ⟨hk, h1, h2, h⟩

theorem find?_toList {R : Type} (P : R → Bool) (x : Option R) :
    x.toList.find? P = x.filter P := by
  cases x with
  | none => rfl
  | some r =>
    cases h : P r <;> simp [Option.toList, List.find?_cons, Option.filter, h]

/-- The selected response is found in the order `200`, `201`, remaining
candidates, among the responses with a usable schema. -/
theorem selectedResponse_or (codes : GoMap (Response Proxy)) :
    selectedResponse codes
      = ((usableResponse codes OAS_response_code_ok).or
          (usableResponse codes OAS_response_code_created)).or
          (((remainingCandidates codes).filterMap codes.get?).find?
            (fun response => hasUsableSchema response.Content)) := by
  rw [selectedResponse_eq, List.find?_append, List.find?_append, find?_toList, find?_toList]
  rfl

theorem BuildSchemaFromResponse_of_selected
    (buildSchema : Proxy → SchemaOpts → GlobalSchemaOpts → Except String (OASSchema Proxy Raw))
    (operation : Operation Proxy (Bodies Proxy)) (codes : GoMap (Response Proxy))
    (o : SchemaOpts) (g : GlobalSchemaOpts) (response : Response Proxy)
    (hc : operation.Rest.Responses = some codes)
    (hs : selectedResponse codes = some response) :
    BuildSchemaFromResponse buildSchema (some operation) o g
      = selectMediaTypeSchema buildSchema response.Content o g := by
  have he := entries_ne_nil_of_selectedResponse codes response hs
  simp only [BuildSchemaFromResponse, hc, he, hs]
  rfl

theorem BuildSchemaFromResponse_of_not_selected
    (buildSchema : Proxy → SchemaOpts → GlobalSchemaOpts → Except String (OASSchema Proxy Raw))
    (operation : Operation Proxy (Bodies Proxy)) (codes : GoMap (Response Proxy))
    (o : SchemaOpts) (g : GlobalSchemaOpts)
    (hc : operation.Rest.Responses = some codes)
    (hs : selectedResponse codes = none) :
    BuildSchemaFromResponse buildSchema (some operation) o g = .error ErrSchemaNotFound := by
  simp only [BuildSchemaFromResponse, hc, hs]
  cases codes.entries.isEmpty <;> rfl

theorem usableResponse_of_get? (codes : GoMap (Response Proxy)) (c : String)
    (r : Response Proxy) (hg : codes.get? c = some r)
    (hP : hasUsableSchema r.Content = true) : usableResponse codes c = some r := by
  simp only [usableResponse, hg, Option.filter, hP, if_true]

theorem get?_of_usableResponse (codes : GoMap (Response Proxy)) (c : String)
    (r : Response Proxy) (h : usableResponse codes c = some r) :
    codes.get? c = some r ∧ hasUsableSchema r.Content = true := by
  unfold usableResponse at h
  cases hg : codes.get? c with
  | none => rw [hg] at h; exact Option.noConfusion h
  | some r' =>
    rw [hg] at h
    simp only [Option.filter] at h
    by_cases hP : hasUsableSchema r'.Content = true
    · rw [if_pos hP] at h
      cases h
      exact ⟨rfl, hP⟩
    · rw [if_neg hP] at h
      exact Option.noConfusion h

/-- A content map yields a usable schema exactly when one of its media types
has a non-null schema. -/
theorem hasUsableSchema_iff (mediaTypes : GoMap (MediaType Proxy)) :
    hasUsableSchema mediaTypes = true ↔ ∃ k p, mediaTypeSchema mediaTypes k = some p := by
  unfold hasUsableSchema
  rw [List.any_eq_true]
  constructor
  · rintro ⟨k, -, hk⟩
    obtain ⟨p, hp⟩ := Option.isSome_iff_exists.1 hk
    exact ⟨k, p, hp⟩
  · rintro ⟨k, p, hp⟩
    refine ⟨k, (mem_sortedKeys _ _).2 (mem_keys_of_mediaTypeSchema _ k p hp), ?_⟩
    rw [hp]
    rfl

/-- C22: response-code priority. For an operation that declares the response
codes `codes`, the candidate codes are exactly the declared codes that are
`200`, `201` or parse as an integer in `[200,299]`. `BuildSchemaFromResponse`
takes the schema, by the media-type selection rule, from the response of `200`
when it is declared with a usable schema, else from that of `201`, else from
that of the numerically smallest remaining code in `[200,299]` with a usable
schema, and what it returns is what `BuildSchema` makes of a non-null schema of
that response. Codes that are not integers or lie outside `[200,299]` are no
candidates: an operation declaring only such codes, and more generally one
whose candidates yield no usable schema, fails with schema-not-found. -/
theorem response_code_priority
    (buildSchema : Proxy → SchemaOpts → GlobalSchemaOpts → Except String (OASSchema Proxy Raw))
    (operation : Operation Proxy (Bodies Proxy)) (codes : GoMap (Response Proxy))
    (o : SchemaOpts) (g : GlobalSchemaOpts)
    (hc : operation.Rest.Responses = some codes) :
    (∀ c, c ∈ responseCandidates codes ↔
      c ∈ codes.keys ∧ (c = OAS_response_code_ok ∨ c = OAS_response_code_created ∨
        ∃ n, successCode c = some n ∧ 200 ≤ n ∧ n ≤ 299)) ∧
    (∀ r, usableResponse codes OAS_response_code_ok = some r →
      BuildSchemaFromResponse buildSchema (some operation) o g
        = selectMediaTypeSchema buildSchema r.Content o g) ∧
    (∀ r, usableResponse codes OAS_response_code_ok = none →
      usableResponse codes OAS_response_code_created = some r →
      BuildSchemaFromResponse buildSchema (some operation) o g
        = selectMediaTypeSchema buildSchema r.Content o g) ∧
    (∀ c n r, usableResponse codes OAS_response_code_ok = none →
      usableResponse codes OAS_response_code_created = none →
      c ≠ OAS_response_code_ok → c ≠ OAS_response_code_created →
      successCode c = some n → usableResponse codes c = some r →
      (∀ c' n', c' ≠ c → c' ≠ OAS_response_code_ok → c' ≠ OAS_response_code_created →
        successCode c' = some n' → usableResponse codes c' ≠ none → n < n') →
      BuildSchemaFromResponse buildSchema (some operation) o g
        = selectMediaTypeSchema buildSchema r.Content o g) ∧
    (∀ r, selectedResponse codes = some r →
      ∃ k p, mediaTypeSchema r.Content k = some p ∧
        (k = OAS_mediatype_json ∨
          (mediaTypeSchema r.Content OAS_mediatype_json = none ∧
            ∀ k' p', mediaTypeSchema r.Content k' = some p' → k ≤ k')) ∧
        BuildSchemaFromResponse buildSchema (some operation) o g = buildSchema p o g) ∧
    ((∀ c ∈ responseCandidates codes, usableResponse codes c = none) →
      BuildSchemaFromResponse buildSchema (some operation) o g = .error ErrSchemaNotFound) ∧
    ((∀ c ∈ codes.keys,
        c ≠ OAS_response_code_ok ∧ c ≠ OAS_response_code_created ∧ successCode c = none) →
      BuildSchemaFromResponse buildSchema (some operation) o g = .error ErrSchemaNotFound) := by
  refine ⟨?_, ?_, ?_, ?_, ?_, ?_, ?_⟩
  · intro c
    rw [mem_responseCandidates]
    constructor
    · rintro ⟨hk, h⟩
      refine ⟨hk, ?_⟩
      rcases h with h | h | ⟨n, h⟩
      · exact Or.inl h
      · exact Or.inr (Or.inl h)
      · exact Or.inr (Or.inr ⟨n, h, successCode_range c n h⟩)
    · rintro ⟨hk, h⟩
      refine ⟨hk, ?_⟩
      rcases h with h | h | ⟨n, h, -⟩
      · exact Or.inl h
      · exact Or.inr (Or.inl h)
      · exact Or.inr (Or.inr ⟨n, h⟩)
  · intro r h1
    apply BuildSchemaFromResponse_of_selected buildSchema operation codes o g r hc
    rw [selectedResponse_or, h1]
    rfl
  · intro r h1 h2
    apply BuildSchemaFromResponse_of_selected buildSchema operation codes o g r hc
    rw [selectedResponse_or, h1, h2]
    rfl
  · intro c n r h1 h2 hc1 hc2 hn hr hmin
    apply BuildSchemaFromResponse_of_selected buildSchema operation codes o g r hc
    rw [selectedResponse_or, h1, h2]
    obtain ⟨hg, hP⟩ := get?_of_usableResponse codes c r hr
    have hfind := find?_filterMap_of_sorted codes.get?
      (fun response : Response Proxy => hasUsableSchema response.Content) (n, c) r hg hP _
      (remaining_pairs_sorted codes)
      ((List.perm_insertionSort _ _).mem_iff.2
        ((mem_remaining_pairs codes (n, c)).2 ⟨mem_keys_of_get? codes c r hg, hc1, hc2, hn⟩))
      (by
        intro y hy hne r' hg' hP'
        obtain ⟨-, hy2, hy3, hy4⟩ :=
          (mem_remaining_pairs codes y).1 ((List.perm_insertionSort _ _).mem_iff.1 hy)
        have hyc : y.2 ≠ c := by
          intro e
          apply hne
          rw [e, hn] at hy4
          injection hy4 with hy4
          exact Prod.ext hy4.symm e
        refine hmin y.2 y.1 hyc hy2 hy3 hy4 ?_
        rw [usableResponse_of_get? codes y.2 r' hg' hP']
        exact fun h => Option.noConfusion h)
    unfold remainingCandidates
    rw [hfind]
    rfl
  · intro r hs
    have hu : hasUsableSchema r.Content = true := by
      have := List.find?_some hs
      exact this
    obtain ⟨k, p, hk, hsel, hres⟩ := selectMediaTypeSchema_selected buildSchema r.Content o g
      ((hasUsableSchema_iff r.Content).1 hu)
    refine ⟨k, p, hk, hsel, ?_⟩
    rw [BuildSchemaFromResponse_of_selected buildSchema operation codes o g r hc hs, hres]
  · intro hall
    apply BuildSchemaFromResponse_of_not_selected buildSchema operation codes o g hc
    unfold selectedResponse
    rw [List.find?_eq_none]
    intro r hr
    obtain ⟨c, hcm, hg⟩ := List.mem_filterMap.1 hr
    intro hu
    have := usableResponse_of_get? codes c r hg hu
    rw [hall c hcm] at this
    exact Option.noConfusion this
  · intro hall
    apply BuildSchemaFromResponse_of_not_selected buildSchema operation codes o g hc
    unfold selectedResponse
    have : responseCandidates codes = [] := by
      rw [List.eq_nil_iff_forall_not_mem]
      intro c hmem
      obtain ⟨hk, h⟩ := (mem_responseCandidates codes c).1 hmem
      obtain ⟨h1, h2, h3⟩ := hall c hk
      rcases h with h | h | ⟨n, h⟩
      · exact h1 h
      · exact h2 h
      · rw [h3] at h; exact Option.noConfusion h
    rw [this]
    rfl

end

/-- C22, witness: with the codes `304` and `204`, the code `204` is the only
candidate and its `application/jay-son` string schema is returned; with `200`
declared with a null schema only and `201` with a string schema, the schema of
`201` is returned; with the codes `300`, `skip-me!` and `199` the resolution
fails with schema-not-found. -/
theorem response_code_priority_witness :
    (sampleOperation none (some sampleCodesSuccess)).Rest.Responses = some sampleCodesSuccess ∧
    responseCandidates sampleCodesSuccess = ["204"] ∧
    BuildSchemaFromResponse sampleBuilders.BuildSchema
        (some (sampleOperation none (some sampleCodesSuccess))) {} {}
      = selectMediaTypeSchema sampleBuilders.BuildSchema
          (⟨[("application/xml", ⟨some "boolean"⟩), ("application/jay-son", ⟨some "string"⟩)],
            by decide⟩ : GoMap (MediaType String)) {} {} ∧
    selectMediaTypeSchema sampleBuilders.BuildSchema
          (⟨[("application/xml", ⟨some "boolean"⟩), ("application/jay-son", ⟨some "string"⟩)],
            by decide⟩ : GoMap (MediaType String)) {} {}
      = .ok ⟨"string", ⟨[], List.nodup_nil⟩, ""⟩ ∧
    usableResponse sampleCodesNullOk "200" = none ∧
    BuildSchemaFromResponse sampleBuilders.BuildSchema
        (some (sampleOperation none (some sampleCodesNullOk))) {} {}
      = selectMediaTypeSchema sampleBuilders.BuildSchema
          (⟨[("application/json", ⟨some "string"⟩)], by decide⟩ : GoMap (MediaType String))
          {} {} ∧
    BuildSchemaFromResponse sampleBuilders.BuildSchema
        (some (sampleOperation none (some sampleCodesNoSuccess))) {} {}
      = .error ErrSchemaNotFound := by
  refine ⟨rfl, by decide,
    (response_code_priority sampleBuilders.BuildSchema
      (sampleOperation none (some sampleCodesSuccess)) sampleCodesSuccess {} {} rfl).2.2.2.1
      "204" 204 _ rfl rfl (by decide) (by decide) (by decide) rfl ?_, rfl, rfl,
    (response_code_priority sampleBuilders.BuildSchema
      (sampleOperation none (some sampleCodesNullOk)) sampleCodesNullOk {} {} rfl).2.2.1
      _ rfl rfl,
    (response_code_priority sampleBuilders.BuildSchema
      (sampleOperation none (some sampleCodesNoSuccess)) sampleCodesNoSuccess {} {}
      rfl).2.2.2.2.2.2 (by decide)⟩
  intro c n h1 _ _ hn hr
  cases hg : usableResponse sampleCodesSuccess c with
  | none => exact absurd hg hr
  | some r =>
    have hk := mem_keys_of_get? _ c r (get?_of_usableResponse _ c r hg).1
    have hk2 : c = "304" ∨ c = "204" := by
      simpa [sampleCodesSuccess, GoMap.keys] using hk
    rcases hk2 with e | e
    · rw [e, (by decide : successCode "304" = none)] at hn
      exact Option.noConfusion hn
    · exact absurd e h1

/-! ### The nullability normalizer -/

theorem sortedKeys_of_keys_perm {V W : Type} (m : GoMap V) (m' : GoMap W)
    (h : m'.keys.Perm m.keys) : SortedKeys m' = SortedKeys m := by
  have hp : (SortedKeys m').Perm (SortedKeys m) :=
    ((sortedKeys_perm m').trans h).trans (sortedKeys_perm m).symm
  have h1 : (SortedKeys m').Sorted (fun a b : String => a ≤ b) :=
    (sortedKeys_sorted_le m').imp (fun h => String.le_iff_toList_le.2 h)
  have h2 : (SortedKeys m).Sorted (fun a b : String => a ≤ b) :=
    (sortedKeys_sorted_le m).imp (fun h => String.le_iff_toList_le.2 h)
  exact List.eq_of_perm_of_sorted hp h1 h2

section
variable {Proxy Rest Raw : Type}

theorem buildResourceAttributesLoop_cons [Inhabited Proxy] (b : Builders Proxy Rest Raw)
    (r : ResourceBuilders Proxy Raw) (s : OASSchema Proxy Raw) (name : String)
    (rest : List String) (acc : List resource.Attribute) :
    buildResourceAttributesLoop b r s (name :: rest) acc
      = match buildResourceProperty b r s name with
        | .error err => .error err
        | .ok attr => buildResourceAttributesLoop b r s rest (acc ++ [attr]) := by
  rw [buildResourceAttributesLoop, buildResourceProperty]
  cases b.BuildSchema (s.Properties.get name) {} {} with
  | error err => rfl
  | ok pSchema =>
    dsimp only
    cases BuildResourceAttribute r pSchema name (b.GetBehavior s name) with
    | error err => rfl
    | ok attr => rfl

/-- The loop of `BuildResourceAttributes` reads the properties of the schema
only through what is built for each of them. -/
theorem buildResourceAttributesLoop_congr [Inhabited Proxy] (b : Builders Proxy Rest Raw)
    (r : ResourceBuilders Proxy Raw) (s s' : OASSchema Proxy Raw) :
    ∀ (propertyNames : List String) (acc : List resource.Attribute),
      (∀ name ∈ propertyNames,
        buildResourceProperty b r s name = buildResourceProperty b r s' name) →
      buildResourceAttributesLoop b r s propertyNames acc
        = buildResourceAttributesLoop b r s' propertyNames acc := by
  intro propertyNames
  induction propertyNames with
  | nil => intro acc _; rfl
  | cons name rest ih =>
    intro acc h
    rw [buildResourceAttributesLoop_cons, buildResourceAttributesLoop_cons,
      h name (List.mem_cons_self _ _)]
    cases buildResourceProperty b r s' name with
    | error err => rfl
    | ok attr => exact ih _ (fun n hn => h n (List.mem_cons_of_mem _ hn))

end

section
variable {Proxy : Type}

theorem BuildSchema_of_encodesNullable (node : Proxy → RawSchema Proxy) (T : String)
    (branch e : Proxy) (opts : SchemaOpts) (g : GlobalSchemaOpts)
    (h : encodesNullable node T branch e) :
    BuildSchema node e opts g = .ok (resolvedAs T true opts (node branch)) := by
  obtain ⟨hb, hT, h | ⟨nul, hn, hty, h⟩ | ⟨nul, hn, hty, hany, h⟩⟩ := h
  · rcases h with he | he
    · simp only [BuildSchema, he, normalize, nullableTypeSet, if_true]
      rfl
    · simp only [BuildSchema, he, normalize, nullableTypeSet, if_neg hT, if_true]
      rfl
  · rcases h with he | he <;>
      simp [BuildSchema, normalize, nullableTypeSet, hty, he, nullableUnion, hn, singleType,
        hb, hT]
  · rcases h with he | he <;>
      simp [BuildSchema, normalize, nullableTypeSet, hty, hany, he, nullableUnion, hn,
        singleType, hb, hT]

theorem BuildSchema_of_single_type (node : Proxy → RawSchema Proxy) (T : String) (p : Proxy)
    (opts : SchemaOpts) (g : GlobalSchemaOpts) (hT : T ≠ OAS_type_null)
    (hty : (node p).Type_ = [T]) (hany : (node p).AnyOf = []) (hone : (node p).OneOf = []) :
    BuildSchema node p opts g = .ok (resolvedAs T false opts (node p)) := by
  simp only [BuildSchema, normalize, nullableTypeSet, hty, hany, hone, nullableUnion,
    singleType, if_neg hT]

end

section
variable {Proxy : Type}

theorem BuildResourceAttribute_array {Raw : Type} (r : ResourceBuilders Proxy Raw)
    (s : OASSchema Proxy Raw) (name : String) (k : Computability)
    (h : s.Type_ = OAS_type_array) :
    BuildResourceAttribute r s name k = r.BuildListResource s name k := by
  simp [BuildResourceAttribute, h, OAS_type_array, OAS_type_string, OAS_type_integer,
    OAS_type_number, OAS_type_boolean]

theorem BuildResourceAttribute_primitive (node : Proxy → RawSchema Proxy)
    (nested : OASSchema Proxy (ResolvedSchema Proxy) → Except String (List resource.Attribute))
    (elementType : OASSchema Proxy (ResolvedSchema Proxy) → Except String ElementType)
    (s : OASSchema Proxy (ResolvedSchema Proxy)) (name : String) (k : Computability)
    (v : Variant) (h : primitiveVariant s.Type_ = some v) :
    BuildResourceAttribute (specResourceBuilders node nested elementType) s name k
      = .ok (.mk name k s.Schema.description s.Schema.sensitive v) := by
  unfold primitiveVariant at h
  unfold BuildResourceAttribute
  by_cases h1 : s.Type_ = OAS_type_string
  · rw [if_pos h1] at h ⊢
    cases h; rfl
  · rw [if_neg h1] at h ⊢
    by_cases h2 : s.Type_ = OAS_type_integer
    · rw [if_pos h2] at h ⊢
      cases h; rfl
    · rw [if_neg h2] at h ⊢
      by_cases h3 : s.Type_ = OAS_type_number
      · rw [if_pos h3] at h ⊢
        cases h; rfl
      · rw [if_neg h3] at h ⊢
        by_cases h4 : s.Type_ = OAS_type_boolean
        · rw [if_pos h4] at h ⊢
          cases h; rfl
        · rw [if_neg h4] at h
          exact Option.noConfusion h

theorem buildResourceProperty_of_encodesNullable [Inhabited Proxy]
    (node : Proxy → RawSchema Proxy)
    (getBehavior : ResolvedSchema Proxy → String → Computability)
    (nested : OASSchema Proxy (ResolvedSchema Proxy) → Except String (List resource.Attribute))
    (elementType : OASSchema Proxy (ResolvedSchema Proxy) → Except String ElementType)
    (s : OASSchema Proxy (ResolvedSchema Proxy)) (name T : String) (branch : Proxy)
    (h : encodesNullable node T branch (s.Properties.get name)) :
    buildResourceProperty (specBuilders node getBehavior nested elementType)
        (specResourceBuilders node nested elementType) s name
      = match BuildResourceAttribute (specResourceBuilders node nested elementType)
            (resolvedAs T true {} (node branch)) name (getBehavior s.Schema name) with
        | .error err =>
          .error ("failed to create object property '" ++ name ++ "' schema - " ++ err)
        | .ok attr => .ok attr := by
  unfold buildResourceProperty
  have hb : (specBuilders node getBehavior nested elementType).BuildSchema
      (s.Properties.get name) {} {} = .ok (resolvedAs T true {} (node branch)) :=
    BuildSchema_of_encodesNullable node T branch _ {} {} h
  rw [hb]
  rfl

theorem buildResourceProperty_of_sameUpToNullEncoding [Inhabited Proxy]
    (node : Proxy → RawSchema Proxy)
    (getBehavior : ResolvedSchema Proxy → String → Computability)
    (nested : OASSchema Proxy (ResolvedSchema Proxy) → Except String (List resource.Attribute))
    (elementType : OASSchema Proxy (ResolvedSchema Proxy) → Except String ElementType)
    (s s' : OASSchema Proxy (ResolvedSchema Proxy)) (name : String)
    (hschema : s.Schema = s'.Schema)
    (h : sameUpToNullEncoding node (s.Properties.get name) (s'.Properties.get name)) :
    buildResourceProperty (specBuilders node getBehavior nested elementType)
        (specResourceBuilders node nested elementType) s name
      = buildResourceProperty (specBuilders node getBehavior nested elementType)
        (specResourceBuilders node nested elementType) s' name := by
  rcases h with h | ⟨T, branch, h1, h2⟩ | ⟨T, branch, e, f, he, hf, hty, hany, hone, hitems, hq⟩
  · unfold buildResourceProperty
    simp only [specBuilders, h, hschema]
  · rw [buildResourceProperty_of_encodesNullable node getBehavior nested elementType s name T
        branch h1,
      buildResourceProperty_of_encodesNullable node getBehavior nested elementType s' name T
        branch h2, hschema]
  · have harr : OAS_type_array ≠ OAS_type_null := by decide
    have hp := BuildSchema_of_single_type node OAS_type_array (s.Properties.get name) {} {}
      harr hty hany hone
    have hq1 := BuildSchema_of_single_type node OAS_type_array (s'.Properties.get name) {} {}
      harr (by rw [hq]; exact hty) (by rw [hq]; exact hany) (by rw [hq]; exact hone)
    unfold buildResourceProperty
    have hb1 : (specBuilders node getBehavior nested elementType).BuildSchema
        (s.Properties.get name) {} {} = _ := hp
    have hb2 : (specBuilders node getBehavior nested elementType).BuildSchema
        (s'.Properties.get name) {} {} = _ := hq1
    have hg : ∀ t : OASSchema Proxy (ResolvedSchema Proxy),
        (specBuilders node getBehavior nested elementType).GetBehavior t name
          = getBehavior t.Schema name := fun _ => rfl
    rw [hb1, hb2, hg, hg, hschema]
    dsimp only
    rw [BuildResourceAttribute_array _ _ _ _ rfl, BuildResourceAttribute_array _ _ _ _ rfl]
    have hlist : ∀ (p : Proxy) (x : Proxy) (k : Computability),
        (node p).Items = some x → encodesNullable node T branch x →
        (specResourceBuilders node nested elementType).BuildListResource
            (resolvedAs OAS_type_array false {} (node p)) name k
          = if (resolvedAs T true ({} : SchemaOpts) (node branch)).Type_ = OAS_type_object then
              match nested (resolvedAs T true {} (node branch)) with
              | .error err => .error err
              | .ok attributes =>
                .ok (.mk name k (node p).Description false (.ListNested attributes))
            else
              match elementType (resolvedAs T true {} (node branch)) with
              | .error err => .error err
              | .ok et => .ok (.mk name k (node p).Description false (.List et)) := by
      intro p x k hi hx
      simp only [specResourceBuilders, BuildListResource, resolvedAs, hi,
        BuildSchema_of_encodesNullable node T branch x {} {} hx]
      rfl
    rw [hlist _ e _ hitems he, hlist _ f _ (by rw [hq]) hf, hq]

end

section
variable {Proxy : Type}

/-- C24: nullability equivalence. A proxy that declares the type `T` of a node
as nullable resolves, in each of the three encodings and with the null entry or
null branch in either position, to the same schema: core type `T`, nullable,
read from that node. Hence two object schemas whose properties are declared in
the same way up to the encoding of nullability, of the property itself or of
the items of a list property, get the same result from
`BuildResourceAttributes`; and a nullable property of primitive type gets the
attribute of that variant with the computability of the property, the
description of the node and its sensitivity marker (false when it has none). -/
theorem nullability_equivalence [Inhabited Proxy] (node : Proxy → RawSchema Proxy)
    (getBehavior : ResolvedSchema Proxy → String → Computability)
    (nested : OASSchema Proxy (ResolvedSchema Proxy) → Except String (List resource.Attribute))
    (elementType : OASSchema Proxy (ResolvedSchema Proxy) → Except String ElementType)
    (s s' : OASSchema Proxy (ResolvedSchema Proxy))
    (hschema : s.Schema = s'.Schema)
    (hkeys : s'.Properties.keys.Perm s.Properties.keys)
    (hprops : ∀ name ∈ s.Properties.keys,
      sameUpToNullEncoding node (s.Properties.get name) (s'.Properties.get name)) :
    (∀ T branch e opts g, encodesNullable node T branch e →
      BuildSchema node e opts g = .ok (resolvedAs T true opts (node branch))) ∧
    BuildResourceAttributes (specBuilders node getBehavior nested elementType)
        (specResourceBuilders node nested elementType) s
      = BuildResourceAttributes (specBuilders node getBehavior nested elementType)
        (specResourceBuilders node nested elementType) s' ∧
    (∀ name T branch v, encodesNullable node T branch (s.Properties.get name) →
      primitiveVariant T = some v →
      builtForResourceProperty (specBuilders node getBehavior nested elementType)
        (specResourceBuilders node nested elementType) s name
        (.mk name (getBehavior s.Schema name) (node branch).Description
          (node branch).Sensitive v)) := by
  refine ⟨fun T branch e opts g h => BuildSchema_of_encodesNullable node T branch e opts g h,
    ?_, ?_⟩
  · unfold BuildResourceAttributes
    rw [sortedKeys_of_keys_perm s.Properties s'.Properties hkeys]
    apply buildResourceAttributesLoop_congr
    intro name hn
    exact buildResourceProperty_of_sameUpToNullEncoding node getBehavior nested elementType
      s s' name hschema (hprops name ((mem_sortedKeys _ _).1 hn))
  · intro name T branch v h hv
    refine ⟨resolvedAs T true {} (node branch),
      BuildSchema_of_encodesNullable node T branch _ {} {} h, ?_⟩
    exact BuildResourceAttribute_primitive node nested elementType
      (resolvedAs T true {} (node branch)) name _ v hv

end

/-- C24, witness: the object nodes 7 and 8 declare `nick` as a nullable string
by a type array and by `anyOf`, and `tags` as a list whose items are a nullable
string by a type array and by `oneOf` with the null branch last; both give the
same two attributes. -/
theorem nullability_equivalence_witness :
    encodesNullable sampleNode "string" 1 2 ∧
    encodesNullable sampleNode "string" 1 3 ∧
    encodesNullable sampleNode "string" 1 4 ∧
    BuildSchema sampleNode 7 {} {} = .ok (resolvedAs "object" false {} (sampleNode 7)) ∧
    BuildSchema sampleNode 8 {} {} = .ok (resolvedAs "object" false {} (sampleNode 8)) ∧
    BuildResourceAttributes sampleSpecBuilders sampleSpecResourceBuilders
        (resolvedAs "object" false {} (sampleNode 7))
      = .ok [.mk "nick" .ComputedOptional (some "a nullable string") false .String,
          .mk "tags" .Required (some "a list of nullable strings") false (.List .String)] ∧
    BuildResourceAttributes sampleSpecBuilders sampleSpecResourceBuilders
        (resolvedAs "object" false {} (sampleNode 7))
      = BuildResourceAttributes sampleSpecBuilders sampleSpecResourceBuilders
        (resolvedAs "object" false {} (sampleNode 8)) := by
  have enc2 : encodesNullable sampleNode "string" 1 2 :=
    ⟨rfl, by decide, Or.inl (Or.inl rfl)⟩
  have enc3 : encodesNullable sampleNode "string" 1 3 :=
    ⟨rfl, by decide, Or.inr (Or.inl ⟨0, rfl, rfl, Or.inl rfl⟩)⟩
  have enc4 : encodesNullable sampleNode "string" 1 4 :=
    ⟨rfl, by decide, Or.inr (Or.inr ⟨0, rfl, rfl, rfl, Or.inr rfl⟩)⟩
  refine ⟨enc2, enc3, enc4, rfl, rfl, rfl,
    (nullability_equivalence sampleNode sampleGetBehavior
      (buildNestedResourceAttributes sampleNode sampleGetBehavior 2)
      (BuildElementType sampleNode sampleGetBehavior 2)
      (resolvedAs "object" false {} (sampleNode 7))
      (resolvedAs "object" false {} (sampleNode 8)) rfl (List.Perm.swap _ _ _) ?_).2.1⟩
  intro name hn
  have hcases : name = "tags" ∨ name = "nick" := by
    simpa [resolvedAs, sampleNode, GoMap.keys] using hn
  rcases hcases with h | h
  · subst h
    exact Or.inr (Or.inr ⟨"string", 1, 2, 4, enc2, enc4, rfl, rfl, rfl, rfl, rfl⟩)
  · subst h
    exact Or.inr (Or.inl ⟨"string", 1, enc2, enc3⟩)
end Mapper
